import Mathlib

/-!
# Store ratings platform: validation, aggregation and rating submission

A shallow embedding of `backend/src/validation.js`, of the aggregation code of
`backend/src/server.js` and `backend/src/auth.js`, and of `upsertRating`.

JavaScript strings are sequences of UTF-16 code units; `length` counts code
units and a regular expression without the `u` flag matches code units.  A
string is therefore a `List Nat` of code units.  A request field that may be
absent is an `Option` (`none` is `undefined`).

An average is a Number: the quotient of the integer sum by the count is rounded
to the nearest double, `roundDouble`, which is computed on the rationals.
-/

namespace StoreRatings

/-! ## Strings -/

/-- A JavaScript string: its UTF-16 code units. -/
abbrev JsString := List Nat

/-- The UTF-16 code units of one Unicode scalar value. -/
def utf16Units (c : Char) : List Nat :=
  if c.toNat < 65536 then [c.toNat]
  else [55296 + (c.toNat - 65536) / 1024, 56320 + (c.toNat - 65536) % 1024]

/-- The JavaScript string denoted by a literal. -/
def utf16 (s : String) : JsString :=
  s.toList.flatMap utf16Units

/-! ## Regular expressions

The regular expressions of `validation.js` use character classes, literal
characters, `+`, and the anchors `^` and `$`.  They are embedded as a syntax
tree and run by a derivative matcher. -/

/-- Regular expressions over code units. -/
inductive Regex where
  | fail : Regex
  | eps : Regex
  | cls (p : Nat → Bool) : Regex
  | seq (a b : Regex) : Regex
  | alt (a b : Regex) : Regex
  | star (a : Regex) : Regex

namespace Regex

/-- The literal character `c`. -/
def chr (c : Nat) : Regex := cls (fun x => x == c)

/-- The quantifier `r+`. -/
def plus (r : Regex) : Regex := seq r (star r)

/-- Any code unit at all. -/
def anyUnit : Regex := cls (fun _ => true)

/-- Whether `r` matches the empty string. -/
def nullable : Regex → Bool
  | fail => false
  | eps => true
  | cls _ => false
  | seq a b => a.nullable && b.nullable
  | alt a b => a.nullable || b.nullable
  | star _ => true

/-- The derivative of `r` by the code unit `c`. -/
def deriv : Regex → Nat → Regex
  | fail, _ => fail
  | eps, _ => fail
  | cls p, c => if p c then eps else fail
  | seq a b, c =>
    if a.nullable then alt (seq (a.deriv c) b) (b.deriv c) else seq (a.deriv c) b
  | alt a b, c => alt (a.deriv c) (b.deriv c)
  | star a, c => seq (a.deriv c) (star a)

/-- Whether `r` matches the whole of `s`. -/
def rmatch (r : Regex) : JsString → Bool
  | [] => r.nullable
  | c :: cs => (r.deriv c).rmatch cs

/-- `RegExp.prototype.test` for a pattern `/^r$/`: the whole input must match. -/
def testAnchored (r : Regex) (s : JsString) : Bool :=
  r.rmatch s

/-- `RegExp.prototype.test` for a pattern `/r/` without anchors: some
substring must match. -/
def testSearch (r : Regex) (s : JsString) : Bool :=
  (seq (star anyUnit) (seq r (star anyUnit))).rmatch s

/-- The strings a regular expression denotes. -/
def lang : Regex → JsString → Prop
  | fail, _ => False
  | eps, s => s = []
  | cls p, s => ∃ c, p c = true ∧ s = [c]
  | seq a b, s => ∃ x y, s = x ++ y ∧ a.lang x ∧ b.lang y
  | alt a b, s => a.lang s ∨ b.lang s
  | star a, s => ∃ L : List JsString, s = L.flatten ∧ ∀ x ∈ L, x ≠ [] ∧ a.lang x

end Regex

/-! ## Character classes of `validation.js` -/

/-- The class `\s`: the ECMAScript white space and line terminator code units. -/
def isWhiteSpace (c : Nat) : Bool :=
  c == 9 || c == 10 || c == 11 || c == 12 || c == 13 || c == 32 || c == 160 ||
  c == 5760 || (8192 ≤ c && c ≤ 8202) || c == 8232 || c == 8233 || c == 8239 ||
  c == 8287 || c == 12288 || c == 65279

/-- The class `[^\s@]`. -/
def notSpaceAt (c : Nat) : Bool :=
  !(isWhiteSpace c || c == 64)

/-- The class `[A-Z]`. -/
def isUpperAZ (c : Nat) : Bool :=
  65 ≤ c && c ≤ 90

/-- The class `[^A-Za-z0-9]`. -/
def notAlnum (c : Nat) : Bool :=
  !((65 ≤ c && c ≤ 90) || (97 ≤ c && c ≤ 122) || (48 ≤ c && c ≤ 57))

/-- The pattern `/^[^\s@]+@[^\s@]+\.[^\s@]+$/` of `validateEmail`. -/
def emailRegex : Regex :=
  .seq (.plus (.cls notSpaceAt))
    (.seq (.chr 64)
      (.seq (.plus (.cls notSpaceAt))
        (.seq (.chr 46) (.plus (.cls notSpaceAt)))))

/-! ## `validation.js` -/

def NAME_MIN : Nat := 20

def NAME_MAX : Nat := 60

def ADDRESS_MAX : Nat := 400

/-- JavaScript truthiness of a field that is a string or `undefined`. -/
def truthy : Option JsString → Bool
  | none => false
  | some s => !s.isEmpty

/-- The `length` of a field that is a string. -/
def strLength : Option JsString → Nat
  | none => 0
  | some s => s.length

/-- The function `validateName`: `null` is `none`. -/
def validateName (name : Option JsString) : Option String :=
  if !truthy name then some "Name is required"
  else if strLength name < NAME_MIN then
    some ("Name must be at least " ++ toString NAME_MIN ++ " characters")
  else if strLength name > NAME_MAX then
    some ("Name must be at most " ++ toString NAME_MAX ++ " characters")
  else none

/-- The function `validateAddress`. -/
def validateAddress (address : Option JsString) : Option String :=
  if !truthy address then some "Address is required"
  else if strLength address > ADDRESS_MAX then
    some ("Address must be at most " ++ toString ADDRESS_MAX ++ " characters")
  else none

/-- The function `validateEmail`. -/
def validateEmail (email : Option JsString) : Option String :=
  if !truthy email then some "Email is required"
  else if !emailRegex.testAnchored (email.getD []) then some "Email is invalid"
  else none

/-- The function `validatePassword`. -/
def validatePassword (password : Option JsString) : Option String :=
  if !truthy password then some "Password is required"
  else if strLength password < 8 || strLength password > 16 then
    some "Password must be 8-16 characters long"
  else if !(Regex.cls isUpperAZ).testSearch (password.getD []) then
    some "Password must include at least one uppercase letter"
  else if !(Regex.cls notAlnum).testSearch (password.getD []) then
    some "Password must include at least one special character"
  else none

/-- A plain object with string keys, as the list of its entries in the order
`Object.entries` and `Object.keys` list them: insertion order for keys that are
not array indices. -/
abbrev JsObject (α : Type) := List (String × α)

/-- The assignment `o[k] = v` of a value that is not an object, on an object
created by `{}`: overwrite the entry of `k`, or add one.  The key `__proto__`
is the accessor of `Object.prototype`: its setter ignores such a value, and no
entry is stored. -/
def JsObject.set {α : Type} (o : JsObject α) (k : String) (v : α) : JsObject α :=
  if k == "__proto__" then o
  else if o.any (fun e => e.1 == k) then o.map (fun e => if e.1 == k then (k, v) else e)
  else o ++ [(k, v)]

/-- The keys of an object, `Object.keys`. -/
def JsObject.keys {α : Type} (o : JsObject α) : List String :=
  o.map Prod.fst

/-- JavaScript truthiness of a validator result: `null` and the empty string
are falsy. -/
def msgTruthy : Option String → Bool
  | none => false
  | some m => m != ""

/-- The function `collectValidationErrors`: `fields` is the object of named
validator thunks, the result is the object of messages or `null`. -/
def collectValidationErrors (fields : JsObject (Unit → Option String)) :
    Option (JsObject String) :=
  let errors : JsObject String := fields.foldl
    (fun errors entry =>
      let error := entry.2 ()
      if msgTruthy error then errors.set entry.1 (error.getD "") else errors)
    []
  if errors.keys.length != 0 then some errors else none

/-- The validators of a sign-up whose name is empty and whose e-mail is `a@b.c`. -/
def exampleFields : JsObject (Unit → Option String) :=
  [("name", fun _ => validateName (some [])),
   ("email", fun _ => validateEmail (some (utf16 "a@b.c")))]

/-- The entries `collectValidationErrors` reports: the failed validators whose
name is not `__proto__`, each with its message. -/
def failingEntries (fields : JsObject (Unit → Option String)) : JsObject String :=
  fields.filterMap
    (fun e =>
      if e.1 != "__proto__" && msgTruthy (e.2 ()) then some (e.1, (e.2 ()).getD "")
      else none)

/-- An object whose only validator is named `__proto__` and fails. -/
def protoFields : JsObject (Unit → Option String) :=
  [("__proto__", fun _ => some "bad")]

/-! ## The schema of `models.js` -/

/-- The `role` enumeration of the `users` table. -/
inductive Role where
  | ADMIN : Role
  | USER : Role
  | STORE_OWNER : Role
  deriving DecidableEq, Repr

/-- A row of the `users` table. -/
structure User where
  id : Nat
  name : JsString
  email : JsString
  passwordHash : JsString
  address : JsString
  role : Role
  deriving DecidableEq, Repr

/-- A row of the `stores` table; `ownerId` comes from the `belongsTo` association. -/
structure Store where
  id : Nat
  name : JsString
  email : JsString
  address : JsString
  ownerId : Option Nat
  deriving DecidableEq, Repr

/-- A row of the `ratings` table; `UserId` and `StoreId` come from the
associations. -/
structure Rating where
  id : Nat
  rating : Int
  UserId : Nat
  StoreId : Nat
  deriving DecidableEq, Repr

/-- The database: the three tables and their auto-increment counters. -/
structure Db where
  users : List User
  stores : List Store
  ratings : List Rating
  nextUserId : Nat
  nextStoreId : Nat
  nextRatingId : Nat
  deriving DecidableEq, Repr

/-- A rating instance as a query returns it: the row, and the `User` it
belongs to when the query includes that association. -/
structure LoadedRating where
  row : Rating
  User : Option User
  deriving DecidableEq, Repr

/-- A store instance loaded with `include: [Rating]`: the row and its `Ratings`. -/
structure LoadedStore where
  row : Store
  Ratings : List LoadedRating
  deriving DecidableEq, Repr

namespace Db

/-- The ratings of one store, each with its user when `withUser` is set. -/
def loadRatings (db : Db) (storeId : Nat) (withUser : Bool) : List LoadedRating :=
  (db.ratings.filter (fun r => r.StoreId == storeId)).map
    (fun r => ⟨r, if withUser then db.users.find? (fun u => u.id == r.UserId) else none⟩)

/-- The query `Store.findAll` with a `where` clause and `include: [Rating]`. -/
def findAllStores (db : Db) (cond : Store → Bool) (withUser : Bool) : List LoadedStore :=
  (db.stores.filter cond).map (fun s => ⟨s, db.loadRatings s.id withUser⟩)

/-- The query `Store.findByPk`. -/
def findStoreByPk (db : Db) (storeId : Nat) : Option Store :=
  db.stores.find? (fun s => s.id == storeId)

/-- The query `Rating.findOne` with `where: UserId, StoreId`. -/
def findOneRating (db : Db) (userId storeId : Nat) : Option Rating :=
  db.ratings.find? (fun r => r.UserId == userId && r.StoreId == storeId)

/-- The model validation `min: 1, max: 5` of the `rating` column. -/
def validRatingValue (v : Int) : Bool :=
  1 ≤ v && v ≤ 5

/-- The call `Rating.create`: `none` when the insert throws, which it does on
a value outside `min`/`max`, on a missing user or store (foreign keys), and on a
second row for the pair (unique index). -/
def createRating (db : Db) (v : Int) (userId storeId : Nat) : Option (Rating × Db) :=
  if !validRatingValue v then none
  else if !db.users.any (fun u => u.id == userId) then none
  else if !db.stores.any (fun s => s.id == storeId) then none
  else if db.ratings.any (fun r => r.UserId == userId && r.StoreId == storeId) then none
  else
    let row : Rating := ⟨db.nextRatingId, v, userId, storeId⟩
    some (row, { db with ratings := db.ratings ++ [row], nextRatingId := db.nextRatingId + 1 })

/-- The call `existing.save()` after `existing.rating = v`: an update of the
row with that primary key; `none` when the model validation throws. -/
def saveRating (db : Db) (existing : Rating) (v : Int) : Option (Rating × Db) :=
  if !validRatingValue v then none
  else
    some ({ existing with rating := v },
      { db with
        ratings :=
          db.ratings.map (fun r => if r.id == existing.id then { r with rating := v } else r) })

end Db

/-! ## Rating aggregation (`server.js`, `auth.js`) -/

/-- Rounding to the nearest integer, a tie going to the even one. -/
def roundHalfEven (x : ℚ) : Int :=
  if x - ⌊x⌋ < 1 / 2 then ⌊x⌋
  else if 1 / 2 < x - ⌊x⌋ then ⌊x⌋ + 1
  else if ⌊x⌋ % 2 = 0 then ⌊x⌋
  else ⌊x⌋ + 1

/-- The Number (IEEE 754 double) nearest to a rational, as a rational: 53
significant bits, a tie going to the even significand.  With `2^e ≤ |q| <
2^(e+1)` the doubles around `q` are the multiples of `2^(e-52)`.  The exponent
range of a double is not modelled: a sum of stored integers over a count does
not leave it. -/
def roundDouble (q : ℚ) : ℚ :=
  if q = 0 then 0
  else (roundHalfEven (q / 2 ^ (Int.log 2 |q| - 52)) : ℚ) * 2 ^ (Int.log 2 |q| - 52)

/-- The expression `count ? ratings.reduce((sum, r) => sum + r.rating, 0) / count : null`.
The sum of the integers is exact (Numbers add integers exactly below `2^53`);
the quotient is the Number division, rounded to the nearest double. -/
def averageOf (ratings : List LoadedRating) : Option ℚ :=
  let count := ratings.length
  if count != 0 then
    some (roundDouble
      (((ratings.foldl (fun sum r => sum + r.row.rating) (0 : Int) : Int) : ℚ) / (count : ℚ)))
  else none

/-- An element of the response of `GET /api/admin/stores`. -/
structure AdminStoreRow where
  id : Nat
  name : JsString
  email : JsString
  address : JsString
  rating : Option ℚ
  ratingCount : Nat
  deriving DecidableEq

/-- The callback of `stores.map` in `GET /api/admin/stores`. -/
def adminStoreRow (store : LoadedStore) : AdminStoreRow :=
  let ratings := store.Ratings
  let count := ratings.length
  let avg := averageOf ratings
  { id := store.row.id, name := store.row.name, email := store.row.email,
    address := store.row.address, rating := avg, ratingCount := count }

/-- The response of `GET /api/admin/stores` for the stores the query returned. -/
def adminStoresResult (stores : List LoadedStore) : List AdminStoreRow :=
  stores.map adminStoreRow

/-- The expression `ratings.find((r) => r.UserId === userId)?.rating || null`:
a Number is falsy when it is `0`. -/
def userRatingOf (ratings : List LoadedRating) (userId : Nat) : Option Int :=
  match ratings.find? (fun r => r.row.UserId == userId) with
  | none => none
  | some r => if r.row.rating != 0 then some r.row.rating else none

/-- An element of the response of `GET /api/stores`. -/
structure UserStoreRow where
  id : Nat
  name : JsString
  address : JsString
  overallRating : Option ℚ
  ratingCount : Nat
  userRating : Option Int
  deriving DecidableEq

/-- The callback of `stores.map` in `GET /api/stores`. -/
def userStoreRow (userId : Nat) (store : LoadedStore) : UserStoreRow :=
  let ratings := store.Ratings
  let count := ratings.length
  let avg := averageOf ratings
  let userRating := userRatingOf ratings userId
  { id := store.row.id, name := store.row.name, address := store.row.address,
    overallRating := avg, ratingCount := count, userRating := userRating }

/-- The response of `GET /api/stores` for the viewer `userId`. -/
def userStoresResult (userId : Nat) (stores : List LoadedStore) : List UserStoreRow :=
  stores.map (userStoreRow userId)

/-- The `user` object of a dashboard rating. -/
structure DashboardUser where
  id : Nat
  name : JsString
  email : JsString
  address : JsString
  deriving DecidableEq

/-- An element of `ratings` in the owner dashboard. -/
structure DashboardRating where
  id : Nat
  rating : Int
  user : Option DashboardUser
  deriving DecidableEq

/-- An element of the response of `GET /api/owner/dashboard`. -/
structure OwnerStoreRow where
  id : Nat
  name : JsString
  address : JsString
  averageRating : Option ℚ
  ratingCount : Nat
  ratings : List DashboardRating
  deriving DecidableEq

/-- The callback of `stores.map` in `GET /api/owner/dashboard`. -/
def ownerStoreRow (store : LoadedStore) : OwnerStoreRow :=
  let ratings := store.Ratings
  let count := ratings.length
  let avg := averageOf ratings
  { id := store.row.id, name := store.row.name, address := store.row.address,
    averageRating := avg, ratingCount := count,
    ratings := ratings.map (fun r =>
      { id := r.row.id, rating := r.row.rating,
        user := r.User.map (fun u => ⟨u.id, u.name, u.email, u.address⟩) }) }

/-- The response of `GET /api/owner/dashboard` for the stores the query returned. -/
def ownerDashboardPayload (stores : List LoadedStore) : List OwnerStoreRow :=
  stores.map ownerStoreRow

/-- The function `getStoreOwnerAverageRating` of `auth.js`; `total / count` is
the Number division, rounded to the nearest double. -/
def getStoreOwnerAverageRating (db : Db) (userId : Nat) : Option ℚ :=
  let stores := db.findAllStores (fun s => s.ownerId == some userId) false
  let acc : Int × Nat := stores.foldl
    (fun acc store => store.Ratings.foldl (fun acc r => (acc.1 + r.row.rating, acc.2 + 1)) acc)
    (0, 0)
  let total := acc.1
  let count := acc.2
  if count != 0 then some (roundDouble ((total : ℚ) / (count : ℚ))) else none

/-- The average as the specification words it: the sum of the values over their
number, and nothing (`null`) when there are none. -/
def specAverage (values : List Int) : Option ℚ :=
  if values.length = 0 then none else some ((values.sum : ℚ) / (values.length : ℚ))

/-- A store rated `1`, `1` and `2`, whose mean `4/3` is not a double. -/
def thirdsStore : LoadedStore :=
  ⟨⟨1, utf16 "A", utf16 "a@s.t", utf16 "1 Road", some 1⟩,
   [⟨⟨1, 1, 3, 1⟩, none⟩, ⟨⟨2, 1, 4, 1⟩, none⟩, ⟨⟨3, 2, 5, 1⟩, none⟩]⟩

/-- A database whose owner 1 has the one store of `thirdsStore`. -/
def thirdsDb : Db :=
  { users :=
      [⟨1, utf16 "Owner", utf16 "o@x.y", [], utf16 "A", .STORE_OWNER⟩,
       ⟨3, utf16 "Una", utf16 "u3@x.y", [], utf16 "C", .USER⟩,
       ⟨4, utf16 "Vic", utf16 "u4@x.y", [], utf16 "D", .USER⟩,
       ⟨5, utf16 "Wim", utf16 "u5@x.y", [], utf16 "E", .USER⟩],
    stores := [⟨1, utf16 "A", utf16 "a@s.t", utf16 "1 Road", some 1⟩],
    ratings := [⟨1, 1, 3, 1⟩, ⟨2, 1, 4, 1⟩, ⟨3, 2, 5, 1⟩],
    nextUserId := 6, nextStoreId := 2, nextRatingId := 4 }

/-- A database whose owner 1 has store 1 rated `[1]` and store 2 rated
`[5, 5, 5, 5, 5, 3, 1]`, whose mean `29/7` is not a double. -/
def seventhsDb : Db :=
  { users :=
      [⟨1, utf16 "Owner", utf16 "o@x.y", [], utf16 "A", .STORE_OWNER⟩,
       ⟨3, utf16 "Una", utf16 "u3@x.y", [], utf16 "C", .USER⟩,
       ⟨4, utf16 "Vic", utf16 "u4@x.y", [], utf16 "D", .USER⟩,
       ⟨5, utf16 "Wim", utf16 "u5@x.y", [], utf16 "E", .USER⟩,
       ⟨6, utf16 "Xan", utf16 "u6@x.y", [], utf16 "F", .USER⟩,
       ⟨7, utf16 "Yva", utf16 "u7@x.y", [], utf16 "G", .USER⟩,
       ⟨8, utf16 "Zoe", utf16 "u8@x.y", [], utf16 "H", .USER⟩,
       ⟨9, utf16 "Abe", utf16 "u9@x.y", [], utf16 "I", .USER⟩],
    stores :=
      [⟨1, utf16 "A", utf16 "a@s.t", utf16 "1 Road", some 1⟩,
       ⟨2, utf16 "B", utf16 "b@s.t", utf16 "2 Road", some 1⟩],
    ratings :=
      [⟨1, 1, 3, 1⟩, ⟨2, 5, 3, 2⟩, ⟨3, 5, 4, 2⟩, ⟨4, 5, 5, 2⟩, ⟨5, 5, 6, 2⟩, ⟨6, 5, 7, 2⟩,
       ⟨7, 3, 8, 2⟩, ⟨8, 1, 9, 2⟩],
    nextUserId := 10, nextStoreId := 3, nextRatingId := 9 }

/-! ## Rating submission (`upsertRating`, `server.js`) -/

/-- The method the two rating routes pass to `upsertRating`. -/
inductive Method where
  | POST : Method
  | PUT : Method
  deriving DecidableEq, Repr

/-- The value of `req.body.rating` after JSON parsing: a finite Number (a
rational), or anything else (`undefined`, `null`, a string, a boolean, an
array, an object, an infinity). -/
inductive BodyValue where
  | number (q : ℚ) : BodyValue
  | other : BodyValue
  deriving DecidableEq

namespace BodyValue

/-- The test `Number.isInteger(rating)`. -/
def isInteger : BodyValue → Bool
  | number q => q.isInt
  | other => false

/-- The comparison `rating < n` on a value that passed `Number.isInteger`. -/
def lt : BodyValue → ℚ → Bool
  | number q, n => q < n
  | other, _ => false

/-- The comparison `rating > n` on a value that passed `Number.isInteger`. -/
def gt : BodyValue → ℚ → Bool
  | number q, n => q > n
  | other, _ => false

/-- The integer a value that passed `Number.isInteger` is stored as. -/
def toInt : BodyValue → Int
  | number q => q.num
  | other => 0

end BodyValue

/-- What `upsertRating` reads of the request: `req.user.id`,
`Number(req.params.id)` and `req.body.rating`. -/
structure RatingRequest where
  userId : Nat
  storeId : Nat
  rating : BodyValue
  deriving DecidableEq

/-- The JSON body of a rating response. -/
inductive RatingBody where
  | message (m : String) : RatingBody
  | record (r : Rating) : RatingBody
  deriving DecidableEq

/-- The response `res.status(s).json(b)`. -/
structure RatingResponse where
  status : Nat
  body : RatingBody
  deriving DecidableEq

/-- The function `upsertRating`: the response, and the database afterwards. -/
def upsertRating (db : Db) (req : RatingRequest) (method : Method) : RatingResponse × Db :=
  let userId := req.userId
  let storeId := req.storeId
  let rating := req.rating
  if !rating.isInteger || rating.lt 1 || rating.gt 5 then
    (⟨400, .message "Rating must be an integer between 1 and 5"⟩, db)
  else
    match db.findStoreByPk storeId with
    | none => (⟨404, .message "Store not found"⟩, db)
    | some _ =>
      let existing := db.findOneRating userId storeId
      if method == .POST && existing.isSome then
        (⟨400, .message "Rating already exists. Use PUT to update."⟩, db)
      else if method == .PUT && existing.isNone then
        (⟨404, .message "Rating does not exist. Use POST to create."⟩, db)
      else
        let saved :=
          match existing with
          | some ex => db.saveRating ex rating.toInt
          | none => db.createRating rating.toInt userId storeId
        match saved with
        | some (ratingRecord, db2) =>
          (⟨if method == .POST then 201 else 200, .record ratingRecord⟩, db2)
        | none => (⟨500, .message "Internal server error"⟩, db)

/-- An owner (user 1) with store 1 rated `[5, 3]` and store 2 rated `[1]`;
store 3 belongs to user 2. -/
def exampleDb : Db :=
  { users :=
      [⟨1, utf16 "Owner", utf16 "o@x.y", [], utf16 "A", .STORE_OWNER⟩,
       ⟨2, utf16 "Other", utf16 "p@x.y", [], utf16 "B", .STORE_OWNER⟩,
       ⟨3, utf16 "Una", utf16 "u@x.y", [], utf16 "C", .USER⟩,
       ⟨4, utf16 "Vic", utf16 "v@x.y", [], utf16 "D", .USER⟩],
    stores :=
      [⟨1, utf16 "A", utf16 "a@s.t", utf16 "1 Road", some 1⟩,
       ⟨2, utf16 "B", utf16 "b@s.t", utf16 "2 Road", some 1⟩,
       ⟨3, utf16 "C", utf16 "c@s.t", utf16 "3 Road", some 2⟩],
    ratings := [⟨1, 5, 3, 1⟩, ⟨2, 2, 3, 3⟩, ⟨3, 3, 4, 1⟩, ⟨4, 1, 4, 2⟩],
    nextUserId := 5, nextStoreId := 4, nextRatingId := 5 }

/-- Store 1 of `exampleDb` as `GET /api/stores` loads it. -/
def exampleStore : LoadedStore :=
  ⟨⟨1, utf16 "A", utf16 "a@s.t", utf16 "1 Road", some 1⟩,
   [⟨⟨1, 5, 3, 1⟩, none⟩, ⟨⟨3, 3, 4, 1⟩, none⟩]⟩

/-- The database after a sequence of rating requests handled one at a time. -/
def runRatingRequests (db : Db) (reqs : List (RatingRequest × Method)) : Db :=
  reqs.foldl (fun db rq => (upsertRating db rq.1 rq.2).2) db

/-- At most one rating per (user, store) pair. -/
def Db.onePerPair (db : Db) : Prop :=
  (db.ratings.map (fun r => (r.UserId, r.StoreId))).Nodup

instance (db : Db) : Decidable db.onePerPair :=
  inferInstanceAs (Decidable (List.Nodup _))

/-- Every stored rating value lies in `[1,5]`. -/
def Db.valuesInRange (db : Db) : Prop :=
  ∀ r ∈ db.ratings, 1 ≤ r.rating ∧ r.rating ≤ 5

instance (db : Db) : Decidable db.valuesInRange :=
  inferInstanceAs (Decidable (∀ r ∈ db.ratings, 1 ≤ r.rating ∧ r.rating ≤ 5))

/-- The response of `GET /api/stores` for the viewer `userId` when the query
string is empty: no `where` condition and no `order`. -/
def getStores (db : Db) (userId : Nat) : List UserStoreRow :=
  userStoresResult userId (db.findAllStores (fun _ => true) false)

/-- A database with one user, one store and no rating. -/
def freshDb : Db :=
  { users := [⟨7, utf16 "Una", utf16 "u@x.y", [], utf16 "C", .USER⟩],
    stores := [⟨9, utf16 "S", utf16 "s@s.t", utf16 "9 Road", none⟩],
    ratings := [],
    nextUserId := 8, nextStoreId := 10, nextRatingId := 1 }

/-! ## Authentication and authorisation (`auth.js`) -/

/-- The claims `generateToken` embeds in a token, and `req.user` after
verification. -/
structure Claims where
  id : Nat
  role : Role
  name : JsString
  email : JsString
  deriving DecidableEq, Repr

/-- What the middlewares read and write of a request:
`req.headers.authorization` and `req.user`. -/
structure AuthRequest where
  authorization : Option JsString
  user : Option Claims
  deriving DecidableEq, Repr

/-- What a middleware does: answer `res.status(s).json({message})`, or
call `next()` with the request as it left it. -/
inductive Handled where
  | respond (status : Nat) (message : String) : Handled
  | next (req : AuthRequest) : Handled
  deriving DecidableEq, Repr

/-- The method `String.prototype.split` with a one-unit separator. -/
def splitOn (sep : Nat) : JsString → List JsString
  | [] => [[]]
  | c :: cs =>
    if c == sep then [] :: splitOn sep cs
    else
      match splitOn sep cs with
      | [] => [[c]]
      | piece :: pieces => (c :: piece) :: pieces

/-- The middleware `authMiddleware`.  The library call `jwt.verify(token,
JWT_SECRET)` is the parameter `verify`: `none` when it throws. -/
def authMiddleware (verify : JsString → Option Claims) (req : AuthRequest) : Handled :=
  match req.authorization with
  | none => .respond 401 "Unauthorized"
  | some authHeader =>
    if authHeader.isEmpty || !(utf16 "Bearer ").isPrefixOf authHeader then
      .respond 401 "Unauthorized"
    else
      let token := (splitOn 32 authHeader)[1]?
      match token.bind verify with
      | some payload => .next { req with user := some payload }
      | none => .respond 401 "Invalid or expired token"

/-- The middleware `requireRole(...roles)`. -/
def requireRole (roles : List Role) (req : AuthRequest) : Handled :=
  match req.user with
  | none => .respond 403 "Forbidden"
  | some user =>
    if !roles.contains user.role then .respond 403 "Forbidden"
    else .next req

/-- The routes `POST` and `PUT /api/stores/:id/ratings`: `authMiddleware`,
`requireRole('USER')`, then `upsertRating`. -/
def ratingRoute (verify : JsString → Option Claims) (db : Db) (req : AuthRequest)
    (storeId : Nat) (rating : BodyValue) (method : Method) : RatingResponse × Db :=
  match authMiddleware verify req with
  | .respond status message => (⟨status, .message message⟩, db)
  | .next req1 =>
    match requireRole [.USER] req1 with
    | .respond status message => (⟨status, .message message⟩, db)
    | .next req2 =>
      match req2.user with
      | some user => upsertRating db ⟨user.id, storeId, rating⟩ method
      | none => (⟨500, .message "Internal server error"⟩, db)

/-- The public profile the auth handlers return. -/
structure Profile where
  id : Nat
  name : JsString
  email : JsString
  address : JsString
  role : Role
  deriving DecidableEq, Repr

/-- The JSON body of an auth response. -/
inductive AuthBody where
  | message (m : String) : AuthBody
  | errors (e : JsObject String) : AuthBody
  | session (token : JsString) (user : Profile) : AuthBody
  deriving DecidableEq

/-- The response of an auth handler. -/
structure AuthResponse where
  status : Nat
  body : AuthBody
  deriving DecidableEq

/-- The function `generateToken`.  The library call `jwt.sign(payload,
JWT_SECRET, options)` is the parameter `sign`. -/
def generateToken (sign : Claims → JsString) (user : User) : JsString :=
  sign { id := user.id, role := user.role, name := user.name, email := user.email }

/-- The fields `handleLogin` reads of `req.body`. -/
structure LoginBody where
  email : Option JsString
  password : Option JsString
  deriving DecidableEq

/-- The function `handleLogin`.  The library call `bcrypt.compare(password,
hash)` is the parameter `compare`. -/
def handleLogin (sign : Claims → JsString) (compare : JsString → JsString → Bool)
    (db : Db) (body : LoginBody) : AuthResponse :=
  let email := body.email
  let password := body.password
  if !truthy email || !truthy password then
    ⟨400, .message "Email and password are required"⟩
  else
    match db.users.find? (fun u => u.email == email.getD []) with
    | none => ⟨401, .message "Invalid credentials"⟩
    | some user =>
      let valid := compare (password.getD []) user.passwordHash
      if !valid then ⟨401, .message "Invalid credentials"⟩
      else
        let token := generateToken sign user
        ⟨200, .session token
          { id := user.id, name := user.name, email := user.email,
            address := user.address, role := user.role }⟩

/-- A stand-in for `jwt.verify` on examples: the token `ok` carries the claims
of user 7 with the given role, every other token is refused. -/
def exampleVerify (role : Role) (token : JsString) : Option Claims :=
  if token == utf16 "ok" then some ⟨7, role, utf16 "Una", utf16 "u@x.y"⟩ else none

/-- A stand-in for `jwt.sign` on examples: the token lists the id and the
role. -/
def exampleSign (c : Claims) : JsString :=
  [c.id, match c.role with
    | .ADMIN => 0
    | .USER => 1
    | .STORE_OWNER => 2]

/-- A stand-in for `bcrypt.compare` on examples: the hash is the password. -/
def exampleCompare (password hash : JsString) : Bool :=
  password == hash

/-- A database with one account whose password is `Secret1!`. -/
def loginDb : Db :=
  { users := [⟨7, utf16 "Una", utf16 "u@x.y", utf16 "Secret1!", utf16 "C", .USER⟩],
    stores := [], ratings := [],
    nextUserId := 8, nextStoreId := 1, nextRatingId := 1 }

/-! ## Account handlers (`handleSignup`, `handleChangePassword`) -/

/-- The number of characters a `VARCHAR(n)` column counts in a string: a
surrogate pair is one character. -/
def codePoints : JsString → Nat
  | [] => 0
  | [_] => 1
  | c :: d :: rest =>
    if (55296 ≤ c && c ≤ 56319) && (56320 ≤ d && d ≤ 57343) then 1 + codePoints rest
    else 1 + codePoints (d :: rest)

/-- The call `User.create`: `none` when the insert throws, which it does when
a value is wider than its column (`STRING(60)`, `STRING(120)`, `STRING(400)`)
or the e-mail is already stored (`unique: true`). -/
def Db.createUser (db : Db) (name email passwordHash address : JsString) (role : Role) :
    Option (User × Db) :=
  if codePoints name > 60 then none
  else if codePoints email > 120 then none
  else if codePoints address > 400 then none
  else if db.users.any (fun u => u.email == email) then none
  else
    let user : User := ⟨db.nextUserId, name, email, passwordHash, address, role⟩
    some (user, { db with users := db.users ++ [user], nextUserId := db.nextUserId + 1 })

/-- The fields of `req.body` on `POST /api/auth/signup`; `role` is a field a
client may add. -/
structure SignupBody where
  name : Option JsString
  email : Option JsString
  address : Option JsString
  password : Option JsString
  role : Option JsString
  deriving DecidableEq

/-- The function `handleSignup`.  The library calls `bcrypt.hash(password, 10)`
and `jwt.sign` are the parameters `hash` and `sign`. -/
def handleSignup (sign : Claims → JsString) (hash : JsString → JsString) (db : Db)
    (body : SignupBody) : AuthResponse × Db :=
  let name := body.name
  let email := body.email
  let address := body.address
  let password := body.password
  let errors := collectValidationErrors
    [("name", fun _ => validateName name),
     ("email", fun _ => validateEmail email),
     ("address", fun _ => validateAddress address),
     ("password", fun _ => validatePassword password)]
  match errors with
  | some errors => (⟨400, .errors errors⟩, db)
  | none =>
    match db.users.find? (fun u => u.email == email.getD []) with
    | some _ => (⟨400, .message "Email is already registered"⟩, db)
    | none =>
      let passwordHash := hash (password.getD [])
      match db.createUser (name.getD []) (email.getD []) passwordHash (address.getD []) .USER with
      | some (user, db2) =>
        let token := generateToken sign user
        (⟨201, .session token
          { id := user.id, name := user.name, email := user.email,
            address := user.address, role := user.role }⟩, db2)
      | none => (⟨500, .message "Internal server error"⟩, db)

/-- The fields `handleChangePassword` reads of `req.body`. -/
structure ChangePasswordBody where
  oldPassword : Option JsString
  newPassword : Option JsString
  deriving DecidableEq

/-- The function `handleChangePassword` for the caller `userId` (`req.user.id`);
`user.save()` updates the row with that primary key. -/
def handleChangePassword (hash : JsString → JsString)
    (compare : JsString → JsString → Bool) (db : Db) (userId : Nat)
    (body : ChangePasswordBody) : AuthResponse × Db :=
  let oldPassword := body.oldPassword
  let newPassword := body.newPassword
  if !truthy oldPassword || !truthy newPassword then
    (⟨400, .message "Old and new passwords are required"⟩, db)
  else
    match validatePassword newPassword with
    | some passwordError => (⟨400, .message passwordError⟩, db)
    | none =>
      match db.users.find? (fun u => u.id == userId) with
      | none => (⟨404, .message "User not found"⟩, db)
      | some user =>
        let valid := compare (oldPassword.getD []) user.passwordHash
        if !valid then (⟨400, .message "Old password is incorrect"⟩, db)
        else
          let passwordHash := hash (newPassword.getD [])
          (⟨200, .message "Password updated successfully"⟩,
            { db with
              users :=
                db.users.map
                  (fun u => if u.id == user.id then { u with passwordHash := passwordHash }
                    else u) })

/-! ## Store creation (`POST /api/admin/stores`) -/

/-- The fields of `req.body` on `POST /api/admin/stores`.  A truthy `ownerId`
naming the id `k` is `some k`; a falsy one (absent, `null`, empty, `0`) is
`none`. -/
structure StoreBody where
  name : Option JsString
  email : Option JsString
  address : Option JsString
  ownerId : Option Nat
  deriving DecidableEq

/-- The JSON body of a store-creation response. -/
inductive StoreRespBody where
  | message (m : String) : StoreRespBody
  | errors (e : JsObject String) : StoreRespBody
  | store (s : Store) : StoreRespBody
  deriving DecidableEq

/-- The response of the store-creation handler. -/
structure StoreResponse where
  status : Nat
  body : StoreRespBody
  deriving DecidableEq

/-- The call `Store.create`: `none` when the insert throws, which it does when
a value is wider than its column (`STRING(100)`, `STRING(120)`, `STRING(400)`),
the e-mail is already stored (`unique: true`) or the owner does not exist
(foreign key). -/
def Db.createStore (db : Db) (name email address : JsString) (ownerId : Option Nat) :
    Option (Store × Db) :=
  if codePoints name > 100 then none
  else if codePoints email > 120 then none
  else if codePoints address > 400 then none
  else if db.stores.any (fun s => s.email == email) then none
  else if !(match ownerId with
      | none => true
      | some k => db.users.any (fun u => u.id == k)) then none
  else
    let store : Store := ⟨db.nextStoreId, name, email, address, ownerId⟩
    some (store, { db with stores := db.stores ++ [store], nextStoreId := db.nextStoreId + 1 })

/-- The handler of `POST /api/admin/stores`, after the two middlewares. -/
def adminCreateStore (db : Db) (body : StoreBody) : StoreResponse × Db :=
  let name := body.name
  let email := body.email
  let address := body.address
  let ownerId := body.ownerId
  let errors := collectValidationErrors
    [("name", fun _ => if !truthy name then some "Name is required" else none),
     ("email", fun _ => validateEmail email),
     ("address", fun _ => validateAddress address)]
  match errors with
  | some errors => (⟨400, .errors errors⟩, db)
  | none =>
    let lookup : Option (Option User) :=
      match ownerId with
      | none => some none
      | some k =>
        match db.users.find? (fun u => u.id == k) with
        | none => none
        | some owner => if owner.role != .STORE_OWNER then none else some (some owner)
    match lookup with
    | none => (⟨400, .message "Invalid store owner"⟩, db)
    | some owner =>
      match db.createStore (name.getD []) (email.getD []) (address.getD [])
          (owner.map (fun o => o.id)) with
      | some (store, db2) => (⟨201, .store store⟩, db2)
      | none => (⟨500, .message "Internal server error"⟩, db)

/-! ## Sorting (`buildOrder`) -/

/-- The lower case of one code unit.  Outside ASCII only the mappings that
produce an ASCII letter are spelled out (the Kelvin sign and the dotted
capital I); every other unit is kept, which changes no comparison with an
ASCII word. -/
def toLowerUnit (c : Nat) : List Nat :=
  if 65 ≤ c && c ≤ 90 then [c + 32]
  else if c == 8490 then [107]
  else if c == 304 then [105, 775]
  else [c]

/-- The method `String.prototype.toLowerCase`. -/
def toLowerCase (s : JsString) : JsString :=
  s.flatMap toLowerUnit

/-- The function `buildOrder`: the `order` option given to `findAll`. -/
def buildOrder (sortBy sortOrder : Option JsString) (allowedFields : List JsString) :
    List (JsString × String) :=
  if !truthy sortBy || !allowedFields.contains (sortBy.getD []) then []
  else
    let order :=
      if truthy sortOrder && toLowerCase (sortOrder.getD []) == utf16 "desc" then "DESC"
      else "ASC"
    [(sortBy.getD [], order)]

/-- The `order` of `GET /api/admin/users`. -/
def adminUsersOrder (sortBy sortOrder : Option JsString) : List (JsString × String) :=
  buildOrder sortBy sortOrder
    [utf16 "name", utf16 "email", utf16 "address", utf16 "role", utf16 "createdAt"]

/-- The `order` of `GET /api/admin/stores`. -/
def adminStoresOrder (sortBy sortOrder : Option JsString) : List (JsString × String) :=
  buildOrder sortBy sortOrder
    [utf16 "name", utf16 "email", utf16 "address", utf16 "createdAt"]

/-- The `order` of `GET /api/stores`. -/
def storesOrder (sortBy sortOrder : Option JsString) : List (JsString × String) :=
  buildOrder sortBy sortOrder [utf16 "name", utf16 "address", utf16 "createdAt"]

/-! ## The front end (`SignupPage.jsx`, `UserStoresPage.jsx`) -/

/-- The state `form` of `SignupPage`: four strings. -/
structure SignupForm where
  name : JsString
  email : JsString
  address : JsString
  password : JsString
  deriving DecidableEq

/-- The function `validate` of `SignupPage`. -/
def SignupPage.validate (form : SignupForm) : JsObject String :=
  let newErrors : JsObject String := []
  let newErrors :=
    if form.name.isEmpty || form.name.length < NAME_MIN || form.name.length > NAME_MAX then
      newErrors.set "name"
        ("Name must be between " ++ toString NAME_MIN ++ " and " ++ toString NAME_MAX ++
          " characters")
    else newErrors
  let newErrors :=
    if form.address.isEmpty || form.address.length > ADDRESS_MAX then
      newErrors.set "address"
        ("Address must be at most " ++ toString ADDRESS_MAX ++ " characters")
    else newErrors
  let newErrors :=
    if form.email.isEmpty || !emailRegex.testAnchored form.email then
      newErrors.set "email" "Invalid email"
    else newErrors
  let newErrors :=
    if form.password.isEmpty then newErrors.set "password" "Password is required"
    else if form.password.length < 8 || form.password.length > 16 then
      newErrors.set "password" "Password must be 8-16 characters"
    else if !(Regex.cls isUpperAZ).testSearch form.password then
      newErrors.set "password" "Password must include an uppercase letter"
    else if !(Regex.cls notAlnum).testSearch form.password then
      newErrors.set "password" "Password must include a special character"
    else newErrors
  newErrors

/-- JavaScript truthiness of an average: `null` and `0` are falsy.  It is the
test of `store.overallRating ? ... : 'No ratings yet'` in `StoreRow`. -/
def averageTruthy : Option ℚ → Bool
  | none => false
  | some a => a != 0

/-- The dashboard rows of an owner: `GET /api/owner/dashboard`. -/
def ownerDashboard (db : Db) (ownerId : Nat) : List OwnerStoreRow :=
  ownerDashboardPayload (db.findAllStores (fun s => s.ownerId == some ownerId) true)

/-- A valid e-mail address of 121 characters. -/
def longEmail : JsString :=
  List.replicate 115 97 ++ utf16 "@b.com"

/-- A sign-up that passes every validator, with the e-mail `longEmail`. -/
def longEmailSignup : SignupBody :=
  { name := some (List.replicate 20 97), email := some longEmail,
    address := some (utf16 "1 Road"), password := some (utf16 "Abcdef1!"), role := none }

/-- A store-creation request whose e-mail is that of store 1 of `exampleDb`. -/
def duplicateStoreBody : StoreBody :=
  { name := some (utf16 "New"), email := some (utf16 "a@s.t"),
    address := some (utf16 "5 Road"), ownerId := none }

/-! ## The matcher decides the denoted language -/

namespace Regex

theorem nullable_iff (r : Regex) : r.nullable = true ↔ r.lang [] := by
  induction r with
  | fail => simp [nullable, lang]
  | eps => simp [nullable, lang]
  | cls p => simp [nullable, lang]
  | seq a b iha ihb =>
    simp only [nullable, lang, Bool.and_eq_true, iha, ihb]
    constructor
    · rintro ⟨h1, h2⟩
      exact ⟨[], [], rfl, h1, h2⟩
    · rintro ⟨x, y, hxy, h1, h2⟩
      have hx : x = [] := (List.append_eq_nil.mp hxy.symm).1
      have hy : y = [] := (List.append_eq_nil.mp hxy.symm).2
      subst hx
      subst hy
      exact ⟨h1, h2⟩
  | alt a b iha ihb => simp [nullable, lang, iha, ihb]
  | star a _ =>
    simp only [nullable, lang, true_iff]
    exact ⟨[], rfl, by simp⟩

theorem deriv_iff (r : Regex) (c : Nat) (s : JsString) :
    (r.deriv c).lang s ↔ r.lang (c :: s) := by
  induction r generalizing s with
  | fail => simp [deriv, lang]
  | eps => simp [deriv, lang]
  | cls p =>
    by_cases hp : p c = true
    · simp only [deriv, hp, if_true, lang]
      constructor
      · intro h
        exact ⟨c, hp, by rw [h]⟩
      · rintro ⟨d, _, h⟩
        exact (List.cons.inj h).2
    · simp only [deriv, hp, lang, false_iff]
      rintro ⟨d, hd, h⟩
      have := (List.cons.inj h).1
      subst this
      exact hp hd
  | seq a b iha ihb =>
    have key : (a.seq b).lang (c :: s) ↔
        ((∃ x y, s = x ++ y ∧ a.lang (c :: x) ∧ b.lang y) ∨ (a.lang [] ∧ b.lang (c :: s))) := by
      simp only [lang]
      constructor
      · rintro ⟨x, y, hxy, h1, h2⟩
        cases x with
        | nil =>
          right
          simp only [List.nil_append] at hxy
          subst hxy
          exact ⟨h1, h2⟩
        | cons d x =>
          left
          simp only [List.cons_append] at hxy
          obtain ⟨hd, hs⟩ := List.cons.inj hxy
          subst hd
          exact ⟨x, y, hs, h1, h2⟩
      · rintro (⟨x, y, hxy, h1, h2⟩ | ⟨h1, h2⟩)
        · exact ⟨c :: x, y, by simp [hxy], h1, h2⟩
        · exact ⟨[], c :: s, rfl, h1, h2⟩
    rw [key]
    by_cases hn : a.nullable = true
    · have hl : a.lang [] := (nullable_iff a).mp hn
      simp only [deriv, hn, if_true, lang, iha, ihb, hl, true_and]
    · have hl : ¬ a.lang [] := fun h => hn ((nullable_iff a).mpr h)
      simp only [deriv, hn, lang, iha, hl, false_and, or_false]
  | alt a b iha ihb => simp [deriv, lang, iha, ihb]
  | star a iha =>
    simp only [deriv, lang, iha]
    constructor
    · rintro ⟨x, y, hxy, h1, L, hL, hall⟩
      refine ⟨(c :: x) :: L, ?_, ?_⟩
      · simp [hxy, hL]
      · intro z hz
        rcases List.mem_cons.mp hz with h | h
        · subst h
          exact ⟨by simp, h1⟩
        · exact hall z h
    · rintro ⟨L, hL, hall⟩
      cases L with
      | nil => simp at hL
      | cons z L =>
        have hz := hall z (List.mem_cons_self _ _)
        cases z with
        | nil => exact absurd rfl hz.1
        | cons d z =>
          simp only [List.flatten_cons, List.cons_append] at hL
          obtain ⟨hd, hs⟩ := List.cons.inj hL
          subst hd
          exact ⟨z, L.flatten, hs, hz.2, L, rfl, fun w hw => hall w (List.mem_cons_of_mem _ hw)⟩

theorem rmatch_iff (r : Regex) (s : JsString) : r.rmatch s = true ↔ r.lang s := by
  induction s generalizing r with
  | nil => simpa [rmatch] using nullable_iff r
  | cons c cs ih =>
    simp only [rmatch]
    rw [ih, deriv_iff]

theorem lang_star_cls (p : Nat → Bool) (s : JsString) :
    (star (cls p)).lang s ↔ ∀ c ∈ s, p c = true := by
  simp only [lang]
  constructor
  · rintro ⟨L, hL, hall⟩ c hc
    subst hL
    obtain ⟨x, hx, hcx⟩ := List.mem_flatten.mp hc
    obtain ⟨_, d, hd, hxd⟩ := hall x hx
    subst hxd
    have : c = d := by simpa using hcx
    rw [this]
    exact hd
  · intro h
    refine ⟨s.map (fun c => [c]), ?_, ?_⟩
    · clear h
      induction s with
      | nil => rfl
      | cons c cs ih => simp [← ih]
    · intro x hx
      obtain ⟨c, hc, hcx⟩ := List.mem_map.mp hx
      subst hcx
      exact ⟨by simp, c, h c hc, rfl⟩

theorem lang_plus_cls (p : Nat → Bool) (s : JsString) :
    (plus (cls p)).lang s ↔ s ≠ [] ∧ ∀ c ∈ s, p c = true := by
  unfold plus
  have hs := lang_star_cls p
  simp only [lang] at hs ⊢
  constructor
  · rintro ⟨x, y, hxy, ⟨c, hc, hx⟩, hy⟩
    subst hx
    subst hxy
    refine ⟨by simp, ?_⟩
    intro d hd
    rcases List.mem_cons.mp hd with h | h
    · rw [h]
      exact hc
    · exact (hs y).mp hy d h
  · rintro ⟨hne, hall⟩
    cases s with
    | nil => exact absurd rfl hne
    | cons c cs =>
      refine ⟨[c], cs, rfl, ⟨c, hall c (List.mem_cons_self _ _), rfl⟩, ?_⟩
      exact (hs cs).mpr (fun d hd => hall d (List.mem_cons_of_mem _ hd))

theorem lang_chr (c : Nat) (s : JsString) : (chr c).lang s ↔ s = [c] := by
  simp [chr, lang]

theorem lang_star_anyUnit (s : JsString) : (star anyUnit).lang s := by
  unfold anyUnit
  exact (lang_star_cls _ s).mpr (fun _ _ => rfl)

theorem testSearch_cls (p : Nat → Bool) (s : JsString) :
    (cls p).testSearch s = true ↔ ∃ c ∈ s, p c = true := by
  unfold testSearch
  rw [rmatch_iff]
  constructor
  · intro h
    simp only [lang] at h
    obtain ⟨x, y, hxy, _, u, v, huv, ⟨c, hc, hu⟩, _⟩ := h
    refine ⟨c, ?_, hc⟩
    subst hxy
    subst huv
    subst hu
    simp
  · rintro ⟨c, hc, hp⟩
    obtain ⟨x, y, hxy⟩ := List.append_of_mem hc
    have hx := lang_star_anyUnit x
    have hy := lang_star_anyUnit y
    exact ⟨x, [c] ++ y, by simp [hxy], hx, [c], y, rfl, ⟨c, hp, rfl⟩, hy⟩

end Regex

/-- The language of the e-mail pattern, spelled out. -/
theorem emailRegex_test_iff (e : JsString) :
    emailRegex.testAnchored e = true ↔
      ∃ l d t : JsString, e = l ++ [64] ++ d ++ [46] ++ t ∧
        l ≠ [] ∧ d ≠ [] ∧ t ≠ [] ∧
        (∀ c ∈ l, notSpaceAt c = true) ∧ (∀ c ∈ d, notSpaceAt c = true) ∧
        (∀ c ∈ t, notSpaceAt c = true) := by
  unfold Regex.testAnchored emailRegex
  rw [Regex.rmatch_iff]
  simp only [Regex.lang.eq_4, Regex.lang_plus_cls, Regex.lang_chr]
  constructor
  · rintro ⟨l, r1, h1, ⟨hl, hla⟩, a, r2, h2, ha, d, r3, h3, ⟨hd, hda⟩, b, t, h4, hb, ht, hta⟩
    refine ⟨l, d, t, ?_, hl, hd, ht, hla, hda, hta⟩
    subst h1 h2 h3 h4 ha hb
    simp
  · rintro ⟨l, d, t, he, hl, hd, ht, hla, hda, hta⟩
    refine ⟨l, [64] ++ (d ++ ([46] ++ t)), ?_, ⟨hl, hla⟩, [64], d ++ ([46] ++ t), rfl, rfl,
      d, [46] ++ t, rfl, ⟨hd, hda⟩, [46], t, rfl, rfl, ht, hta⟩
    rw [he]
    simp

/-! ## Validators -/

/-- C1: for every string `p`, `validatePassword p` is `null` exactly when
`8 ≤ length p ≤ 16`, `p` has an uppercase letter `A`-`Z` and `p` has a code unit
that is not alphanumeric; otherwise it returns an error message.  The string
`Abcdef1!` is valid and `abcdefgh` is not. -/
theorem validatePassword_null_iff (p : JsString) :
    (validatePassword (some p) = none ↔
      (8 ≤ p.length ∧ p.length ≤ 16) ∧ (∃ c ∈ p, 65 ≤ c ∧ c ≤ 90) ∧
      (∃ c ∈ p, ¬ ((65 ≤ c ∧ c ≤ 90) ∨ (97 ≤ c ∧ c ≤ 122) ∨ (48 ≤ c ∧ c ≤ 57)))) ∧
    (validatePassword (some p) ≠ none →
      ∃ msg, validatePassword (some p) = some msg ∧ msg ≠ "") ∧
    validatePassword (some (utf16 "Abcdef1!")) = none ∧
    validatePassword (some (utf16 "abcdefgh")) =
      some "Password must include at least one uppercase letter" := by
  have hU : (Regex.cls isUpperAZ).testSearch p = true ↔ ∃ c ∈ p, 65 ≤ c ∧ c ≤ 90 := by
    rw [Regex.testSearch_cls]
    simp [isUpperAZ]
  have hS : (Regex.cls notAlnum).testSearch p = true ↔
      ∃ c ∈ p, ¬ ((65 ≤ c ∧ c ≤ 90) ∨ (97 ≤ c ∧ c ≤ 122) ∨ (48 ≤ c ∧ c ≤ 57)) := by
    rw [Regex.testSearch_cls]
    simp only [notAlnum, Bool.not_eq_true', Bool.or_eq_false_iff, Bool.and_eq_false_iff,
      decide_eq_false_iff_not, not_or, not_and_or, and_assoc]
  refine ⟨?_, ?_, ?_, ?_⟩
  · rw [← hU, ← hS]
    unfold validatePassword
    cases p with
    | nil => simp [truthy]
    | cons c cs =>
      clear hU hS
      have key : ∀ (k : Nat) (u v : Bool) (m1 m2 m3 : String),
          ((if (decide (k < 8) || decide (k > 16)) = true then some m1
            else if (!u) = true then some m2
            else if (!v) = true then some m3 else none) = none ↔
            (8 ≤ k ∧ k ≤ 16) ∧ u = true ∧ v = true) := by
        intro k u v m1 m2 m3
        split_ifs with h1 h2 h3
        · simp at h1 ⊢
          omega
        · simp at h2 ⊢
          simp [h2]
        · simp at h3 ⊢
          simp [h3]
        · simp at h1 h2 h3 ⊢
          exact ⟨by omega, h2, h3⟩
      simp only [truthy, strLength, Option.getD_some, List.isEmpty_cons, Bool.not_false,
        Bool.not_true, Bool.false_eq_true, if_false]
      exact key _ _ _ _ _ _
  · intro h
    unfold validatePassword at h ⊢
    split_ifs at h ⊢ <;> first | exact absurd rfl h | exact ⟨_, rfl, by decide⟩
  · decide
  · decide

/-- C2: for every string `n`, `validateName n` is `null` exactly when
`20 ≤ length n ≤ 60`; a missing name and the empty name are rejected. -/
theorem validateName_null_iff (n : JsString) :
    (validateName (some n) = none ↔ 20 ≤ n.length ∧ n.length ≤ 60) ∧
    validateName none = some "Name is required" ∧
    validateName (some []) = some "Name is required" := by
  refine ⟨?_, by decide, by decide⟩
  unfold validateName NAME_MIN NAME_MAX
  cases n with
  | nil => simp [truthy]
  | cons c cs =>
    have key : ∀ (k : Nat) (m1 m2 : String),
        ((if k < 20 then some m1 else if k > 60 then some m2 else none) = none ↔
          20 ≤ k ∧ k ≤ 60) := by
      intro k m1 m2
      split_ifs <;> simp <;> omega
    simp only [truthy, strLength, List.isEmpty_cons, Bool.not_false, Bool.not_true,
      Bool.false_eq_true, if_false]
    exact key _ _ _

/-- C3: for every string `e`, `validateEmail e` is `null` exactly when
`e = l ++ "@" ++ d ++ "." ++ t` with `l`, `d`, `t` non-empty and free of white
space and of `@`; a missing e-mail and the empty e-mail are rejected. -/
theorem validateEmail_null_iff (e : JsString) :
    (validateEmail (some e) = none ↔
      ∃ l d t : JsString, e = l ++ utf16 "@" ++ d ++ utf16 "." ++ t ∧
        l ≠ [] ∧ d ≠ [] ∧ t ≠ [] ∧
        (∀ c ∈ l, isWhiteSpace c = false ∧ c ≠ 64) ∧
        (∀ c ∈ d, isWhiteSpace c = false ∧ c ≠ 64) ∧
        (∀ c ∈ t, isWhiteSpace c = false ∧ c ≠ 64)) ∧
    validateEmail none = some "Email is required" ∧
    validateEmail (some []) = some "Email is required" := by
  refine ⟨?_, by decide, by decide⟩
  have hat : utf16 "@" = [64] := by decide
  have hdot : utf16 "." = [46] := by decide
  have hcls : ∀ c, notSpaceAt c = true ↔ (isWhiteSpace c = false ∧ c ≠ 64) := by
    intro c
    simp [notSpaceAt]
  rw [hat, hdot]
  simp only [← hcls]
  rw [← emailRegex_test_iff]
  unfold validateEmail
  cases e with
  | nil =>
    simp only [truthy]
    simp
    decide
  | cons c cs =>
    simp [truthy]

/-- C4: for every string `a`, `validateAddress a` is `null` exactly when `a` is
non-empty and `length a ≤ 400`. -/
theorem validateAddress_null_iff (a : JsString) :
    validateAddress (some a) = none ↔ a ≠ [] ∧ a.length ≤ 400 := by
  unfold validateAddress ADDRESS_MAX
  cases a with
  | nil => simp [truthy]
  | cons c cs =>
    simp [truthy, strLength]

/-! ## Batch validation -/

theorem JsObject.set_fresh (o : JsObject String) (k v : String)
    (hk : k ≠ "__proto__") (h : ∀ a ∈ o, a.1 ≠ k) : o.set k v = o ++ [(k, v)] := by
  unfold JsObject.set
  have hany : o.any (fun e => e.1 == k) = false := by
    rw [List.any_eq_false]
    intro a ha
    simpa using h a ha
  have hp : (k == "__proto__") = false := by simpa using hk
  simp [hany, hp]

theorem JsObject.set_proto (o : JsObject String) (v : String) : o.set "__proto__" v = o := by
  simp [JsObject.set]

theorem collect_foldl (fields : JsObject (Unit → Option String)) (acc : JsObject String)
    (hnd : fields.keys.Nodup) (hdis : ∀ e ∈ fields, ∀ a ∈ acc, a.1 ≠ e.1) :
    fields.foldl
      (fun errors entry =>
        if msgTruthy (entry.2 ()) then errors.set entry.1 ((entry.2 ()).getD "") else errors)
      acc = acc ++ failingEntries fields := by
  induction fields generalizing acc with
  | nil => simp [failingEntries]
  | cons e rest ih =>
    simp only [JsObject.keys, List.map_cons, List.nodup_cons] at hnd
    obtain ⟨hne, hnd⟩ := hnd
    simp only [List.foldl_cons]
    by_cases ht : msgTruthy (e.2 ()) = true
    · by_cases hp : e.1 = "__proto__"
      · simp only [ht, if_true]
        rw [hp, JsObject.set_proto]
        rw [ih acc hnd (fun e2 he2 => hdis e2 (List.mem_cons_of_mem _ he2))]
        simp [failingEntries, List.filterMap_cons, hp]
      · simp only [ht, if_true]
        rw [JsObject.set_fresh acc e.1 _ hp
          (fun a ha => hdis e (List.mem_cons_self _ _) a ha)]
        rw [ih _ hnd]
        · simp [failingEntries, List.filterMap_cons, ht, hp]
        · intro e2 he2 a ha
          rcases List.mem_append.mp ha with h | h
          · exact hdis e2 (List.mem_cons_of_mem _ he2) a h
          · have hae : a = (e.1, (e.2 ()).getD "") := by simpa using h
            rw [hae]
            intro heq
            exact hne (heq ▸ List.mem_map_of_mem Prod.fst he2)
    · rw [if_neg ht]
      rw [ih acc hnd (fun e2 he2 => hdis e2 (List.mem_cons_of_mem _ he2))]
      simp [failingEntries, List.filterMap_cons, ht]

theorem collect_eq (fields : JsObject (Unit → Option String)) (hnd : fields.keys.Nodup) :
    collectValidationErrors fields =
      if failingEntries fields = [] then none else some (failingEntries fields) := by
  unfold collectValidationErrors
  dsimp only
  rw [collect_foldl fields [] hnd (by simp)]
  cases h : failingEntries fields <;> simp [JsObject.keys]

/-- C5, as stated, fails for a validator named `__proto__`: it fails, and the
result is `null` all the same, because `errors['__proto__'] = error` stores
nothing. -/
theorem collectValidationErrors_proto :
    protoFields.keys = ["__proto__"] ∧
    (∀ e ∈ protoFields, e.2 () = some "bad") ∧
    collectValidationErrors protoFields = none := by
  refine ⟨rfl, ?_, by decide⟩
  intro e he
  have : e = ("__proto__", fun _ => some "bad") := by simpa [protoFields] using he
  rw [this]

/-- C5, amended: for an object of named validators (distinct keys), the result
of `collectValidationErrors` is `null` exactly when no validator with a name
other than `__proto__` failed, and otherwise an object whose keys are exactly
the names, other than `__proto__`, of the failed validators, each mapped to the
message that validator returned; a validator fails when its result is truthy,
which is how the code tests it. -/
theorem collectValidationErrors_spec (fields : JsObject (Unit → Option String))
    (hkeys : fields.keys.Nodup) :
    (collectValidationErrors fields = none ↔
      ∀ e ∈ fields, e.1 ≠ "__proto__" → msgTruthy (e.2 ()) = false) ∧
    (∀ errors, collectValidationErrors fields = some errors →
      errors.keys =
        (fields.filter (fun e => e.1 != "__proto__" && msgTruthy (e.2 ()))).map Prod.fst ∧
      ∀ k m, (k, m) ∈ errors ↔
        k ≠ "__proto__" ∧ ∃ fn, (k, fn) ∈ fields ∧ fn () = some m ∧ m ≠ "") := by
  rw [collect_eq fields hkeys]
  have hmem : ∀ k m, (k, m) ∈ failingEntries fields ↔
      k ≠ "__proto__" ∧ ∃ fn, (k, fn) ∈ fields ∧ fn () = some m ∧ m ≠ "" := by
    intro k m
    simp only [failingEntries, List.mem_filterMap]
    constructor
    · rintro ⟨⟨k2, fn⟩, he, h⟩
      by_cases ht : (k2 != "__proto__" && msgTruthy (fn ())) = true
      · simp only [ht, if_true, Option.some.injEq, Prod.mk.injEq] at h
        obtain ⟨hk, hm⟩ := h
        subst hk
        simp only [Bool.and_eq_true, bne_iff_ne, ne_eq] at ht
        refine ⟨ht.1, fn, he, ?_⟩
        cases hr : fn () with
        | none => simp [hr, msgTruthy] at ht
        | some m2 =>
          rw [hr] at hm ht
          simp only [Option.getD_some] at hm
          subst hm
          exact ⟨rfl, by simpa [msgTruthy] using ht.2⟩
      · simp [ht] at h
    · rintro ⟨hk, fn, he, hr, hm⟩
      refine ⟨(k, fn), he, ?_⟩
      simp [hr, msgTruthy, hm, hk]
  have hkeysEq : (failingEntries fields).keys =
      (fields.filter (fun e => e.1 != "__proto__" && msgTruthy (e.2 ()))).map Prod.fst := by
    clear hmem hkeys
    induction fields with
    | nil => rfl
    | cons e rest ih =>
      simp only [failingEntries, JsObject.keys] at ih ⊢
      by_cases hp : e.1 = "__proto__"
      · simpa [List.filterMap_cons, List.filter_cons, hp] using ih
      · by_cases hm : msgTruthy (e.2 ()) = true
        · simpa [List.filterMap_cons, List.filter_cons, hp, hm] using ih
        · simpa [List.filterMap_cons, List.filter_cons, hp, hm] using ih
  constructor
  · constructor
    · intro h e he hk
      by_cases ht : msgTruthy (e.2 ()) = true
      · exfalso
        have hnil : failingEntries fields = [] := by
          by_contra hne
          simp [hne] at h
        have hin : (e.1, (e.2 ()).getD "") ∈ failingEntries fields := by
          simp only [failingEntries, List.mem_filterMap]
          exact ⟨e, he, by simp [ht, hk]⟩
        rw [hnil] at hin
        exact absurd hin (List.not_mem_nil _)
      · simpa using ht
    · intro h
      have hnil : failingEntries fields = [] := by
        simp only [failingEntries, List.filterMap_eq_nil_iff]
        intro e he
        by_cases hk : e.1 = "__proto__"
        · simp [hk]
        · simp [h e he hk]
      simp [hnil]
  · intro errors h
    by_cases hnil : failingEntries fields = []
    · simp [hnil] at h
    · simp only [hnil, if_false, Option.some.injEq] at h
      subst h
      exact ⟨hkeysEq, hmem⟩

/-- C5, amended, at the validators of a sign-up with an empty name: only `name`
is reported. -/
theorem collectValidationErrors_spec_witness :
    (JsObject.keys exampleFields).Nodup ∧
    collectValidationErrors exampleFields = some [("name", "Name is required")] ∧
    ∀ k m, (k, m) ∈ [("name", "Name is required")] ↔
      k ≠ "__proto__" ∧ ∃ fn, (k, fn) ∈ exampleFields ∧ fn () = some m ∧ m ≠ "" :=
  ⟨by decide, by decide,
    ((collectValidationErrors_spec exampleFields (by decide)).2
      [("name", "Name is required")] (by decide)).2⟩

/-! ## Rounding to a double -/

theorem roundHalfEven_ge (x : ℚ) (m : Int) (h : (m : ℚ) ≤ x) : m ≤ roundHalfEven x := by
  have hf : m ≤ ⌊x⌋ := Int.le_floor.mpr h
  unfold roundHalfEven
  split_ifs <;> omega

theorem roundHalfEven_le (x : ℚ) (m : Int) (h : x ≤ (m : ℚ)) : roundHalfEven x ≤ m := by
  unfold roundHalfEven
  rcases eq_or_lt_of_le h with heq | hlt
  · have hfl : ⌊x⌋ = m := by rw [heq]; exact Int.floor_intCast m
    have hfr : x - (⌊x⌋ : ℚ) < 1 / 2 := by
      rw [hfl, heq]
      norm_num
    rw [if_pos hfr, hfl]
  · have hfl : ⌊x⌋ < m := Int.floor_lt.mpr hlt
    split_ifs <;> omega

theorem roundHalfEven_error (x : ℚ) : |(roundHalfEven x : ℚ) - x| ≤ 1 / 2 := by
  have h1 : (⌊x⌋ : ℚ) ≤ x := Int.floor_le x
  have h2 : x < (⌊x⌋ : ℚ) + 1 := Int.lt_floor_add_one x
  unfold roundHalfEven
  rw [abs_le]
  split_ifs with ha hb hc
  · constructor <;> linarith
  · push_cast
    constructor <;> linarith
  · constructor <;> linarith
  · push_cast
    constructor <;> linarith

theorem roundHalfEven_near (x : ℚ) (r : Int) (h : |x - (r : ℚ)| < 1 / 2) :
    roundHalfEven x = r := by
  rw [abs_lt] at h
  have hge := roundHalfEven_ge x
  have herr := roundHalfEven_error x
  rw [abs_le] at herr
  have h1 : ((roundHalfEven x : Int) : ℚ) - r < 1 := by linarith
  have h2 : (-1 : ℚ) < ((roundHalfEven x : Int) : ℚ) - r := by linarith
  have h3 : roundHalfEven x - r < 1 := by exact_mod_cast h1
  have h4 : -1 < roundHalfEven x - r := by exact_mod_cast h2
  omega

theorem log_bounds (q : ℚ) (hq : 0 < q) :
    (2 : ℚ) ^ (Int.log 2 q) ≤ q ∧ q < (2 : ℚ) ^ (Int.log 2 q + 1) := by
  have h1 := Int.zpow_log_le_self (b := 2) (r := q) (by norm_num) hq
  have h2 := Int.lt_zpow_succ_log_self (b := 2) (by norm_num) q
  exact ⟨by exact_mod_cast h1, by exact_mod_cast h2⟩

theorem log_eq (q : ℚ) (e : Int) (hq : 0 < q) (h1 : (2 : ℚ) ^ e ≤ q) (h2 : q < (2 : ℚ) ^ (e + 1)) :
    Int.log 2 q = e := by
  have ha : e ≤ Int.log 2 q :=
    (Int.zpow_le_iff_le_log (b := 2) (by norm_num) hq).mp (by exact_mod_cast h1)
  have hb : Int.log 2 q < e + 1 :=
    (Int.lt_zpow_iff_log_lt (b := 2) (by norm_num) hq).mp (by exact_mod_cast h2)
  omega

theorem roundDouble_pos_eq (q : ℚ) (hq : 0 < q) :
    roundDouble q =
      (roundHalfEven (q / 2 ^ (Int.log 2 q - 52)) : ℚ) * 2 ^ (Int.log 2 q - 52) := by
  unfold roundDouble
  rw [if_neg (ne_of_gt hq), abs_of_pos hq]

/-- The double nearest to a positive rational below `2^53` stays on the same
side of every integer. -/
theorem roundDouble_between (q : ℚ) (hq : 0 < q) (hlt : q < 2 ^ 53) (m : Int) :
    ((m : ℚ) ≤ q → (m : ℚ) ≤ roundDouble q) ∧ (q ≤ (m : ℚ) → roundDouble q ≤ (m : ℚ)) := by
  have hlog : Int.log 2 q < 53 :=
    (Int.lt_zpow_iff_log_lt (b := 2) (by norm_num) hq).mp (by exact_mod_cast hlt)
  obtain ⟨k, hk⟩ : ∃ k : Nat, Int.log 2 q - 52 = -(k : Int) :=
    ⟨(52 - Int.log 2 q).toNat, by omega⟩
  have hu : (2 : ℚ) ^ (Int.log 2 q - 52) = ((2 : ℚ) ^ k)⁻¹ := by
    rw [hk, zpow_neg, zpow_natCast]
  have hpow : (0 : ℚ) < (2 : ℚ) ^ k := by positivity
  rw [roundDouble_pos_eq q hq, hu]
  have hx : q / ((2 : ℚ) ^ k)⁻¹ = q * 2 ^ k := by
    rw [div_inv_eq_mul]
  rw [hx]
  constructor
  · intro hm
    have h1 : ((m * 2 ^ k : Int) : ℚ) ≤ q * 2 ^ k := by
      push_cast
      exact mul_le_mul_of_nonneg_right hm (le_of_lt hpow)
    have h2 := roundHalfEven_ge (q * 2 ^ k) (m * 2 ^ k) h1
    have h3 : ((m * 2 ^ k : Int) : ℚ) ≤ (roundHalfEven (q * 2 ^ k) : ℚ) := by exact_mod_cast h2
    push_cast at h3
    rw [← div_eq_mul_inv, le_div_iff₀ hpow]
    exact h3
  · intro hm
    have h1 : q * 2 ^ k ≤ ((m * 2 ^ k : Int) : ℚ) := by
      push_cast
      exact mul_le_mul_of_nonneg_right hm (le_of_lt hpow)
    have h2 := roundHalfEven_le (q * 2 ^ k) (m * 2 ^ k) h1
    have h3 : (roundHalfEven (q * 2 ^ k) : ℚ) ≤ ((m * 2 ^ k : Int) : ℚ) := by exact_mod_cast h2
    push_cast at h3
    rw [← div_eq_mul_inv, div_le_iff₀ hpow]
    exact h3

/-- An integer between `1` and `2^53` is a double. -/
theorem roundDouble_int (m : Int) (h0 : 0 < m) (h : m < 2 ^ 53) :
    roundDouble (m : ℚ) = (m : ℚ) := by
  have hq : (0 : ℚ) < (m : ℚ) := by exact_mod_cast h0
  have hlt : (m : ℚ) < 2 ^ 53 := by exact_mod_cast h
  obtain ⟨h1, h2⟩ := roundDouble_between (m : ℚ) hq hlt m
  exact le_antisymm (h2 (le_refl _)) (h1 (le_refl _))

/-- The value of the rounding of a positive rational, from its binade and the
nearest multiple of the unit in the last place. -/
theorem roundDouble_eval (q : ℚ) (e r : Int) (hq : 0 < q) (h1 : (2 : ℚ) ^ e ≤ q)
    (h2 : q < (2 : ℚ) ^ (e + 1)) (hr : |q / 2 ^ (e - 52) - (r : ℚ)| < 1 / 2) :
    roundDouble q = (r : ℚ) * 2 ^ (e - 52) := by
  rw [roundDouble_pos_eq q hq, log_eq q e hq h1 h2, roundHalfEven_near _ r hr]

/-- The rounding error of a double is at most `2^-53` of the value. -/
theorem roundDouble_error (q : ℚ) : |roundDouble q - q| ≤ |q| * 2 ^ (-53 : Int) := by
  by_cases h0 : q = 0
  · simp [roundDouble, h0]
  · have habs : 0 < |q| := abs_pos.mpr h0
    have hb := (log_bounds |q| habs).1
    have hu : (0 : ℚ) < 2 ^ (Int.log 2 |q| - 52) := by positivity
    have herr := roundHalfEven_error (q / 2 ^ (Int.log 2 |q| - 52))
    unfold roundDouble
    rw [if_neg h0]
    have hfac : (roundHalfEven (q / 2 ^ (Int.log 2 |q| - 52)) : ℚ) * 2 ^ (Int.log 2 |q| - 52) - q =
        ((roundHalfEven (q / 2 ^ (Int.log 2 |q| - 52)) : ℚ) - q / 2 ^ (Int.log 2 |q| - 52)) *
          2 ^ (Int.log 2 |q| - 52) := by
      field_simp
    rw [hfac, abs_mul, abs_of_pos hu]
    have hsplit : (2 : ℚ) ^ (Int.log 2 |q| - 52) = 2 ^ (Int.log 2 |q|) * 2 ^ (-52 : Int) := by
      rw [← zpow_add₀ (by norm_num : (2 : ℚ) ≠ 0)]
      rfl
    have h53 : (2 : ℚ) ^ (-53 : Int) = 1 / 2 * 2 ^ (-52 : Int) := by norm_num
    calc |(roundHalfEven (q / 2 ^ (Int.log 2 |q| - 52)) : ℚ) - q / 2 ^ (Int.log 2 |q| - 52)| *
          2 ^ (Int.log 2 |q| - 52)
        ≤ 1 / 2 * 2 ^ (Int.log 2 |q| - 52) := mul_le_mul_of_nonneg_right herr (le_of_lt hu)
      _ = 2 ^ (Int.log 2 |q|) * 2 ^ (-53 : Int) := by rw [hsplit, h53]; ring
      _ ≤ |q| * 2 ^ (-53 : Int) := mul_le_mul_of_nonneg_right hb (by positivity)

theorem roundDouble_four_thirds :
    roundDouble (4 / 3) = 6004799503160661 / 4503599627370496 := by
  have h := roundDouble_eval (4 / 3) 0 6004799503160661 (by norm_num) (by norm_num)
    (by norm_num) (by rw [abs_lt]; constructor <;> norm_num)
  rw [h]
  norm_num

/-! ## Aggregation -/

theorem foldl_add_rating (rs : List LoadedRating) (init : Int) :
    rs.foldl (fun sum r => sum + r.row.rating) init =
      init + (rs.map (fun r => r.row.rating)).sum := by
  induction rs generalizing init with
  | nil => simp
  | cons r rs ih =>
    simp only [List.foldl_cons, List.map_cons, List.sum_cons]
    rw [ih]
    ring

theorem averageOf_eq (rs : List LoadedRating) :
    averageOf rs = (specAverage (rs.map (fun r => r.row.rating))).map roundDouble := by
  unfold averageOf specAverage
  simp only [foldl_add_rating, zero_add, List.length_map]
  by_cases h : rs.length = 0
  · simp [h]
  · simp [h]

theorem thirdsStore_average :
    averageOf thirdsStore.Ratings = some (6004799503160661 / 4503599627370496) := by
  rw [averageOf_eq]
  have hv : thirdsStore.Ratings.map (fun r => r.row.rating) = [1, 1, 2] := by decide
  rw [hv]
  have hs : specAverage [1, 1, 2] = some (4 / 3) := by norm_num [specAverage]
  rw [hs, Option.map_some', roundDouble_four_thirds]

/-- C6, as stated, fails for a store rated `1`, `1` and `2`: `sum / count` is
`4/3`, and the three listings report the double nearest to it, which is another
number. -/
theorem store_average_rounds :
    thirdsStore.Ratings.map (fun r => r.row.rating) = [1, 1, 2] ∧
    specAverage [1, 1, 2] = some (4 / 3) ∧
    (adminStoreRow thirdsStore).rating = some (6004799503160661 / 4503599627370496) ∧
    (userStoreRow 3 thirdsStore).overallRating =
      some (6004799503160661 / 4503599627370496) ∧
    (ownerStoreRow thirdsStore).averageRating =
      some (6004799503160661 / 4503599627370496) ∧
    (6004799503160661 / 4503599627370496 : ℚ) ≠ 4 / 3 := by
  refine ⟨by decide, by norm_num [specAverage], ?_, ?_, ?_, by norm_num⟩
  · simp only [adminStoreRow]
    exact thirdsStore_average
  · simp only [userStoreRow]
    exact thirdsStore_average
  · simp only [ownerStoreRow]
    exact thirdsStore_average

/-- C6, amended: for every store loaded with its rating rows, the average
reported by the admin list, by the user list and by the owner dashboard is the
double nearest to `sum(values) / count` when the store has ratings and `null`
when it has none, and the reported `ratingCount` is the number of rows; the
nearest double is within a relative `2^-53` of the exact quotient. -/
theorem store_average_spec (stores : List LoadedStore) (userId : Nat) :
    (adminStoresResult stores).map (fun r => (r.rating, r.ratingCount)) =
      stores.map (fun s =>
        (if s.Ratings.length = 0 then none
          else some (roundDouble ((((s.Ratings.map (fun r => r.row.rating)).sum : Int) : ℚ) /
            (s.Ratings.length : ℚ))),
         s.Ratings.length)) ∧
    (userStoresResult userId stores).map (fun r => (r.overallRating, r.ratingCount)) =
      stores.map (fun s =>
        (if s.Ratings.length = 0 then none
          else some (roundDouble ((((s.Ratings.map (fun r => r.row.rating)).sum : Int) : ℚ) /
            (s.Ratings.length : ℚ))),
         s.Ratings.length)) ∧
    (ownerDashboardPayload stores).map (fun r => (r.averageRating, r.ratingCount)) =
      stores.map (fun s =>
        (if s.Ratings.length = 0 then none
          else some (roundDouble ((((s.Ratings.map (fun r => r.row.rating)).sum : Int) : ℚ) /
            (s.Ratings.length : ℚ))),
         s.Ratings.length)) ∧
    (∀ q : ℚ, |roundDouble q - q| ≤ |q| * 2 ^ (-53 : Int)) := by
  have h : ∀ s : LoadedStore, averageOf s.Ratings =
      (if s.Ratings.length = 0 then none
        else some (roundDouble ((((s.Ratings.map (fun r => r.row.rating)).sum : Int) : ℚ) /
          (s.Ratings.length : ℚ)))) := by
    intro s
    rw [averageOf_eq]
    unfold specAverage
    by_cases hl : s.Ratings.length = 0
    · simp [hl]
    · simp [hl]
  refine ⟨?_, ?_, ?_, roundDouble_error⟩
  · simp only [adminStoresResult, List.map_map]
    apply List.map_congr_left
    intro s _
    simp only [Function.comp_apply, adminStoreRow, h]
  · simp only [userStoresResult, List.map_map]
    apply List.map_congr_left
    intro s _
    simp only [Function.comp_apply, userStoreRow, h]
  · simp only [ownerDashboardPayload, List.map_map]
    apply List.map_congr_left
    intro s _
    simp only [Function.comp_apply, ownerStoreRow, h]

theorem foldl_pair_ratings (rs : List LoadedRating) (acc : Int × Nat) :
    rs.foldl (fun acc r => (acc.1 + r.row.rating, acc.2 + 1)) acc =
      (acc.1 + (rs.map (fun r => r.row.rating)).sum, acc.2 + rs.length) := by
  induction rs generalizing acc with
  | nil => simp
  | cons r rs ih =>
    simp only [List.foldl_cons, List.map_cons, List.sum_cons, List.length_cons]
    rw [ih]
    ext
    · simp only
      ring
    · simp only
      omega

theorem foldl_pair_stores (stores : List LoadedStore) (acc : Int × Nat) :
    stores.foldl
      (fun acc store =>
        store.Ratings.foldl (fun acc r => (acc.1 + r.row.rating, acc.2 + 1)) acc) acc =
      (acc.1 + (stores.flatMap (fun s => s.Ratings.map (fun r => r.row.rating))).sum,
        acc.2 + (stores.flatMap (fun s => s.Ratings.map (fun r => r.row.rating))).length) := by
  induction stores generalizing acc with
  | nil => simp
  | cons s stores ih =>
    simp only [List.foldl_cons]
    rw [ih, foldl_pair_ratings]
    simp only [List.flatMap_cons, List.sum_append, List.length_append, List.length_map]
    ext
    · simp only
      ring
    · simp only
      omega

theorem findAllStores_values (db : Db) (cond : Store → Bool) (withUser : Bool) :
    (db.findAllStores cond withUser).flatMap (fun s => s.Ratings.map (fun r => r.row.rating)) =
      (db.stores.filter cond).flatMap
        (fun s => (db.ratings.filter (fun r => r.StoreId == s.id)).map (fun r => r.rating)) := by
  simp [Db.findAllStores, Db.loadRatings, List.flatMap_map, Function.comp_def]

theorem ownerAverage_eq (db : Db) (userId : Nat) :
    getStoreOwnerAverageRating db userId =
      (specAverage
        ((db.stores.filter (fun s => s.ownerId == some userId)).flatMap
          (fun s => (db.ratings.filter (fun r => r.StoreId == s.id)).map
            (fun r => r.rating)))).map roundDouble := by
  have key : ∀ vals : List Int,
      (if (vals.length != 0) = true
        then some (roundDouble ((vals.sum : ℚ) / (vals.length : ℚ))) else none) =
        (specAverage vals).map roundDouble := by
    intro vals
    unfold specAverage
    by_cases h : vals.length = 0 <;> simp [h]
  unfold getStoreOwnerAverageRating
  simp only [foldl_pair_stores, zero_add, findAllStores_values]
  exact key _

/-- C7, as stated, fails for an owner whose one store is rated `1`, `1` and `2`:
the sum over the number is `4/3`, and the function returns the double nearest
to it, which is another number. -/
theorem getStoreOwnerAverageRating_rounds :
    (thirdsDb.stores.filter (fun s => s.ownerId == some 1)).flatMap
      (fun s => (thirdsDb.ratings.filter (fun r => r.StoreId == s.id)).map (fun r => r.rating)) =
      [1, 1, 2] ∧
    specAverage [1, 1, 2] = some (4 / 3) ∧
    getStoreOwnerAverageRating thirdsDb 1 = some (6004799503160661 / 4503599627370496) ∧
    (6004799503160661 / 4503599627370496 : ℚ) ≠ 4 / 3 := by
  have hv : (thirdsDb.stores.filter (fun s => s.ownerId == some 1)).flatMap
      (fun s => (thirdsDb.ratings.filter (fun r => r.StoreId == s.id)).map (fun r => r.rating)) =
      [1, 1, 2] := by decide
  have hs : specAverage [1, 1, 2] = some (4 / 3) := by norm_num [specAverage]
  refine ⟨hv, hs, ?_, by norm_num⟩
  rw [ownerAverage_eq, hv, hs, Option.map_some', roundDouble_four_thirds]

/-- C7, amended: for every owner, `getStoreOwnerAverageRating` is the double
nearest to the sum of every rating value across every store the user owns over
the number of those ratings, and `null` when there are none; an owner whose
stores are rated `[5, 3]` and `[1]` gets `3`; the nearest double is within a
relative `2^-53` of the exact quotient. -/
theorem getStoreOwnerAverageRating_spec (db : Db) (userId : Nat) :
    getStoreOwnerAverageRating db userId =
      (specAverage
        ((db.stores.filter (fun s => s.ownerId == some userId)).flatMap
          (fun s => (db.ratings.filter (fun r => r.StoreId == s.id)).map
            (fun r => r.rating)))).map roundDouble ∧
    getStoreOwnerAverageRating exampleDb 1 = some 3 ∧
    (∀ q : ℚ, |roundDouble q - q| ≤ |q| * 2 ^ (-53 : Int)) := by
  refine ⟨ownerAverage_eq db userId, ?_, roundDouble_error⟩
  rw [ownerAverage_eq]
  have hv : (exampleDb.stores.filter (fun s => s.ownerId == some 1)).flatMap
      (fun s => (exampleDb.ratings.filter (fun r => r.StoreId == s.id)).map (fun r => r.rating)) =
      [5, 3, 1] := by decide
  rw [hv]
  have hs : specAverage [5, 3, 1] = some ((3 : Int) : ℚ) := by norm_num [specAverage]
  rw [hs, Option.map_some', roundDouble_int 3 (by norm_num) (by norm_num)]
  norm_num

/-- C8: for every store of the `GET /stores` listing whose rating rows hold
values in `[1,5]`, and every viewer: `userRating` is the value of the viewer's
own row when the store has one and `null` when it has none, and rows of other
users never change it. -/
theorem userRating_spec (userId : Nat) (store : LoadedStore)
    (hvalid : ∀ r ∈ store.Ratings, 1 ≤ r.row.rating ∧ r.row.rating ≤ 5) :
    ((∃ r ∈ store.Ratings, r.row.UserId = userId) →
      ∃ r ∈ store.Ratings, r.row.UserId = userId ∧
        (userStoreRow userId store).userRating = some r.row.rating) ∧
    (∀ r ∈ store.Ratings, r.row.UserId = userId →
      (∀ r2 ∈ store.Ratings, r2.row.UserId = userId → r2 = r) →
      (userStoreRow userId store).userRating = some r.row.rating) ∧
    ((∀ r ∈ store.Ratings, r.row.UserId ≠ userId) →
      (userStoreRow userId store).userRating = none) ∧
    (∀ store2 : LoadedStore,
      store2.Ratings.filter (fun r => r.row.UserId == userId) =
        store.Ratings.filter (fun r => r.row.UserId == userId) →
      (userStoreRow userId store2).userRating = (userStoreRow userId store).userRating) := by
  have hfirst : ∀ r, store.Ratings.find? (fun r => r.row.UserId == userId) = some r →
      (userStoreRow userId store).userRating = some r.row.rating := by
    intro r hr
    have hmem : r ∈ store.Ratings := List.mem_of_find?_eq_some hr
    have hne : r.row.rating ≠ 0 := by
      have := hvalid r hmem
      omega
    simp [userStoreRow, userRatingOf, hr, hne]
  refine ⟨?_, ?_, ?_, ?_⟩
  · rintro ⟨r, hr, hu⟩
    cases hf : store.Ratings.find? (fun r => r.row.UserId == userId) with
    | none =>
      rw [List.find?_eq_none] at hf
      exact absurd (by simpa using hu) (hf r hr)
    | some r1 =>
      refine ⟨r1, List.mem_of_find?_eq_some hf, ?_, hfirst r1 hf⟩
      simpa using List.find?_some hf
  · intro r hr hu huniq
    cases hf : store.Ratings.find? (fun r => r.row.UserId == userId) with
    | none =>
      rw [List.find?_eq_none] at hf
      exact absurd (by simpa using hu) (hf r hr)
    | some r1 =>
      have h1 : r1 = r :=
        huniq r1 (List.mem_of_find?_eq_some hf) (by simpa using List.find?_some hf)
      rw [← h1]
      exact hfirst r1 hf
  · intro hnone
    have hf : store.Ratings.find? (fun r => r.row.UserId == userId) = none := by
      rw [List.find?_eq_none]
      intro r hr
      simpa using hnone r hr
    simp [userStoreRow, userRatingOf, hf]
  · intro store2 hfilter
    have hfind : ∀ rs : List LoadedRating,
        rs.find? (fun r => r.row.UserId == userId) =
          (rs.filter (fun r => r.row.UserId == userId)).head? := by
      intro rs
      induction rs with
      | nil => rfl
      | cons r rs ih =>
        by_cases h : (r.row.UserId == userId) = true
        · rw [List.find?_cons, List.filter_cons, h]
          rfl
        · rw [List.find?_cons, List.filter_cons]
          simp only [h]
          exact ih
    simp only [userStoreRow, userRatingOf, hfind, hfilter]

/-- C8 for viewer 3 on the example store: the viewer's own value `5` is shown. -/
theorem userRating_spec_witness :
    (∀ r ∈ exampleStore.Ratings, 1 ≤ r.row.rating ∧ r.row.rating ≤ 5) ∧
    (userStoreRow 3 exampleStore).userRating = some 5 :=
  ⟨by decide,
    (userRating_spec 3 exampleStore (by decide)).2.1 ⟨⟨1, 5, 3, 1⟩, none⟩
      (by decide) (by decide) (by decide)⟩

/-! ## Rating submission -/

theorem valueCheck_pass (v : Int) (hv : 1 ≤ v ∧ v ≤ 5) :
    (!(BodyValue.number (v : ℚ)).isInteger || (BodyValue.number (v : ℚ)).lt 1 ||
      (BodyValue.number (v : ℚ)).gt 5) = false := by
  have h1 : ¬ ((v : ℚ) < 1) := by
    have : (1 : ℚ) ≤ (v : ℚ) := by exact_mod_cast hv.1
    exact not_lt.mpr this
  have h5 : ¬ ((v : ℚ) > 5) := by
    have : (v : ℚ) ≤ 5 := by exact_mod_cast hv.2
    exact not_lt.mpr this
  simp [BodyValue.isInteger, BodyValue.lt, BodyValue.gt, Rat.isInt, h1, h5]

theorem findStoreByPk_isSome (db : Db) (storeId : Nat)
    (hstore : ∃ s ∈ db.stores, s.id = storeId) :
    ∃ s, db.findStoreByPk storeId = some s := by
  obtain ⟨s, hs, hid⟩ := hstore
  cases hf : db.findStoreByPk storeId with
  | none =>
    unfold Db.findStoreByPk at hf
    rw [List.find?_eq_none] at hf
    exact absurd (by simpa using hid) (hf s hs)
  | some s1 => exact ⟨s1, rfl⟩

theorem findOneRating_none_iff (db : Db) (userId storeId : Nat) :
    db.findOneRating userId storeId = none ↔
      ¬ ∃ r ∈ db.ratings, r.UserId = userId ∧ r.StoreId = storeId := by
  unfold Db.findOneRating
  rw [List.find?_eq_none]
  simp

/-- C9: for an existing store, an existing user and an integer value in
`[1,5]`, a POST is answered 400 (and stores nothing) when a rating of the pair
exists, and otherwise appends one rating with that value for the pair, which
the pair's lookup then returns, and answers 201 with it. -/
theorem upsertRating_post_spec (db : Db) (userId storeId : Nat) (v : Int)
    (hstore : ∃ s ∈ db.stores, s.id = storeId)
    (huser : ∃ u ∈ db.users, u.id = userId)
    (hv : 1 ≤ v ∧ v ≤ 5) :
    ((∃ r ∈ db.ratings, r.UserId = userId ∧ r.StoreId = storeId) →
      (upsertRating db ⟨userId, storeId, .number (v : ℚ)⟩ .POST).1.status = 400 ∧
      (upsertRating db ⟨userId, storeId, .number (v : ℚ)⟩ .POST).2 = db) ∧
    ((¬ ∃ r ∈ db.ratings, r.UserId = userId ∧ r.StoreId = storeId) →
      upsertRating db ⟨userId, storeId, .number (v : ℚ)⟩ .POST =
        (⟨201, .record ⟨db.nextRatingId, v, userId, storeId⟩⟩,
         { db with
           ratings := db.ratings ++ [⟨db.nextRatingId, v, userId, storeId⟩],
           nextRatingId := db.nextRatingId + 1 }) ∧
      (upsertRating db ⟨userId, storeId, .number (v : ℚ)⟩ .POST).2.findOneRating userId storeId =
        some ⟨db.nextRatingId, v, userId, storeId⟩) := by
  obtain ⟨s, hs⟩ := findStoreByPk_isSome db storeId hstore
  have hcheck := valueCheck_pass v hv
  have hvalid : Db.validRatingValue v = true := by
    simp [Db.validRatingValue, hv.1, hv.2]
  constructor
  · intro hex
    have hsome : (db.findOneRating userId storeId).isSome = true := by
      cases hf : db.findOneRating userId storeId with
      | none => exact absurd hex ((findOneRating_none_iff db userId storeId).mp hf)
      | some r => rfl
    simp [upsertRating, hcheck, hs, hsome]
  · intro hno
    have hnone : db.findOneRating userId storeId = none :=
      (findOneRating_none_iff db userId storeId).mpr hno
    have huserAny : db.users.any (fun u => u.id == userId) = true := by
      obtain ⟨u, hu, hid⟩ := huser
      rw [List.any_eq_true]
      exact ⟨u, hu, by simpa using hid⟩
    have hstoreAny : db.stores.any (fun s => s.id == storeId) = true := by
      obtain ⟨s2, hs2, hid⟩ := hstore
      rw [List.any_eq_true]
      exact ⟨s2, hs2, by simpa using hid⟩
    have hratingAny :
        db.ratings.any (fun r => r.UserId == userId && r.StoreId == storeId) = false := by
      rw [List.any_eq_false]
      intro r hr hp
      exact hno ⟨r, hr, by simpa using hp⟩
    have hres : upsertRating db ⟨userId, storeId, .number (v : ℚ)⟩ .POST =
        (⟨201, .record ⟨db.nextRatingId, v, userId, storeId⟩⟩,
         { db with
           ratings := db.ratings ++ [⟨db.nextRatingId, v, userId, storeId⟩],
           nextRatingId := db.nextRatingId + 1 }) := by
      simp [upsertRating, hcheck, hs, hnone, Db.createRating, hvalid, huserAny, hstoreAny,
        hratingAny, BodyValue.toInt]
    refine ⟨hres, ?_⟩
    rw [hres]
    unfold Db.findOneRating at hnone ⊢
    simp only [List.find?_append, hnone]
    simp

/-- C9 on the example database: user 3 has not rated store 2 and creates a
rating of 4; user 4 has rated it and is refused. -/
theorem upsertRating_post_spec_witness :
    (upsertRating exampleDb ⟨3, 2, .number ((4 : Int) : ℚ)⟩ .POST).1.status = 201 ∧
    (upsertRating exampleDb ⟨3, 2, .number ((4 : Int) : ℚ)⟩ .POST).2.findOneRating 3 2 =
      some ⟨5, 4, 3, 2⟩ ∧
    (upsertRating exampleDb ⟨4, 2, .number ((4 : Int) : ℚ)⟩ .POST).1.status = 400 :=
  ⟨congrArg (fun out => out.1.status)
      ((upsertRating_post_spec exampleDb 3 2 4 (by decide) (by decide) (by decide)).2
        (by decide)).1,
    ((upsertRating_post_spec exampleDb 3 2 4 (by decide) (by decide) (by decide)).2
        (by decide)).2,
    ((upsertRating_post_spec exampleDb 4 2 4 (by decide) (by decide) (by decide)).1
        (by decide)).1⟩

/-- C10: for an existing store and an integer value in `[1,5]`, a PUT is
answered 404 (and stores nothing) when no rating of the pair exists, and
otherwise overwrites the value of the pair's existing row with the new value,
keeps every other column and the number of rows, and answers 200 with the
updated row. -/
theorem upsertRating_put_spec (db : Db) (userId storeId : Nat) (v : Int)
    (hstore : ∃ s ∈ db.stores, s.id = storeId)
    (hv : 1 ≤ v ∧ v ≤ 5) :
    ((¬ ∃ r ∈ db.ratings, r.UserId = userId ∧ r.StoreId = storeId) →
      (upsertRating db ⟨userId, storeId, .number (v : ℚ)⟩ .PUT).1.status = 404 ∧
      (upsertRating db ⟨userId, storeId, .number (v : ℚ)⟩ .PUT).2 = db) ∧
    ((∃ r ∈ db.ratings, r.UserId = userId ∧ r.StoreId = storeId) →
      ∃ ex ∈ db.ratings, ex.UserId = userId ∧ ex.StoreId = storeId ∧
        db.findOneRating userId storeId = some ex ∧
        upsertRating db ⟨userId, storeId, .number (v : ℚ)⟩ .PUT =
          (⟨200, .record { ex with rating := v }⟩,
           { db with
             ratings :=
               db.ratings.map (fun r => if r.id == ex.id then { r with rating := v } else r) }) ∧
        (upsertRating db ⟨userId, storeId, .number (v : ℚ)⟩ .PUT).2.findOneRating userId storeId =
          some { ex with rating := v } ∧
        (upsertRating db ⟨userId, storeId, .number (v : ℚ)⟩ .PUT).2.ratings.length =
          db.ratings.length) := by
  obtain ⟨s, hs⟩ := findStoreByPk_isSome db storeId hstore
  have hcheck := valueCheck_pass v hv
  have hvalid : Db.validRatingValue v = true := by
    simp [Db.validRatingValue, hv.1, hv.2]
  constructor
  · intro hno
    have hnone : db.findOneRating userId storeId = none :=
      (findOneRating_none_iff db userId storeId).mpr hno
    simp [upsertRating, hcheck, hs, hnone]
  · intro hex
    cases hf : db.findOneRating userId storeId with
    | none => exact absurd hex ((findOneRating_none_iff db userId storeId).mp hf)
    | some ex =>
      have hmem : ex ∈ db.ratings := List.mem_of_find?_eq_some hf
      have hpair : ex.UserId = userId ∧ ex.StoreId = storeId := by
        have := List.find?_some hf
        simpa using this
      have hres : upsertRating db ⟨userId, storeId, .number (v : ℚ)⟩ .PUT =
          (⟨200, .record { ex with rating := v }⟩,
           { db with
             ratings :=
               db.ratings.map
                 (fun r => if r.id == ex.id then { r with rating := v } else r) }) := by
        simp [upsertRating, hcheck, hs, hf, Db.saveRating, hvalid, BodyValue.toInt]
      refine ⟨ex, hmem, hpair.1, hpair.2, rfl, hres, ?_, ?_⟩
      · rw [hres]
        unfold Db.findOneRating at hf ⊢
        simp only [List.find?_map]
        have hcomp : ((fun r : Rating => r.UserId == userId && r.StoreId == storeId) ∘
            (fun r : Rating => if r.id == ex.id then { r with rating := v } else r)) =
            (fun r : Rating => r.UserId == userId && r.StoreId == storeId) := by
          funext r
          simp only [Function.comp]
          split_ifs <;> rfl
        rw [hcomp, hf]
        simp
      · rw [hres]
        simp

/-- C10 on the example database: user 3 changes the rating of store 1 from 5
to 2; user 3 has no rating of store 2 to change. -/
theorem upsertRating_put_spec_witness :
    (upsertRating exampleDb ⟨3, 1, .number ((2 : Int) : ℚ)⟩ .PUT).2.ratings.length = 4 ∧
    (upsertRating exampleDb ⟨3, 2, .number ((2 : Int) : ℚ)⟩ .PUT).1.status = 404 :=
  ⟨by
    obtain ⟨_, _, _, _, _, _, _, h⟩ :=
      (upsertRating_put_spec exampleDb 3 1 2 (by decide) (by decide)).2 (by decide)
    exact h,
   ((upsertRating_put_spec exampleDb 3 2 2 (by decide) (by decide)).1 (by decide)).1⟩

theorem checkedValue (q : ℚ)
    (h : (!(BodyValue.number q).isInteger || (BodyValue.number q).lt 1 ||
      (BodyValue.number q).gt 5) = false) :
    (1 ≤ q.num ∧ q.num ≤ 5) ∧ ((q.num : Int) : ℚ) = q := by
  simp only [BodyValue.isInteger, BodyValue.lt, BodyValue.gt, Rat.isInt, Bool.or_eq_false_iff,
    Bool.not_eq_false', beq_iff_eq, decide_eq_false_iff_not, not_lt] at h
  obtain ⟨⟨hden, h1⟩, h5⟩ := h
  have hq : ((q.num : Int) : ℚ) = q := Rat.coe_int_num_of_den_eq_one hden
  refine ⟨⟨?_, ?_⟩, hq⟩
  · have : (1 : ℚ) ≤ ((q.num : Int) : ℚ) := by rw [hq]; exact h1
    exact_mod_cast this
  · have : ((q.num : Int) : ℚ) ≤ 5 := by rw [hq]; exact h5
    exact_mod_cast this

/-- Every run of `upsertRating` is a refusal that leaves the database as it
was, a creation by POST, or an update by PUT. -/
theorem upsertRating_cases (db : Db) (req : RatingRequest) (method : Method) :
    ((upsertRating db req method).2 = db ∧
      ((upsertRating db req method).1.status = 400 ∨
        (upsertRating db req method).1.status = 404 ∨
        (upsertRating db req method).1.status = 500)) ∨
    (method = .POST ∧ db.findOneRating req.userId req.storeId = none ∧
      ∃ v : Int, (1 ≤ v ∧ v ≤ 5) ∧ req.rating = .number (v : ℚ) ∧
        upsertRating db req method =
          (⟨201, .record ⟨db.nextRatingId, v, req.userId, req.storeId⟩⟩,
           { db with
             ratings := db.ratings ++ [⟨db.nextRatingId, v, req.userId, req.storeId⟩],
             nextRatingId := db.nextRatingId + 1 })) ∨
    (method = .PUT ∧
      ∃ (ex : Rating) (v : Int), db.findOneRating req.userId req.storeId = some ex ∧
        (1 ≤ v ∧ v ≤ 5) ∧ req.rating = .number (v : ℚ) ∧
        upsertRating db req method =
          (⟨200, .record { ex with rating := v }⟩,
           { db with
             ratings :=
               db.ratings.map
                 (fun r => if r.id == ex.id then { r with rating := v } else r) })) := by
  obtain ⟨userId, storeId, rating⟩ := req
  cases rating with
  | other => left; simp [upsertRating, BodyValue.isInteger]
  | number q =>
    by_cases hc : (!(BodyValue.number q).isInteger || (BodyValue.number q).lt 1 ||
        (BodyValue.number q).gt 5) = true
    · left
      simp [upsertRating, hc]
    · have hc2 := Bool.eq_false_iff.mpr hc
      obtain ⟨hv, hq⟩ := checkedValue q hc2
      have hvalid : Db.validRatingValue q.num = true := by
        simp [Db.validRatingValue, hv.1, hv.2]
      cases hs : db.findStoreByPk storeId with
      | none => left; simp [upsertRating, hc2, hs]
      | some s =>
        cases hf : db.findOneRating userId storeId with
        | none =>
          cases method with
          | PUT => left; simp [upsertRating, hc2, hs, hf]
          | POST =>
            cases hcr : db.createRating q.num userId storeId with
            | none => left; simp [upsertRating, hc2, hs, hf, hcr, BodyValue.toInt]
            | some created =>
              right
              left
              refine ⟨rfl, rfl, q.num, hv, by rw [hq], ?_⟩
              have hrow : created =
                  (⟨db.nextRatingId, q.num, userId, storeId⟩,
                   { db with
                     ratings := db.ratings ++ [⟨db.nextRatingId, q.num, userId, storeId⟩],
                     nextRatingId := db.nextRatingId + 1 }) := by
                unfold Db.createRating at hcr
                split_ifs at hcr
                exact (Option.some.inj hcr).symm
              simp [upsertRating, hc2, hs, hf, hcr, BodyValue.toInt, hrow]
        | some ex =>
          cases method with
          | POST => left; simp [upsertRating, hc2, hs, hf]
          | PUT =>
            right
            right
            refine ⟨rfl, ex, q.num, rfl, hv, by rw [hq], ?_⟩
            simp [upsertRating, hc2, hs, hf, Db.saveRating, hvalid, BodyValue.toInt]

theorem upsertRating_post_exists (db : Db) (userId storeId : Nat) (rating : BodyValue)
    (ex : Rating) (hstore : ∃ s ∈ db.stores, s.id = storeId)
    (hf : db.findOneRating userId storeId = some ex) :
    (upsertRating db ⟨userId, storeId, rating⟩ .POST).1.status = 400 ∧
    (upsertRating db ⟨userId, storeId, rating⟩ .POST).2 = db := by
  obtain ⟨s, hs⟩ := findStoreByPk_isSome db storeId hstore
  by_cases hc : (!rating.isInteger || rating.lt 1 || rating.gt 5) = true
  · simp [upsertRating, hc]
  · simp [upsertRating, hc, hs, hf]

theorem upsertRating_post_create (db : Db) (userId storeId : Nat) (v : Int)
    (hstore : ∃ s ∈ db.stores, s.id = storeId)
    (huser : ∃ u ∈ db.users, u.id = userId)
    (hv : 1 ≤ v ∧ v ≤ 5)
    (hf : db.findOneRating userId storeId = none) :
    upsertRating db ⟨userId, storeId, .number (v : ℚ)⟩ .POST =
      (⟨201, .record ⟨db.nextRatingId, v, userId, storeId⟩⟩,
       { db with
         ratings := db.ratings ++ [⟨db.nextRatingId, v, userId, storeId⟩],
         nextRatingId := db.nextRatingId + 1 }) := by
  obtain ⟨s, hs⟩ := findStoreByPk_isSome db storeId hstore
  have hcheck := valueCheck_pass v hv
  have hvalid : Db.validRatingValue v = true := by
    simp [Db.validRatingValue, hv.1, hv.2]
  have hno := (findOneRating_none_iff db userId storeId).mp hf
  have huserAny : db.users.any (fun u => u.id == userId) = true := by
    obtain ⟨u, hu, hid⟩ := huser
    rw [List.any_eq_true]
    exact ⟨u, hu, by simpa using hid⟩
  have hstoreAny : db.stores.any (fun s => s.id == storeId) = true := by
    obtain ⟨s2, hs2, hid⟩ := hstore
    rw [List.any_eq_true]
    exact ⟨s2, hs2, by simpa using hid⟩
  have hratingAny :
      db.ratings.any (fun r => r.UserId == userId && r.StoreId == storeId) = false := by
    rw [List.any_eq_false]
    intro r hr hp
    exact hno ⟨r, hr, by simpa using hp⟩
  simp [upsertRating, hcheck, hs, hf, Db.createRating, hvalid, huserAny, hstoreAny,
    hratingAny, BodyValue.toInt]

theorem upsertRating_put_update (db : Db) (userId storeId : Nat) (v : Int) (ex : Rating)
    (hstore : ∃ s ∈ db.stores, s.id = storeId)
    (hv : 1 ≤ v ∧ v ≤ 5)
    (hf : db.findOneRating userId storeId = some ex) :
    (upsertRating db ⟨userId, storeId, .number (v : ℚ)⟩ .PUT).1.status = 200 ∧
    upsertRating db ⟨userId, storeId, .number (v : ℚ)⟩ .PUT =
      (⟨200, .record { ex with rating := v }⟩,
       { db with
         ratings :=
           db.ratings.map (fun r => if r.id == ex.id then { r with rating := v } else r) }) := by
  obtain ⟨s, hs⟩ := findStoreByPk_isSome db storeId hstore
  have hcheck := valueCheck_pass v hv
  have hvalid : Db.validRatingValue v = true := by
    simp [Db.validRatingValue, hv.1, hv.2]
  have hres : upsertRating db ⟨userId, storeId, .number (v : ℚ)⟩ .PUT =
      (⟨200, .record { ex with rating := v }⟩,
       { db with
         ratings :=
           db.ratings.map
             (fun r => if r.id == ex.id then { r with rating := v } else r) }) := by
    simp [upsertRating, hcheck, hs, hf, Db.saveRating, hvalid, BodyValue.toInt]
  exact ⟨by rw [hres], hres⟩

/-- C11: for POST and for PUT, a request whose value is not an integer between
1 and 5 (not a number, fractional or out of range) is answered 400, whatever
the store id and the stored ratings, and stores nothing. -/
theorem upsertRating_invalid_value (db : Db) (userId storeId : Nat) (rating : BodyValue)
    (method : Method)
    (hbad : ¬ ∃ v : Int, 1 ≤ v ∧ v ≤ 5 ∧ rating = .number (v : ℚ)) :
    upsertRating db ⟨userId, storeId, rating⟩ method =
      (⟨400, .message "Rating must be an integer between 1 and 5"⟩, db) := by
  cases rating with
  | other => simp [upsertRating, BodyValue.isInteger]
  | number q =>
    by_cases hc : (!(BodyValue.number q).isInteger || (BodyValue.number q).lt 1 ||
        (BodyValue.number q).gt 5) = true
    · simp [upsertRating, hc]
    · exfalso
      obtain ⟨hv, hq⟩ := checkedValue q (Bool.eq_false_iff.mpr hc)
      exact hbad ⟨q.num, hv.1, hv.2, by rw [hq]⟩

/-- C11 on the example database: a missing value, `7/2` and `6` are refused
for a pair that is rated (PUT), for one that is not (POST) and for a store that
does not exist. -/
theorem upsertRating_invalid_value_witness :
    upsertRating exampleDb ⟨3, 1, .other⟩ .PUT =
      (⟨400, .message "Rating must be an integer between 1 and 5"⟩, exampleDb) ∧
    upsertRating exampleDb ⟨3, 2, .number (7 / 2)⟩ .POST =
      (⟨400, .message "Rating must be an integer between 1 and 5"⟩, exampleDb) ∧
    upsertRating exampleDb ⟨3, 99, .number 6⟩ .POST =
      (⟨400, .message "Rating must be an integer between 1 and 5"⟩, exampleDb) :=
  ⟨upsertRating_invalid_value exampleDb 3 1 .other .PUT
      (by rintro ⟨v, _, _, h⟩; cases h),
    upsertRating_invalid_value exampleDb 3 2 (.number (7 / 2)) .POST
      (by
        rintro ⟨v, h1, h5, h⟩
        injection h with h
        interval_cases v <;> norm_num at h),
    upsertRating_invalid_value exampleDb 3 99 (.number 6) .POST
      (by
        rintro ⟨v, h1, h5, h⟩
        injection h with h
        interval_cases v <;> norm_num at h)⟩

/-- C12: for POST and for PUT with an integer value in `[1,5]`, a request whose
store id names no store is answered 404 and stores nothing. -/
theorem upsertRating_missing_store (db : Db) (userId storeId : Nat) (v : Int)
    (method : Method) (hv : 1 ≤ v ∧ v ≤ 5)
    (hno : ∀ s ∈ db.stores, s.id ≠ storeId) :
    upsertRating db ⟨userId, storeId, .number (v : ℚ)⟩ method =
      (⟨404, .message "Store not found"⟩, db) := by
  have hcheck := valueCheck_pass v hv
  have hs : db.findStoreByPk storeId = none := by
    unfold Db.findStoreByPk
    rw [List.find?_eq_none]
    intro s hmem
    simpa using hno s hmem
  simp [upsertRating, hcheck, hs]

/-- C12 on the example database, which has no store 99. -/
theorem upsertRating_missing_store_witness :
    upsertRating exampleDb ⟨3, 99, .number ((4 : Int) : ℚ)⟩ .POST =
      (⟨404, .message "Store not found"⟩, exampleDb) ∧
    upsertRating exampleDb ⟨3, 99, .number ((4 : Int) : ℚ)⟩ .PUT =
      (⟨404, .message "Store not found"⟩, exampleDb) :=
  ⟨upsertRating_missing_store exampleDb 3 99 4 .POST (by decide) (by decide),
    upsertRating_missing_store exampleDb 3 99 4 .PUT (by decide) (by decide)⟩

theorem findOneRating_none_pair (db : Db) (userId storeId : Nat)
    (h : db.findOneRating userId storeId = none) :
    (userId, storeId) ∉ db.ratings.map (fun r => (r.UserId, r.StoreId)) := by
  intro hmem
  obtain ⟨r, hr, hp⟩ := List.mem_map.mp hmem
  have hno := (findOneRating_none_iff db userId storeId).mp h
  simp only [Prod.mk.injEq] at hp
  exact hno ⟨r, hr, hp.1, hp.2⟩

theorem map_pair_update (rs : List Rating) (id : Nat) (v : Int) :
    (rs.map (fun r => if r.id == id then { r with rating := v } else r)).map
        (fun r => (r.UserId, r.StoreId)) =
      rs.map (fun r => (r.UserId, r.StoreId)) := by
  rw [List.map_map]
  apply List.map_congr_left
  intro r _
  simp only [Function.comp]
  split_ifs <;> rfl

theorem onePerPair_step (db : Db) (req : RatingRequest) (method : Method)
    (h : db.onePerPair) : (upsertRating db req method).2.onePerPair := by
  rcases upsertRating_cases db req method with
    ⟨hsame, _⟩ | ⟨_, hf, v, _, _, hres⟩ | ⟨_, ex, v, _, _, _, hres⟩
  · rw [hsame]
    exact h
  · rw [hres]
    unfold Db.onePerPair at h ⊢
    simp only [List.map_append, List.map_cons, List.map_nil]
    rw [List.nodup_append]
    refine ⟨h, List.nodup_singleton _, ?_⟩
    intro a ha hb
    have hab : a = (req.userId, req.storeId) := by simpa using hb
    rw [hab] at ha
    exact findOneRating_none_pair db req.userId req.storeId hf ha
  · rw [hres]
    unfold Db.onePerPair at h ⊢
    simp only [map_pair_update]
    exact h

/-- C13: starting from a state with at most one rating per (user, store)
pair, every sequence of POST and PUT rating requests, handled one at a time,
leaves a state with at most one rating per pair. -/
theorem onePerPair_preserved (db : Db) (reqs : List (RatingRequest × Method))
    (h : db.onePerPair) : (runRatingRequests db reqs).onePerPair := by
  unfold runRatingRequests
  induction reqs generalizing db with
  | nil => exact h
  | cons rq rest ih =>
    simp only [List.foldl_cons]
    exact ih _ (onePerPair_step db rq.1 rq.2 h)

/-- C13 on the example database: a POST for a rated pair, a POST for a new
pair, the same POST again and a PUT leave one rating per pair. -/
theorem onePerPair_preserved_witness :
    exampleDb.onePerPair ∧
    (runRatingRequests exampleDb
      [(⟨3, 1, .number 4⟩, .POST), (⟨3, 2, .number 4⟩, .POST),
       (⟨3, 2, .number 5⟩, .POST), (⟨3, 2, .number 1⟩, .PUT)]).onePerPair :=
  ⟨by decide, onePerPair_preserved exampleDb _ (by decide)⟩

theorem valuesInRange_step (db : Db) (req : RatingRequest) (method : Method)
    (h : db.valuesInRange) : (upsertRating db req method).2.valuesInRange := by
  rcases upsertRating_cases db req method with
    ⟨hsame, _⟩ | ⟨_, _, v, hv, _, hres⟩ | ⟨_, ex, v, _, hv, _, hres⟩
  · rw [hsame]
    exact h
  · rw [hres]
    intro r hr
    rcases List.mem_append.mp hr with h1 | h1
    · exact h r h1
    · have hrow : r = ⟨db.nextRatingId, v, req.userId, req.storeId⟩ := by simpa using h1
      rw [hrow]
      exact hv
  · rw [hres]
    intro r hr
    obtain ⟨r0, hr0, hmap⟩ := List.mem_map.mp hr
    by_cases hid : (r0.id == ex.id) = true
    · rw [if_pos hid] at hmap
      rw [← hmap]
      exact hv
    · rw [if_neg hid] at hmap
      rw [← hmap]
      exact h r0 hr0

/-- C14: starting from a state whose stored rating values are integers in
`[1,5]`, every sequence of POST and PUT rating requests leaves a state whose
stored rating values are integers in `[1,5]`. -/
theorem valuesInRange_preserved (db : Db) (reqs : List (RatingRequest × Method))
    (h : db.valuesInRange) : (runRatingRequests db reqs).valuesInRange := by
  unfold runRatingRequests
  induction reqs generalizing db with
  | nil => exact h
  | cons rq rest ih =>
    simp only [List.foldl_cons]
    exact ih _ (valuesInRange_step db rq.1 rq.2 h)

/-- C14 on the example database: requests with the values 0, 6 and 7/2 are
among those handled, and the stored values stay in `[1,5]`. -/
theorem valuesInRange_preserved_witness :
    exampleDb.valuesInRange ∧
    (runRatingRequests exampleDb
      [(⟨3, 2, .number 0⟩, .POST), (⟨3, 2, .number 6⟩, .POST),
       (⟨3, 1, .number (7 / 2)⟩, .PUT), (⟨3, 1, .number 1⟩, .PUT),
       (⟨3, 2, .number 5⟩, .POST)]).valuesInRange :=
  ⟨by decide, valuesInRange_preserved exampleDb _ (by decide)⟩

/-- C16: whenever a POST or PUT rating request is answered 400 or 404, the
database, and so the set of stored ratings, is exactly what it was before the
request. -/
theorem upsertRating_refusal_unchanged (db : Db) (req : RatingRequest) (method : Method)
    (h : (upsertRating db req method).1.status = 400 ∨
      (upsertRating db req method).1.status = 404) :
    (upsertRating db req method).2 = db := by
  rcases upsertRating_cases db req method with
    ⟨hsame, _⟩ | ⟨_, _, v, _, _, hres⟩ | ⟨_, ex, v, _, _, _, hres⟩
  · exact hsame
  · rw [hres] at h
    simp at h
  · rw [hres] at h
    simp at h

/-- C16 on the example database: the refused second POST of user 3 for store
1 stores nothing. -/
theorem upsertRating_refusal_unchanged_witness :
    (upsertRating exampleDb ⟨3, 1, .number ((4 : Int) : ℚ)⟩ .POST).1.status = 400 ∧
    (upsertRating exampleDb ⟨3, 1, .number ((4 : Int) : ℚ)⟩ .POST).2 = exampleDb :=
  ⟨((upsertRating_post_exists exampleDb 3 1 (.number ((4 : Int) : ℚ)) ⟨1, 5, 3, 1⟩
      (by decide) (by decide)).1),
    upsertRating_refusal_unchanged exampleDb ⟨3, 1, .number ((4 : Int) : ℚ)⟩ .POST
      (Or.inl (upsertRating_post_exists exampleDb 3 1 (.number ((4 : Int) : ℚ)) ⟨1, 5, 3, 1⟩
        (by decide) (by decide)).1)⟩

/-- C17: a successful POST appends exactly one rating row, of the requesting
pair, and changes no other row; a successful PUT keeps the number of rows and
the id, user and store of every row, and leaves every row of another pair
unchanged (ids being a primary key); no rating request removes a row. -/
theorem upsertRating_frame (db : Db) (req : RatingRequest) :
    ((upsertRating db req .POST).1.status = 201 →
      ∃ row : Rating, row.UserId = req.userId ∧ row.StoreId = req.storeId ∧
        (upsertRating db req .POST).2.ratings = db.ratings ++ [row]) ∧
    ((upsertRating db req .PUT).1.status = 200 →
      (db.ratings.map (fun r => r.id)).Nodup →
      (upsertRating db req .PUT).2.ratings.length = db.ratings.length ∧
      ∀ (i : Nat) (r : Rating), db.ratings[i]? = some r →
        ∃ r2, (upsertRating db req .PUT).2.ratings[i]? = some r2 ∧
          r2.id = r.id ∧ r2.UserId = r.UserId ∧ r2.StoreId = r.StoreId ∧
          (¬ (r.UserId = req.userId ∧ r.StoreId = req.storeId) → r2 = r)) ∧
    (∀ method : Method, ∃ added : List Rating,
      (upsertRating db req method).2.ratings.map (fun r => (r.id, r.UserId, r.StoreId)) =
        db.ratings.map (fun r => (r.id, r.UserId, r.StoreId)) ++
          added.map (fun r => (r.id, r.UserId, r.StoreId))) := by
  refine ⟨?_, ?_, ?_⟩
  · intro hst
    rcases upsertRating_cases db req .POST with
      ⟨_, h4 | h4 | h4⟩ | ⟨_, _, v, _, _, hres⟩ | ⟨hm, _⟩
    · rw [h4] at hst
      exact absurd hst (by decide)
    · rw [h4] at hst
      exact absurd hst (by decide)
    · rw [h4] at hst
      exact absurd hst (by decide)
    · exact ⟨⟨db.nextRatingId, v, req.userId, req.storeId⟩, rfl, rfl, by rw [hres]⟩
    · exact absurd hm (by decide)
  · intro hst hid
    rcases upsertRating_cases db req .PUT with
      ⟨_, h4 | h4 | h4⟩ | ⟨hm, _⟩ | ⟨_, ex, v, hf, _, _, hres⟩
    · rw [h4] at hst
      exact absurd hst (by decide)
    · rw [h4] at hst
      exact absurd hst (by decide)
    · rw [h4] at hst
      exact absurd hst (by decide)
    · exact absurd hm (by decide)
    · rw [hres]
      refine ⟨by simp, ?_⟩
      intro i r hr
      have hmem : r ∈ db.ratings := List.getElem?_mem hr
      have hexmem : ex ∈ db.ratings := List.mem_of_find?_eq_some hf
      have hexpair : ex.UserId = req.userId ∧ ex.StoreId = req.storeId := by
        have := List.find?_some hf
        simpa using this
      simp only [List.getElem?_map, hr, Option.map_some']
      refine ⟨_, rfl, ?_⟩
      by_cases hri : (r.id == ex.id) = true
      · rw [if_pos hri]
        refine ⟨rfl, rfl, rfl, ?_⟩
        intro hnp
        have hre : r = ex :=
          List.inj_on_of_nodup_map hid hmem hexmem (by simpa using hri)
        rw [hre] at hnp
        exact absurd hexpair hnp
      · rw [if_neg hri]
        exact ⟨rfl, rfl, rfl, fun _ => rfl⟩
  · intro method
    rcases upsertRating_cases db req method with
      ⟨hsame, _⟩ | ⟨_, _, v, _, _, hres⟩ | ⟨_, ex, v, _, _, _, hres⟩
    · exact ⟨[], by rw [hsame]; simp⟩
    · exact ⟨[⟨db.nextRatingId, v, req.userId, req.storeId⟩], by rw [hres]; simp⟩
    · refine ⟨[], ?_⟩
      rw [hres]
      simp only [List.map_map, List.map_nil, List.append_nil]
      apply List.map_congr_left
      intro r _
      simp only [Function.comp]
      split_ifs <;> rfl

/-- C17 on the example database: the successful PUT of user 3 for store 1 keeps
four rows and leaves the row of user 4 for store 2 as it was. -/
theorem upsertRating_frame_witness :
    (upsertRating exampleDb ⟨3, 1, .number ((2 : Int) : ℚ)⟩ .PUT).1.status = 200 ∧
    (exampleDb.ratings.map (fun r => r.id)).Nodup ∧
    (upsertRating exampleDb ⟨3, 1, .number ((2 : Int) : ℚ)⟩ .PUT).2.ratings.length = 4 :=
  ⟨(upsertRating_put_update exampleDb 3 1 2 ⟨1, 5, 3, 1⟩ (by decide) (by decide)
      (by decide)).1,
    by decide,
    ((upsertRating_frame exampleDb ⟨3, 1, .number ((2 : Int) : ℚ)⟩).2.1
      (upsertRating_put_update exampleDb 3 1 2 ⟨1, 5, 3, 1⟩ (by decide) (by decide)
        (by decide)).1 (by decide)).1⟩

theorem getStores_row (db : Db) (viewer : Nat) (row : UserStoreRow)
    (h : row ∈ getStores db viewer) :
    ∃ s ∈ db.stores, row.id = s.id ∧
      row.overallRating =
        (specAverage
          ((db.ratings.filter (fun r => r.StoreId == s.id)).map (fun r => r.rating))).map
          roundDouble ∧
      row.ratingCount = (db.ratings.filter (fun r => r.StoreId == s.id)).length := by
  unfold getStores userStoresResult Db.findAllStores at h
  simp only [List.map_map, List.mem_map, List.filter_true] at h
  obtain ⟨s, hs, hrow⟩ := h
  refine ⟨s, hs, ?_, ?_, ?_⟩
  · rw [← hrow]
    rfl
  · rw [← hrow]
    simp only [Function.comp, userStoreRow, averageOf_eq, Db.loadRatings, List.map_map]
    rfl
  · rw [← hrow]
    simp [userStoreRow, Db.loadRatings]

theorem average_single (v : Int) (h0 : 0 < v) (h : v < 2 ^ 53) :
    (specAverage [v]).map roundDouble = some (v : ℚ) := by
  have hs : specAverage [v] = some (v : ℚ) := by simp [specAverage]
  rw [hs, Option.map_some', roundDouble_int v h0 h]

theorem getStores_has_row (db : Db) (viewer storeId : Nat)
    (h : ∃ s ∈ db.stores, s.id = storeId) :
    ∃ row ∈ getStores db viewer, row.id = storeId := by
  obtain ⟨s, hs, hid⟩ := h
  refine ⟨userStoreRow viewer ⟨s, db.loadRatings s.id false⟩, ?_, hid⟩
  unfold getStores userStoresResult Db.findAllStores
  simp only [List.map_map, List.mem_map, List.filter_true]
  exact ⟨s, hs, rfl⟩

/-- C15: for a store `S` without ratings and a user `U`: the POST of 4 by `U`
is answered 201 and the listing then shows `S` with average 4 and
`ratingCount` 1; a second POST by `U` for `S` is answered 400 and changes
nothing; the PUT of 2 that follows is answered 200 and the listing shows `S`
with average 2 and `ratingCount` still 1. -/
theorem rating_scenario (db : Db) (U S viewer : Nat) (second : BodyValue)
    (hstore : ∃ s ∈ db.stores, s.id = S)
    (huser : ∃ u ∈ db.users, u.id = U)
    (hnone : ∀ r ∈ db.ratings, r.StoreId ≠ S) :
    (upsertRating db ⟨U, S, .number 4⟩ .POST).1.status = 201 ∧
    (∃ row ∈ getStores (upsertRating db ⟨U, S, .number 4⟩ .POST).2 viewer, row.id = S) ∧
    (∀ row ∈ getStores (upsertRating db ⟨U, S, .number 4⟩ .POST).2 viewer, row.id = S →
      row.overallRating = some 4 ∧ row.ratingCount = 1) ∧
    (upsertRating (upsertRating db ⟨U, S, .number 4⟩ .POST).2 ⟨U, S, second⟩ .POST).1.status
      = 400 ∧
    (upsertRating (upsertRating db ⟨U, S, .number 4⟩ .POST).2 ⟨U, S, second⟩ .POST).2 =
      (upsertRating db ⟨U, S, .number 4⟩ .POST).2 ∧
    (upsertRating (upsertRating db ⟨U, S, .number 4⟩ .POST).2 ⟨U, S, .number 2⟩ .PUT).1.status
      = 200 ∧
    (∃ row ∈ getStores
        (upsertRating (upsertRating db ⟨U, S, .number 4⟩ .POST).2 ⟨U, S, .number 2⟩ .PUT).2
        viewer, row.id = S) ∧
    (∀ row ∈ getStores
        (upsertRating (upsertRating db ⟨U, S, .number 4⟩ .POST).2 ⟨U, S, .number 2⟩ .PUT).2
        viewer, row.id = S → row.overallRating = some 2 ∧ row.ratingCount = 1) := by
  have e4 : (4 : ℚ) = ((4 : Int) : ℚ) := by norm_num
  have e2 : (2 : ℚ) = ((2 : Int) : ℚ) := by norm_num
  have hfilter : db.ratings.filter (fun r => r.StoreId == S) = [] := by
    rw [List.filter_eq_nil_iff]
    intro r hr
    simpa using hnone r hr
  have hf0 : db.findOneRating U S = none := by
    rw [findOneRating_none_iff]
    rintro ⟨r, hr, _, hs⟩
    exact hnone r hr hs
  have h1 := upsertRating_post_create db U S 4 hstore huser (by decide) hf0
  rw [← e4] at h1
  rw [h1]
  have hf1 : Db.findOneRating
      { db with
        ratings := db.ratings ++ [⟨db.nextRatingId, 4, U, S⟩],
        nextRatingId := db.nextRatingId + 1 } U S = some ⟨db.nextRatingId, 4, U, S⟩ := by
    unfold Db.findOneRating at hf0 ⊢
    simp only [List.find?_append, hf0]
    simp
  have h2 := upsertRating_post_exists
    { db with
      ratings := db.ratings ++ [⟨db.nextRatingId, 4, U, S⟩],
      nextRatingId := db.nextRatingId + 1 } U S second ⟨db.nextRatingId, 4, U, S⟩ hstore hf1
  have h3 := (upsertRating_put_update
    { db with
      ratings := db.ratings ++ [⟨db.nextRatingId, 4, U, S⟩],
      nextRatingId := db.nextRatingId + 1 } U S 2 ⟨db.nextRatingId, 4, U, S⟩ hstore
      (by decide) hf1).2
  rw [← e2] at h3
  rw [h3]
  refine ⟨rfl, getStores_has_row _ viewer S hstore, ?_, h2.1, h2.2, rfl,
    getStores_has_row _ viewer S hstore, ?_⟩
  · intro row hrow hid
    obtain ⟨s, _, hsid, havg, hcnt⟩ := getStores_row _ viewer row hrow
    rw [hid] at hsid
    rw [← hsid] at havg hcnt
    simp only [List.filter_append, hfilter, List.nil_append] at havg hcnt
    rw [havg, hcnt]
    simp [average_single 4 (by norm_num) (by norm_num)]
  · intro row hrow hid
    obtain ⟨s, _, hsid, havg, hcnt⟩ := getStores_row _ viewer row hrow
    rw [hid] at hsid
    rw [← hsid] at havg hcnt
    have hcomp : ((fun r : Rating => r.StoreId == S) ∘
        (fun r : Rating =>
          if r.id == db.nextRatingId then { r with rating := (2 : Int) } else r)) =
        (fun r : Rating => r.StoreId == S) := by
      funext r
      simp only [Function.comp]
      split_ifs <;> rfl
    simp only [List.filter_map, hcomp, List.filter_append, hfilter, List.nil_append] at havg hcnt
    rw [havg, hcnt]
    simp [average_single 2 (by norm_num) (by norm_num)]

/-- C15 on a database with one user, one store and no rating. -/
theorem rating_scenario_witness :
    (upsertRating freshDb ⟨7, 9, .number 4⟩ .POST).1.status = 201 ∧
    (upsertRating (upsertRating freshDb ⟨7, 9, .number 4⟩ .POST).2
      ⟨7, 9, .number 5⟩ .POST).1.status = 400 ∧
    (upsertRating (upsertRating freshDb ⟨7, 9, .number 4⟩ .POST).2
      ⟨7, 9, .number 2⟩ .PUT).1.status = 200 :=
  ⟨(rating_scenario freshDb 7 9 7 (.number 5) (by decide) (by decide) (by decide)).1,
    (rating_scenario freshDb 7 9 7 (.number 5) (by decide) (by decide) (by decide)).2.2.2.1,
    (rating_scenario freshDb 7 9 7 (.number 5) (by decide) (by decide)
      (by decide)).2.2.2.2.2.1⟩

/-! ## Middlewares and login -/

/-- C18: for every list of permitted roles and every request, `requireRole`
answers 403 without calling `next` when the request has no identity or its
role is not permitted, and otherwise calls `next` with the request untouched;
on the rating routes a verified caller whose role is not USER is answered 403
and nothing is stored. -/
theorem requireRole_spec (roles : List Role) (req : AuthRequest) :
    ((req.user = none ∨ ∃ u, req.user = some u ∧ u.role ∉ roles) →
      requireRole roles req = .respond 403 "Forbidden") ∧
    ((∃ u, req.user = some u ∧ u.role ∈ roles) → requireRole roles req = .next req) ∧
    (∀ (verify : JsString → Option Claims) (db : Db) (storeId : Nat) (rating : BodyValue)
        (method : Method) (req1 : AuthRequest),
      authMiddleware verify req = .next req1 →
      (∀ u, req1.user = some u → u.role ≠ .USER) →
      ratingRoute verify db req storeId rating method =
        (⟨403, .message "Forbidden"⟩, db)) := by
  have hdeny : ∀ r : AuthRequest, ∀ rs : List Role,
      (r.user = none ∨ ∃ u, r.user = some u ∧ u.role ∉ rs) →
      requireRole rs r = .respond 403 "Forbidden" := by
    intro r rs h
    unfold requireRole
    rcases h with h | ⟨u, hu, hr⟩
    · rw [h]
    · rw [hu]
      simp [hr]
  refine ⟨hdeny req roles, ?_, ?_⟩
  · rintro ⟨u, hu, hr⟩
    unfold requireRole
    rw [hu]
    simp [hr]
  · intro verify db storeId rating method req1 hauth hrole
    have h403 : requireRole [.USER] req1 = .respond 403 "Forbidden" := by
      apply hdeny
      cases hu : req1.user with
      | none => exact Or.inl rfl
      | some u =>
        right
        exact ⟨u, rfl, by simpa using hrole u hu⟩
    simp [ratingRoute, hauth, h403]

/-- C18 on the example database: a verified ADMIN is refused on the POST
rating route. -/
theorem requireRole_spec_witness :
    authMiddleware (exampleVerify .ADMIN) ⟨some (utf16 "Bearer ok"), none⟩ =
      .next ⟨some (utf16 "Bearer ok"), some ⟨7, .ADMIN, utf16 "Una", utf16 "u@x.y"⟩⟩ ∧
    ratingRoute (exampleVerify .ADMIN) exampleDb ⟨some (utf16 "Bearer ok"), none⟩ 1
        (.number 4) .POST = (⟨403, .message "Forbidden"⟩, exampleDb) :=
  ⟨by decide,
    (requireRole_spec [.USER] ⟨some (utf16 "Bearer ok"), none⟩).2.2
      (exampleVerify .ADMIN) exampleDb 1 (.number 4) .POST
      ⟨some (utf16 "Bearer ok"), some ⟨7, .ADMIN, utf16 "Una", utf16 "u@x.y"⟩⟩
      (by decide) (by decide)⟩

theorem splitOn_append_sep (sep : Nat) (a b : JsString) (h : sep ∉ a) :
    splitOn sep (a ++ sep :: b) = a :: splitOn sep b := by
  induction a with
  | nil => simp [splitOn]
  | cons c a ih =>
    have hc : c ≠ sep := fun e => h (e ▸ List.mem_cons_self _ _)
    have ha : sep ∉ a := fun e => h (List.mem_cons_of_mem _ e)
    rw [List.cons_append, splitOn.eq_2, ih ha]
    simp [hc]

theorem splitOn_head (sep : Nat) (t rest : JsString) (h : sep ∉ t)
    (hr : rest = [] ∨ rest.head? = some sep) :
    ∃ pieces, splitOn sep (t ++ rest) = t :: pieces := by
  rcases hr with hr | hr
  · subst hr
    rw [List.append_nil]
    induction t with
    | nil => exact ⟨[], rfl⟩
    | cons c t ih =>
      have hc : c ≠ sep := fun e => h (e ▸ List.mem_cons_self _ _)
      obtain ⟨ps, hps⟩ := ih (fun e => h (List.mem_cons_of_mem _ e))
      refine ⟨ps, ?_⟩
      rw [splitOn.eq_2, hps]
      simp [hc]
  · cases rest with
    | nil => simp at hr
    | cons d rest =>
      have hd : d = sep := by simpa using hr
      subst hd
      exact ⟨_, splitOn_append_sep d t rest h⟩

theorem bearer_token (t rest : JsString) (h : 32 ∉ t)
    (hr : rest = [] ∨ rest.head? = some 32) :
    (splitOn 32 (utf16 "Bearer " ++ t ++ rest))[1]? = some t := by
  have hb : utf16 "Bearer " = [66, 101, 97, 114, 101, 114] ++ [32] := by decide
  obtain ⟨ps, hps⟩ := splitOn_head 32 t rest h hr
  rw [hb, List.append_assoc, List.append_assoc, List.singleton_append,
    splitOn_append_sep 32 _ _ (by decide), hps]
  simp

theorem authMiddleware_bearer (verify : JsString → Option Claims) (req : AuthRequest)
    (h : JsString) (hh : req.authorization = some h)
    (hp : (utf16 "Bearer ").isPrefixOf h = true) :
    authMiddleware verify req =
      match ((splitOn 32 h)[1]?).bind verify with
      | some payload => .next { req with user := some payload }
      | none => .respond 401 "Invalid or expired token" := by
  have hne : h.isEmpty = false := by
    obtain ⟨x, hx⟩ := List.isPrefixOf_iff_prefix.mp hp
    rw [← hx]
    have hb : utf16 "Bearer " = 66 :: [101, 97, 114, 101, 114, 32] := by decide
    rw [hb]
    rfl
  unfold authMiddleware
  rw [hh]
  simp only [hne, hp, Bool.not_true, Bool.or_self, Bool.false_eq_true, if_false]

/-- C19: for every request, `authMiddleware` answers 401 without calling `next`
when the Authorization header is missing, does not start with `Bearer `, or
carries a token that `jwt.verify` refuses; it calls `next`, with the request
identity set to the token's claims, exactly when the header starts with
`Bearer ` and the token is verified. -/
theorem authMiddleware_spec (verify : JsString → Option Claims) (req : AuthRequest) :
    (req.authorization = none → authMiddleware verify req = .respond 401 "Unauthorized") ∧
    (∀ h, req.authorization = some h → ¬ (utf16 "Bearer " <+: h) →
      authMiddleware verify req = .respond 401 "Unauthorized") ∧
    (∀ t rest, req.authorization = some (utf16 "Bearer " ++ t ++ rest) → 32 ∉ t →
      (rest = [] ∨ rest.head? = some 32) →
      (verify t = none →
        authMiddleware verify req = .respond 401 "Invalid or expired token") ∧
      (∀ c, verify t = some c →
        authMiddleware verify req = .next { req with user := some c })) ∧
    (∀ req1, authMiddleware verify req = .next req1 →
      ∃ h t c, req.authorization = some h ∧ utf16 "Bearer " <+: h ∧
        (splitOn 32 h)[1]? = some t ∧ verify t = some c ∧
        req1 = { req with user := some c }) ∧
    (∀ status message, authMiddleware verify req = .respond status message → status = 401) := by
  refine ⟨?_, ?_, ?_, ?_, ?_⟩
  · intro h
    simp [authMiddleware, h]
  · intro h hh hnp
    have hp : (utf16 "Bearer ").isPrefixOf h = false := by
      rw [Bool.eq_false_iff]
      intro hp
      exact hnp (List.isPrefixOf_iff_prefix.mp hp)
    simp [authMiddleware, hh, hp]
  · intro t rest hh ht hr
    have hp : (utf16 "Bearer ").isPrefixOf (utf16 "Bearer " ++ t ++ rest) = true := by
      rw [List.isPrefixOf_iff_prefix, List.append_assoc]
      exact List.prefix_append _ _
    have htok := bearer_token t rest ht hr
    constructor
    · intro hv
      rw [authMiddleware_bearer verify req _ hh hp, htok, Option.some_bind, hv]
    · intro c hv
      rw [authMiddleware_bearer verify req _ hh hp, htok, Option.some_bind, hv]
  · intro req1 hnext
    cases hh : req.authorization with
    | none => simp [authMiddleware, hh] at hnext
    | some h =>
      by_cases hp : (utf16 "Bearer ").isPrefixOf h = true
      · rw [authMiddleware_bearer verify req h hh hp] at hnext
        cases htok : (splitOn 32 h)[1]? with
        | none =>
          rw [htok] at hnext
          simp at hnext
        | some t =>
          rw [htok, Option.some_bind] at hnext
          cases hv : verify t with
          | none =>
            rw [hv] at hnext
            simp at hnext
          | some c =>
            rw [hv] at hnext
            simp only [Handled.next.injEq] at hnext
            exact ⟨h, t, c, rfl, List.isPrefixOf_iff_prefix.mp hp, htok, hv,
              by rw [← hh]; exact hnext.symm⟩
      · simp [authMiddleware, hh, hp] at hnext
  · intro status message hres
    unfold authMiddleware at hres
    cases hh : req.authorization with
    | none =>
      simp only [hh, Handled.respond.injEq] at hres
      exact hres.1.symm
    | some h =>
      simp only [hh] at hres
      split_ifs at hres
      · simp only [Handled.respond.injEq] at hres
        exact hres.1.symm
      · cases hb : ((splitOn 32 h)[1]?).bind verify with
        | none =>
          simp only [hb, Handled.respond.injEq] at hres
          exact hres.1.symm
        | some c => simp [hb] at hres

/-- C19 on examples: no header, a header of another scheme, a refused token
and the accepted token. -/
theorem authMiddleware_spec_witness :
    authMiddleware (exampleVerify .USER) ⟨none, none⟩ = .respond 401 "Unauthorized" ∧
    authMiddleware (exampleVerify .USER) ⟨some (utf16 "Basic ok"), none⟩ =
      .respond 401 "Unauthorized" ∧
    authMiddleware (exampleVerify .USER) ⟨some (utf16 "Bearer " ++ utf16 "bad" ++ []), none⟩ =
      .respond 401 "Invalid or expired token" ∧
    authMiddleware (exampleVerify .USER) ⟨some (utf16 "Bearer " ++ utf16 "ok" ++ []), none⟩ =
      .next ⟨some (utf16 "Bearer " ++ utf16 "ok" ++ []),
        some ⟨7, .USER, utf16 "Una", utf16 "u@x.y"⟩⟩ :=
  ⟨(authMiddleware_spec (exampleVerify .USER) ⟨none, none⟩).1 rfl,
    (authMiddleware_spec (exampleVerify .USER) ⟨some (utf16 "Basic ok"), none⟩).2.1
      (utf16 "Basic ok") rfl (by decide),
    ((authMiddleware_spec (exampleVerify .USER)
      ⟨some (utf16 "Bearer " ++ utf16 "bad" ++ []), none⟩).2.2.1
      (utf16 "bad") [] rfl (by decide) (Or.inl rfl)).1 (by decide),
    ((authMiddleware_spec (exampleVerify .USER)
      ⟨some (utf16 "Bearer " ++ utf16 "ok" ++ []), none⟩).2.2.1
      (utf16 "ok") [] rfl (by decide) (Or.inl rfl)).2
      ⟨7, .USER, utf16 "Una", utf16 "u@x.y"⟩ (by decide)⟩

theorem handleLogin_lookup (sign : Claims → JsString) (compare : JsString → JsString → Bool)
    (db : Db) (email password : JsString) (he : email ≠ []) (hp : password ≠ []) :
    handleLogin sign compare db ⟨some email, some password⟩ =
      match db.users.find? (fun u => u.email == email) with
      | none => ⟨401, .message "Invalid credentials"⟩
      | some user =>
        if !compare password user.passwordHash then ⟨401, .message "Invalid credentials"⟩
        else
          ⟨200, .session (generateToken sign user)
            { id := user.id, name := user.name, email := user.email,
              address := user.address, role := user.role }⟩ := by
  have hte : truthy (some email) = true := by
    cases email with
    | nil => exact absurd rfl he
    | cons c cs => rfl
  have htp : truthy (some password) = true := by
    cases password with
    | nil => exact absurd rfl hp
    | cons c cs => rfl
  unfold handleLogin
  simp only [hte, htp, Bool.not_true, Bool.or_self, Bool.false_eq_true, if_false,
    Option.getD_some]

/-- C20: for every login request with a non-empty e-mail and password, the
response when no account has the e-mail is the same 401 response, status and
message, as when the account exists and the password does not match its hash;
with matching credentials the response carries the token signed from that
account's id, role, name and e-mail, and its profile. -/
theorem handleLogin_spec (sign : Claims → JsString) (compare : JsString → JsString → Bool)
    (db : Db) (email password : JsString) (he : email ≠ []) (hp : password ≠ []) :
    ((∀ u ∈ db.users, u.email ≠ email) →
      handleLogin sign compare db ⟨some email, some password⟩ =
        ⟨401, .message "Invalid credentials"⟩) ∧
    (∀ u, db.users.find? (fun u => u.email == email) = some u →
      compare password u.passwordHash = false →
      handleLogin sign compare db ⟨some email, some password⟩ =
        ⟨401, .message "Invalid credentials"⟩) ∧
    (∀ (db2 : Db) (email2 password2 : JsString) (u : User),
      email2 ≠ [] → password2 ≠ [] →
      (∀ u ∈ db.users, u.email ≠ email) →
      db2.users.find? (fun u => u.email == email2) = some u →
      compare password2 u.passwordHash = false →
      handleLogin sign compare db ⟨some email, some password⟩ =
        handleLogin sign compare db2 ⟨some email2, some password2⟩) ∧
    (∀ u, db.users.find? (fun u => u.email == email) = some u →
      compare password u.passwordHash = true →
      u ∈ db.users ∧ u.email = email ∧
      handleLogin sign compare db ⟨some email, some password⟩ =
        ⟨200, .session (sign ⟨u.id, u.role, u.name, u.email⟩)
          ⟨u.id, u.name, u.email, u.address, u.role⟩⟩) := by
  have hunknown : (∀ u ∈ db.users, u.email ≠ email) →
      handleLogin sign compare db ⟨some email, some password⟩ =
        ⟨401, .message "Invalid credentials"⟩ := by
    intro hno
    have hf : db.users.find? (fun u => u.email == email) = none := by
      rw [List.find?_eq_none]
      intro u hu
      simpa using hno u hu
    rw [handleLogin_lookup sign compare db email password he hp, hf]
  have hwrong : ∀ (d : Db) (e p : JsString) (u : User), e ≠ [] → p ≠ [] →
      d.users.find? (fun u => u.email == e) = some u →
      compare p u.passwordHash = false →
      handleLogin sign compare d ⟨some e, some p⟩ = ⟨401, .message "Invalid credentials"⟩ := by
    intro d e p u hne hnp hf hc
    rw [handleLogin_lookup sign compare d e p hne hnp, hf]
    simp [hc]
  refine ⟨hunknown, fun u hf hc => hwrong db email password u he hp hf hc, ?_, ?_⟩
  · intro db2 email2 password2 u he2 hp2 hno hf hc
    rw [hunknown hno, hwrong db2 email2 password2 u he2 hp2 hf hc]
  · intro u hf hc
    refine ⟨List.mem_of_find?_eq_some hf, by simpa using List.find?_some hf, ?_⟩
    rw [handleLogin_lookup sign compare db email password he hp, hf]
    simp [hc, generateToken]

/-- C20 on a database with one account: an unknown e-mail and a wrong password
get the same response, and the right password gets the token of that account. -/
theorem handleLogin_spec_witness :
    handleLogin exampleSign exampleCompare loginDb ⟨some (utf16 "x@x.y"), some (utf16 "Secret1!")⟩ =
      handleLogin exampleSign exampleCompare loginDb ⟨some (utf16 "u@x.y"), some (utf16 "Wrong1!")⟩ ∧
    handleLogin exampleSign exampleCompare loginDb ⟨some (utf16 "u@x.y"), some (utf16 "Secret1!")⟩ =
      ⟨200, .session [7, 1] ⟨7, utf16 "Una", utf16 "u@x.y", utf16 "C", .USER⟩⟩ :=
  ⟨(handleLogin_spec exampleSign exampleCompare loginDb (utf16 "x@x.y") (utf16 "Secret1!")
      (by decide) (by decide)).2.2.1 loginDb (utf16 "u@x.y") (utf16 "Wrong1!")
      ⟨7, utf16 "Una", utf16 "u@x.y", utf16 "Secret1!", utf16 "C", .USER⟩
      (by decide) (by decide) (by decide) (by decide) (by decide),
    ((handleLogin_spec exampleSign exampleCompare loginDb (utf16 "u@x.y") (utf16 "Secret1!")
      (by decide) (by decide)).2.2.2
      ⟨7, utf16 "Una", utf16 "u@x.y", utf16 "Secret1!", utf16 "C", .USER⟩
      (by decide) (by decide)).2.2⟩

/-! ## Sorting -/

theorem toLowerUnit_head (c x : Nat) (rest xs : List Nat)
    (hx : x = 99 ∨ x = 100 ∨ x = 101 ∨ x = 115)
    (h : toLowerUnit c ++ rest = x :: xs) : (c = x ∨ c + 32 = x) ∧ rest = xs := by
  unfold toLowerUnit at h
  split_ifs at h with h1 h2 h3
  · simp only [List.singleton_append, List.cons.injEq] at h
    exact ⟨Or.inr h.1, h.2⟩
  · simp only [List.singleton_append, List.cons.injEq] at h
    omega
  · simp only [List.cons_append, List.nil_append, List.cons.injEq] at h
    omega
  · simp only [List.singleton_append, List.cons.injEq] at h
    exact ⟨Or.inl h.1, h.2⟩

theorem toLowerUnit_ne_nil (c : Nat) : toLowerUnit c ≠ [] := by
  unfold toLowerUnit
  split_ifs <;> simp

theorem toLowerCase_desc_iff (o : JsString) :
    toLowerCase o = utf16 "desc" ↔
      ∃ a b c d, o = [a, b, c, d] ∧ (a = 100 ∨ a = 68) ∧ (b = 101 ∨ b = 69) ∧
        (c = 115 ∨ c = 83) ∧ (d = 99 ∨ d = 67) := by
  have hd : utf16 "desc" = [100, 101, 115, 99] := by decide
  rw [hd]
  constructor
  · intro h
    unfold toLowerCase at h
    match o, h with
    | [], h => simp at h
    | [a], h =>
      simp only [List.flatMap_cons, List.flatMap_nil, List.append_nil] at h
      have := toLowerUnit_head a 100 [] _ (by omega) (by simpa using h)
      simp at this
    | [a, b], h =>
      simp only [List.flatMap_cons, List.flatMap_nil, List.append_nil] at h
      obtain ⟨_, h⟩ := toLowerUnit_head a 100 _ _ (by omega) h
      have := toLowerUnit_head b 101 [] _ (by omega) (by simpa using h)
      simp at this
    | [a, b, c], h =>
      simp only [List.flatMap_cons, List.flatMap_nil, List.append_nil] at h
      obtain ⟨_, h⟩ := toLowerUnit_head a 100 _ _ (by omega) h
      obtain ⟨_, h⟩ := toLowerUnit_head b 101 _ _ (by omega) h
      have := toLowerUnit_head c 115 [] _ (by omega) (by simpa using h)
      simp at this
    | [a, b, c, d], h =>
      simp only [List.flatMap_cons, List.flatMap_nil, List.append_nil] at h
      obtain ⟨ha, h⟩ := toLowerUnit_head a 100 _ _ (by omega) h
      obtain ⟨hb, h⟩ := toLowerUnit_head b 101 _ _ (by omega) h
      obtain ⟨hc, h⟩ := toLowerUnit_head c 115 _ _ (by omega) h
      obtain ⟨hd2, _⟩ := toLowerUnit_head d 99 [] [] (by omega) (by simpa using h)
      exact ⟨a, b, c, d, rfl, by omega, by omega, by omega, by omega⟩
    | a :: b :: c :: d :: e :: rest, h =>
      simp only [List.flatMap_cons] at h
      obtain ⟨_, h⟩ := toLowerUnit_head a 100 _ _ (by omega) h
      obtain ⟨_, h⟩ := toLowerUnit_head b 101 _ _ (by omega) h
      obtain ⟨_, h⟩ := toLowerUnit_head c 115 _ _ (by omega) h
      obtain ⟨_, h⟩ := toLowerUnit_head d 99 _ _ (by omega) h
      have hnil := (List.append_eq_nil.mp h).1
      exact absurd hnil (toLowerUnit_ne_nil e)
  · rintro ⟨a, b, c, d, rfl, ha, hb, hc, hd2⟩
    rcases ha with rfl | rfl <;> rcases hb with rfl | rfl <;> rcases hc with rfl | rfl <;>
      rcases hd2 with rfl | rfl <;> decide

/-- C24: for every `sortBy`, `sortOrder` and allow-list, `buildOrder` returns the
empty ordering when `sortBy` is absent (or empty) or not in the allow-list, and
otherwise the single ordering `[sortBy, direction]`, with direction `DESC` when
`sortOrder` is `desc` in any letter case and `ASC` in every other case;
`sortBy=name&sortOrder=desc` orders by name descending. -/
theorem buildOrder_spec (sortBy sortOrder : Option JsString) (allowed : List JsString) :
    ((sortBy = none ∨ sortBy = some [] ∨ ∀ f, sortBy = some f → f ∉ allowed) →
      buildOrder sortBy sortOrder allowed = []) ∧
    (∀ f, sortBy = some f → f ≠ [] → f ∈ allowed →
      ((∃ a b c d, sortOrder = some [a, b, c, d] ∧ (a = 100 ∨ a = 68) ∧ (b = 101 ∨ b = 69) ∧
          (c = 115 ∨ c = 83) ∧ (d = 99 ∨ d = 67)) →
        buildOrder sortBy sortOrder allowed = [(f, "DESC")]) ∧
      ((¬ ∃ a b c d, sortOrder = some [a, b, c, d] ∧ (a = 100 ∨ a = 68) ∧ (b = 101 ∨ b = 69) ∧
          (c = 115 ∨ c = 83) ∧ (d = 99 ∨ d = 67)) →
        buildOrder sortBy sortOrder allowed = [(f, "ASC")])) ∧
    storesOrder (some (utf16 "name")) (some (utf16 "desc")) = [(utf16 "name", "DESC")] ∧
    storesOrder (some (utf16 "price")) (some (utf16 "desc")) = [] := by
  refine ⟨?_, ?_, by decide, by decide⟩
  · rintro (h | h | h)
    · simp [buildOrder, h, truthy]
    · simp [buildOrder, h, truthy]
    · cases hs : sortBy with
      | none => simp [buildOrder, truthy]
      | some f =>
        have hf : f ∉ allowed := h f hs
        simp [buildOrder, hf]
  · intro f hs hne hmem
    have ht : truthy (some f) = true := by
      cases f with
      | nil => exact absurd rfl hne
      | cons c cs => rfl
    have hdesc : (truthy sortOrder && toLowerCase (sortOrder.getD []) == utf16 "desc") = true ↔
        ∃ a b c d, sortOrder = some [a, b, c, d] ∧ (a = 100 ∨ a = 68) ∧ (b = 101 ∨ b = 69) ∧
          (c = 115 ∨ c = 83) ∧ (d = 99 ∨ d = 67) := by
      cases sortOrder with
      | none => simp [truthy]
      | some o =>
        simp only [Option.getD_some, Bool.and_eq_true, beq_iff_eq, toLowerCase_desc_iff,
          Option.some.injEq]
        constructor
        · rintro ⟨_, a, b, c, d, ho, h⟩
          exact ⟨a, b, c, d, ho, h⟩
        · rintro ⟨a, b, c, d, ho, h⟩
          refine ⟨?_, a, b, c, d, ho, h⟩
          rw [ho]
          rfl
    constructor
    · intro hd
      have := hdesc.mpr hd
      simp [buildOrder, hs, ht, hmem, this]
    · intro hd
      have : (truthy sortOrder && toLowerCase (sortOrder.getD []) == utf16 "desc") = false := by
        rw [Bool.eq_false_iff]
        exact fun h => hd (hdesc.mp h)
      simp [buildOrder, hs, ht, hmem, this]

/-- C24 on examples: `DeSc` is descending, `down` and a missing direction are
ascending, and a field outside the list gives no ordering. -/
theorem buildOrder_spec_witness :
    buildOrder (some (utf16 "name")) (some (utf16 "DeSc")) [utf16 "name"] =
      [(utf16 "name", "DESC")] ∧
    buildOrder (some (utf16 "name")) (some (utf16 "down")) [utf16 "name"] =
      [(utf16 "name", "ASC")] ∧
    buildOrder (some (utf16 "email")) none [utf16 "name"] = [] :=
  ⟨((buildOrder_spec (some (utf16 "name")) (some (utf16 "DeSc")) [utf16 "name"]).2.1
      (utf16 "name") rfl (by decide) (by decide)).1
      ⟨68, 101, 83, 99, by decide, by decide, by decide, by decide, by decide⟩,
    ((buildOrder_spec (some (utf16 "name")) (some (utf16 "down")) [utf16 "name"]).2.1
      (utf16 "name") rfl (by decide) (by decide)).2
      (by
        rintro ⟨a, b, c, d, ho, ha, _⟩
        have h0 : utf16 "down" = [100, 111, 119, 110] := by decide
        rw [h0] at ho
        simp only [Option.some.injEq, List.cons.injEq] at ho
        omega),
    (buildOrder_spec (some (utf16 "email")) none [utf16 "name"]).1
      (Or.inr (Or.inr (fun f hf => by
        have : f = utf16 "email" := (Option.some.inj hf).symm
        rw [this]
        decide)))⟩

theorem buildOrder_ne_nil_iff (f : JsString) (sortOrder : Option JsString)
    (allowed : List JsString) (hne : ∀ g ∈ allowed, g ≠ []) :
    (f ∈ allowed → ∃ dir, buildOrder (some f) sortOrder allowed = [(f, dir)]) ∧
    (f ∉ allowed → buildOrder (some f) sortOrder allowed = []) := by
  constructor
  · intro hmem
    have ht : truthy (some f) = true := by
      cases f with
      | nil => exact absurd rfl (hne [] hmem)
      | cons c cs => rfl
    by_cases hd : (truthy sortOrder && toLowerCase (sortOrder.getD []) == utf16 "desc") = true
    · exact ⟨"DESC", by simp [buildOrder, ht, hmem, hd]⟩
    · exact ⟨"ASC", by simp [buildOrder, ht, hmem, hd]⟩
  · intro hmem
    simp [buildOrder, hmem]

/-- C25, as stated, fails on `GET /api/stores`: `sortBy=email` yields no
ordering there, while it orders by e-mail on `GET /api/admin/stores`. -/
theorem storesOrder_email_unsorted :
    storesOrder (some (utf16 "email")) (some (utf16 "asc")) = [] ∧
    adminStoresOrder (some (utf16 "email")) (some (utf16 "asc")) = [(utf16 "email", "ASC")] := by
  constructor <;> decide

/-- C25, amended: the sort allow-list is name, email, address and createdAt on
`GET /api/admin/stores`, and name, address and createdAt on `GET /api/stores`,
where `sortBy=email` yields no ordering; it is name, email, address, role and
createdAt for users; on each endpoint a `sortBy` yields an ordering, by that
field, exactly when it is in the endpoint's list. -/
theorem sort_allow_lists (f : JsString) (sortOrder : Option JsString) :
    ((f = utf16 "name" ∨ f = utf16 "email" ∨ f = utf16 "address" ∨ f = utf16 "createdAt") →
      ∃ dir, adminStoresOrder (some f) sortOrder = [(f, dir)]) ∧
    (¬ (f = utf16 "name" ∨ f = utf16 "email" ∨ f = utf16 "address" ∨ f = utf16 "createdAt") →
      adminStoresOrder (some f) sortOrder = []) ∧
    ((f = utf16 "name" ∨ f = utf16 "address" ∨ f = utf16 "createdAt") →
      ∃ dir, storesOrder (some f) sortOrder = [(f, dir)]) ∧
    (¬ (f = utf16 "name" ∨ f = utf16 "address" ∨ f = utf16 "createdAt") →
      storesOrder (some f) sortOrder = []) ∧
    storesOrder (some (utf16 "email")) sortOrder = [] ∧
    ((f = utf16 "name" ∨ f = utf16 "email" ∨ f = utf16 "address" ∨ f = utf16 "role" ∨
        f = utf16 "createdAt") →
      ∃ dir, adminUsersOrder (some f) sortOrder = [(f, dir)]) ∧
    (¬ (f = utf16 "name" ∨ f = utf16 "email" ∨ f = utf16 "address" ∨ f = utf16 "role" ∨
        f = utf16 "createdAt") →
      adminUsersOrder (some f) sortOrder = []) := by
  have h4 := buildOrder_ne_nil_iff f sortOrder
    [utf16 "name", utf16 "email", utf16 "address", utf16 "createdAt"] (by decide)
  have h3 := buildOrder_ne_nil_iff f sortOrder
    [utf16 "name", utf16 "address", utf16 "createdAt"] (by decide)
  have h5 := buildOrder_ne_nil_iff f sortOrder
    [utf16 "name", utf16 "email", utf16 "address", utf16 "role", utf16 "createdAt"] (by decide)
  have he := (buildOrder_ne_nil_iff (utf16 "email") sortOrder
    [utf16 "name", utf16 "address", utf16 "createdAt"] (by decide)).2 (by decide)
  simp only [List.mem_cons, List.mem_singleton, List.not_mem_nil, or_false] at h4 h3 h5
  exact ⟨h4.1, h4.2, h3.1, h3.2, he, h5.1, h5.2⟩

/-- C25, amended, at `sortBy=address` on `GET /api/stores`. -/
theorem sort_allow_lists_witness :
    ∃ dir, storesOrder (some (utf16 "address")) none = [(utf16 "address", dir)] :=
  (sort_allow_lists (utf16 "address") none).2.2.1 (Or.inr (Or.inl rfl))

/-! ## The validators always return `null` or a non-empty message -/

theorem msgTruthy_validateName (v : Option JsString) :
    msgTruthy (validateName v) = (validateName v).isSome := by
  unfold validateName
  split_ifs <;> rfl

theorem msgTruthy_validateAddress (v : Option JsString) :
    msgTruthy (validateAddress v) = (validateAddress v).isSome := by
  unfold validateAddress
  split_ifs <;> rfl

theorem msgTruthy_validateEmail (v : Option JsString) :
    msgTruthy (validateEmail v) = (validateEmail v).isSome := by
  unfold validateEmail
  split_ifs <;> rfl

theorem msgTruthy_validatePassword (v : Option JsString) :
    msgTruthy (validatePassword v) = (validatePassword v).isSome := by
  unfold validatePassword
  split_ifs <;> rfl

theorem signupErrors_none_iff (name email address password : Option JsString) :
    collectValidationErrors
        [("name", fun _ => validateName name),
         ("email", fun _ => validateEmail email),
         ("address", fun _ => validateAddress address),
         ("password", fun _ => validatePassword password)] = none ↔
      validateName name = none ∧ validateEmail email = none ∧
        validateAddress address = none ∧ validatePassword password = none := by
  rw [collect_eq _ (by simp [JsObject.keys])]
  simp only [failingEntries, List.filterMap_cons, List.filterMap_nil,
    msgTruthy_validateName, msgTruthy_validateEmail, msgTruthy_validateAddress,
    msgTruthy_validatePassword]
  cases validateName name <;> cases validateEmail email <;>
    cases validateAddress address <;> cases validatePassword password <;> simp

/-! ## Client-side validation -/

theorem validateName_isSome (n : JsString) :
    (validateName (some n)).isSome =
      (n.isEmpty || decide (n.length < NAME_MIN) || decide (n.length > NAME_MAX)) := by
  unfold validateName
  cases n with
  | nil => rfl
  | cons c cs =>
    simp only [truthy, strLength, List.isEmpty_cons, Bool.not_false, Bool.not_true,
      Bool.false_eq_true, if_false, Bool.false_or]
    split_ifs with h1 h2 <;> simp only [List.length_cons] at * <;> simp <;> omega

theorem validateAddress_isSome (a : JsString) :
    (validateAddress (some a)).isSome = (a.isEmpty || decide (a.length > ADDRESS_MAX)) := by
  unfold validateAddress
  cases a with
  | nil => rfl
  | cons c cs =>
    simp only [truthy, strLength, List.isEmpty_cons, Bool.not_false, Bool.not_true,
      Bool.false_eq_true, if_false, Bool.false_or]
    split_ifs with h1 <;> simp only [List.length_cons] at * <;> simp <;> omega

theorem validateEmail_isSome (e : JsString) :
    (validateEmail (some e)).isSome = (e.isEmpty || !emailRegex.testAnchored e) := by
  unfold validateEmail
  cases e with
  | nil => rfl
  | cons c cs =>
    simp only [truthy, Option.getD_some, List.isEmpty_cons, Bool.not_false, Bool.not_true,
      Bool.false_eq_true, if_false, Bool.false_or]
    split_ifs with h1 <;> simp [h1]

theorem validatePassword_isSome (p : JsString) :
    (validatePassword (some p)).isSome =
      (p.isEmpty || (decide (p.length < 8) || decide (p.length > 16)) ||
        !(Regex.cls isUpperAZ).testSearch p || !(Regex.cls notAlnum).testSearch p) := by
  unfold validatePassword
  cases p with
  | nil => rfl
  | cons c cs =>
    simp only [truthy, strLength, Option.getD_some, List.isEmpty_cons, Bool.not_false,
      Bool.not_true, Bool.false_eq_true, if_false, Bool.false_or]
    split_ifs with h1 h2 h3 <;> simp_all

theorem validate_keys (form : SignupForm) :
    (SignupPage.validate form).keys =
      (if (validateName (some form.name)).isSome then ["name"] else []) ++
      (if (validateAddress (some form.address)).isSome then ["address"] else []) ++
      (if (validateEmail (some form.email)).isSome then ["email"] else []) ++
      (if (validatePassword (some form.password)).isSome then ["password"] else []) := by
  rw [validateName_isSome, validateAddress_isSome, validateEmail_isSome,
    validatePassword_isSome]
  unfold SignupPage.validate
  by_cases hn : (form.name.isEmpty || decide (form.name.length < NAME_MIN) ||
      decide (form.name.length > NAME_MAX)) = true <;>
  by_cases ha : (form.address.isEmpty || decide (form.address.length > ADDRESS_MAX)) = true <;>
  by_cases he : (form.email.isEmpty || !emailRegex.testAnchored form.email) = true <;>
  by_cases h1 : form.password.isEmpty = true <;>
  by_cases h2 : (decide (form.password.length < 8) ||
      decide (form.password.length > 16)) = true <;>
  by_cases h3 : (!(Regex.cls isUpperAZ).testSearch form.password) = true <;>
  by_cases h4 : (!(Regex.cls notAlnum).testSearch form.password) = true <;>
  simp [hn, ha, he, h1, h2, h3, h4, JsObject.set, JsObject.keys]

/-- C29: for every sign-up form of four strings, `validate()` of `SignupPage`
reports a field exactly when the server-side validator of that field returns an
error, so `validate()` is empty exactly when `collectValidationErrors` in
`handleSignup` returns `null`, that is when `handleSignup` does not answer with
per-field errors. -/
theorem validate_agrees_with_server (form : SignupForm) :
    ("name" ∈ (SignupPage.validate form).keys ↔ validateName (some form.name) ≠ none) ∧
    ("email" ∈ (SignupPage.validate form).keys ↔ validateEmail (some form.email) ≠ none) ∧
    ("address" ∈ (SignupPage.validate form).keys ↔
      validateAddress (some form.address) ≠ none) ∧
    ("password" ∈ (SignupPage.validate form).keys ↔
      validatePassword (some form.password) ≠ none) ∧
    (SignupPage.validate form = [] ↔
      collectValidationErrors
        [("name", fun _ => validateName (some form.name)),
         ("email", fun _ => validateEmail (some form.email)),
         ("address", fun _ => validateAddress (some form.address)),
         ("password", fun _ => validatePassword (some form.password))] = none) ∧
    (∀ (sign : Claims → JsString) (hash : JsString → JsString) (db : Db)
        (role : Option JsString),
      SignupPage.validate form = [] ↔
        ¬ ∃ e, (handleSignup sign hash db
          ⟨some form.name, some form.email, some form.address, some form.password,
            role⟩).1 = ⟨400, .errors e⟩) := by
  have hk := validate_keys form
  have hnil : SignupPage.validate form = [] ↔ (SignupPage.validate form).keys = [] := by
    unfold JsObject.keys
    exact List.map_eq_nil_iff.symm
  have hcollect : SignupPage.validate form = [] ↔
      collectValidationErrors
        [("name", fun _ => validateName (some form.name)),
         ("email", fun _ => validateEmail (some form.email)),
         ("address", fun _ => validateAddress (some form.address)),
         ("password", fun _ => validatePassword (some form.password))] = none := by
    rw [signupErrors_none_iff, hnil, hk]
    cases validateName (some form.name) <;> cases validateEmail (some form.email) <;>
      cases validateAddress (some form.address) <;>
      cases validatePassword (some form.password) <;> simp
  refine ⟨?_, ?_, ?_, ?_, hcollect, ?_⟩
  · rw [hk]
    cases validateName (some form.name) <;> cases validateEmail (some form.email) <;>
      cases validateAddress (some form.address) <;>
      cases validatePassword (some form.password) <;> simp
  · rw [hk]
    cases validateName (some form.name) <;> cases validateEmail (some form.email) <;>
      cases validateAddress (some form.address) <;>
      cases validatePassword (some form.password) <;> simp
  · rw [hk]
    cases validateName (some form.name) <;> cases validateEmail (some form.email) <;>
      cases validateAddress (some form.address) <;>
      cases validatePassword (some form.password) <;> simp
  · rw [hk]
    cases validateName (some form.name) <;> cases validateEmail (some form.email) <;>
      cases validateAddress (some form.address) <;>
      cases validatePassword (some form.password) <;> simp
  · intro sign hash db role
    rw [hcollect]
    unfold handleSignup
    simp only []
    cases hc : collectValidationErrors
        [("name", fun _ => validateName (some form.name)),
         ("email", fun _ => validateEmail (some form.email)),
         ("address", fun _ => validateAddress (some form.address)),
         ("password", fun _ => validatePassword (some form.password))] with
    | some errs => simp
    | none =>
      simp only [true_iff]
      rintro ⟨e, he⟩
      have hst := congrArg AuthResponse.body he
      revert hst
      cases db.users.find? (fun u => u.email == (some form.email).getD []) with
      | some u => simp
      | none =>
        cases db.createUser ((some form.name).getD []) ((some form.email).getD [])
            (hash ((some form.password).getD [])) ((some form.address).getD []) .USER with
        | none => simp
        | some created => simp

/-! ## Averages of valid ratings -/

theorem sum_bounds (vals : List Int) (h : ∀ v ∈ vals, 1 ≤ v ∧ v ≤ 5) :
    (vals.length : Int) ≤ vals.sum ∧ vals.sum ≤ 5 * (vals.length : Int) := by
  induction vals with
  | nil => simp
  | cons v vs ih =>
    have hv := h v (List.mem_cons_self _ _)
    have hvs := ih (fun w hw => h w (List.mem_cons_of_mem _ hw))
    simp only [List.sum_cons, List.length_cons, Nat.cast_add, Nat.cast_one]
    omega

theorem specAverage_bounds (vals : List Int) (h : ∀ v ∈ vals, 1 ≤ v ∧ v ≤ 5)
    (hne : vals ≠ []) :
    ∃ a, specAverage vals = some a ∧ 1 ≤ a ∧ a ≤ 5 := by
  have hlen : vals.length ≠ 0 := fun h0 => hne (List.length_eq_zero.mp h0)
  have hpos : (0 : ℚ) < (vals.length : ℚ) := by
    exact_mod_cast Nat.pos_of_ne_zero hlen
  obtain ⟨hlo, hhi⟩ := sum_bounds vals h
  refine ⟨(vals.sum : ℚ) / (vals.length : ℚ), by simp [specAverage, hlen], ?_, ?_⟩
  · rw [le_div_iff₀ hpos, one_mul]
    exact_mod_cast hlo
  · rw [div_le_iff₀ hpos]
    exact_mod_cast hhi

theorem roundedAverage_bounds (vals : List Int) (h : ∀ v ∈ vals, 1 ≤ v ∧ v ≤ 5)
    (hne : vals ≠ []) :
    ∃ a, (specAverage vals).map roundDouble = some a ∧ 1 ≤ a ∧ a ≤ 5 := by
  obtain ⟨q, hq, h1, h5⟩ := specAverage_bounds vals h hne
  have hpos : (0 : ℚ) < q := by linarith
  have hlt : q < 2 ^ 53 := by
    have : (5 : ℚ) < 2 ^ 53 := by norm_num
    linarith
  refine ⟨roundDouble q, by rw [hq, Option.map_some'], ?_, ?_⟩
  · have := (roundDouble_between q hpos hlt 1).1 (by exact_mod_cast h1)
    exact_mod_cast this
  · have := (roundDouble_between q hpos hlt 5).2 (by exact_mod_cast h5)
    exact_mod_cast this

theorem specAverage_none_iff (vals : List Int) : specAverage vals = none ↔ vals = [] := by
  unfold specAverage
  split_ifs with h
  · simp [List.length_eq_zero.mp h]
  · simp only [false_iff]
    exact fun h0 => h (by rw [h0]; rfl)

/-- C27: for every store whose rating rows hold integers in `[1,5]`: when the
store has ratings the computed average lies in `[1,5]` and is not `0`, so the
average is `null`, and falsy, exactly when the store has no ratings; and the
viewer's `userRating` is `null` exactly when the viewer has no rating row of
the store. -/
theorem falsy_zero_unreachable (store : LoadedStore) (viewer : Nat)
    (hvalid : ∀ r ∈ store.Ratings, 1 ≤ r.row.rating ∧ r.row.rating ≤ 5) :
    (store.Ratings ≠ [] →
      ∃ a, (userStoreRow viewer store).overallRating = some a ∧ 1 ≤ a ∧ a ≤ 5 ∧ a ≠ 0) ∧
    ((userStoreRow viewer store).overallRating = none ↔ store.Ratings = []) ∧
    (averageTruthy (userStoreRow viewer store).overallRating = false ↔ store.Ratings = []) ∧
    (averageTruthy (adminStoreRow store).rating = false ↔ store.Ratings = []) ∧
    (averageTruthy (ownerStoreRow store).averageRating = false ↔ store.Ratings = []) ∧
    ((userStoreRow viewer store).userRating = none ↔
      ∀ r ∈ store.Ratings, r.row.UserId ≠ viewer) := by
  have hvals : ∀ v ∈ store.Ratings.map (fun r => r.row.rating), 1 ≤ v ∧ v ≤ 5 := by
    intro v hv
    obtain ⟨r, hr, hrv⟩ := List.mem_map.mp hv
    rw [← hrv]
    exact hvalid r hr
  have havg : ∀ rs : List LoadedRating, rs = store.Ratings →
      (averageTruthy (averageOf rs) = false ↔ rs = []) := by
    intro rs hrs
    subst hrs
    rw [averageOf_eq]
    by_cases hne : store.Ratings = []
    · simp [hne, specAverage, averageTruthy]
    · have hne2 : store.Ratings.map (fun r => r.row.rating) ≠ [] := by
        simpa using hne
      obtain ⟨a, ha, h1, _⟩ := roundedAverage_bounds _ hvals hne2
      rw [ha]
      have ha0 : a ≠ 0 := by
        intro h0
        rw [h0] at h1
        norm_num at h1
      simp [averageTruthy, ha0, hne]
  refine ⟨?_, ?_, havg _ rfl, havg _ rfl, havg _ rfl, ?_⟩
  · intro hne
    have hne2 : store.Ratings.map (fun r => r.row.rating) ≠ [] := by
      simpa using hne
    obtain ⟨a, ha, h1, h5⟩ := roundedAverage_bounds _ hvals hne2
    refine ⟨a, ?_, h1, h5, ?_⟩
    · simp only [userStoreRow, averageOf_eq]
      exact ha
    · intro h0
      rw [h0] at h1
      norm_num at h1
  · simp only [userStoreRow, averageOf_eq, Option.map_eq_none', specAverage_none_iff]
    simp
  · simp only [userStoreRow, userRatingOf]
    cases hf : store.Ratings.find? (fun r => r.row.UserId == viewer) with
    | none =>
      simp only [true_iff]
      intro r hr
      have := List.find?_eq_none.mp hf r hr
      simpa using this
    | some r =>
      have hmem : r ∈ store.Ratings := List.mem_of_find?_eq_some hf
      have hu : r.row.UserId = viewer := by simpa using List.find?_some hf
      have hne : r.row.rating ≠ 0 := by
        have := hvalid r hmem
        omega
      simp only [bne_iff_ne, ne_eq, hne, not_false_eq_true, if_true]
      constructor
      · intro h
        exact absurd h (by simp)
      · intro hall
        exact absurd hu (hall r hmem)

/-- C27 on the example store, rated `[5, 3]`, for viewer 3. -/
theorem falsy_zero_unreachable_witness :
    (∀ r ∈ exampleStore.Ratings, 1 ≤ r.row.rating ∧ r.row.rating ≤ 5) ∧
    exampleStore.Ratings ≠ [] ∧
    ∃ a, (userStoreRow 3 exampleStore).overallRating = some a ∧ 1 ≤ a ∧ a ≤ 5 ∧ a ≠ 0 :=
  ⟨by decide, by decide,
    (falsy_zero_unreachable exampleStore 3 (by decide)).1 (by decide)⟩

/-! ## The owner average as a weighted mean -/

theorem weighted_row (rs : List LoadedRating) :
    (rs.length : ℚ) * (specAverage (rs.map (fun r => r.row.rating))).getD 0 =
      (((rs.map (fun r => r.row.rating)).sum : Int) : ℚ) := by
  unfold specAverage
  by_cases h : rs = []
  · subst h
    simp
  · have hlen : rs.length ≠ 0 := fun h0 => h (List.length_eq_zero.mp h0)
    have hq : (rs.length : ℚ) ≠ 0 := by exact_mod_cast hlen
    simp only [List.length_map, hlen, if_false, Option.getD_some]
    field_simp

theorem ownerStoreRow_values (s : LoadedStore) :
    (ownerStoreRow s).ratings.map (fun r => r.rating) = s.Ratings.map (fun r => r.row.rating) := by
  simp [ownerStoreRow, List.map_map, Function.comp_def]

theorem weighted_sums (stores : List LoadedStore) :
    ((stores.map ownerStoreRow).map
        (fun row => (row.ratingCount : ℚ) *
          (specAverage (row.ratings.map (fun r => r.rating))).getD 0)).sum =
      (((stores.flatMap (fun s => s.Ratings.map (fun r => r.row.rating))).sum : Int) : ℚ) ∧
    ((stores.map ownerStoreRow).map (fun row => row.ratingCount)).sum =
      (stores.flatMap (fun s => s.Ratings.map (fun r => r.row.rating))).length := by
  induction stores with
  | nil => simp
  | cons s rest ih =>
    obtain ⟨ih1, ih2⟩ := ih
    constructor
    · simp only [List.map_cons, List.sum_cons, List.flatMap_cons, List.sum_append, ih1,
        Int.cast_add, ownerStoreRow_values]
      have := weighted_row s.Ratings
      simp only [ownerStoreRow]
      rw [this]
    · simp only [List.map_cons, List.sum_cons, List.flatMap_cons, List.length_append, ih2,
        List.length_map]
      simp [ownerStoreRow]

theorem ownerDashboard_rows (db : Db) (ownerId : Nat) :
    (ownerDashboard db ownerId).map (fun row => (row.averageRating, row.ratingCount)) =
      ((db.findAllStores (fun s => s.ownerId == some ownerId) true).map
        (fun s => s.Ratings.map (fun r => r.row.rating))).map
        (fun vals => ((specAverage vals).map roundDouble, vals.length)) := by
  unfold ownerDashboard ownerDashboardPayload
  simp only [List.map_map]
  apply List.map_congr_left
  intro s _
  simp only [Function.comp, ownerStoreRow, averageOf_eq, List.length_map]

theorem ownerDashboard_row (db : Db) (ownerId : Nat) (row : OwnerStoreRow)
    (h : row ∈ ownerDashboard db ownerId) :
    row.averageRating = (specAverage (row.ratings.map (fun r => r.rating))).map roundDouble ∧
    row.ratingCount = row.ratings.length := by
  unfold ownerDashboard ownerDashboardPayload at h
  obtain ⟨s, _, hs⟩ := List.mem_map.mp h
  rw [← hs, ownerStoreRow_values]
  simp only [ownerStoreRow, averageOf_eq, List.length_map]
  exact ⟨trivial, trivial⟩

theorem ownedValues_ne_nil (db : Db) (ownerId : Nat)
    (hrated : ∃ s ∈ db.stores, s.ownerId = some ownerId ∧
      ∃ r ∈ db.ratings, r.StoreId = s.id) :
    ((db.stores.filter (fun s => s.ownerId == some ownerId)).flatMap
      (fun s => (db.ratings.filter (fun r => r.StoreId == s.id)).map
        (fun r => r.rating))).length ≠ 0 := by
  obtain ⟨s, hs, ho, r, hr, hrs⟩ := hrated
  intro h0
  have hnil := List.length_eq_zero.mp h0
  have hmem : r.rating ∈ (db.stores.filter (fun s => s.ownerId == some ownerId)).flatMap
      (fun s => (db.ratings.filter (fun r => r.StoreId == s.id)).map (fun r => r.rating)) := by
    rw [List.mem_flatMap]
    refine ⟨s, ?_, ?_⟩
    · rw [List.mem_filter]
      exact ⟨hs, by simpa using ho⟩
    · rw [List.mem_map]
      refine ⟨r, ?_, rfl⟩
      rw [List.mem_filter]
      exact ⟨hr, by simpa using hrs⟩
  rw [hnil] at hmem
  exact absurd hmem (List.not_mem_nil _)

theorem ownerAverage_exact_weighted (db : Db) (ownerId : Nat)
    (hrated : ∃ s ∈ db.stores, s.ownerId = some ownerId ∧
      ∃ r ∈ db.ratings, r.StoreId = s.id) :
    getStoreOwnerAverageRating db ownerId =
      some (roundDouble
        (((ownerDashboard db ownerId).map
            (fun row => (row.ratingCount : ℚ) *
              (specAverage (row.ratings.map (fun r => r.rating))).getD 0)).sum /
          ((((ownerDashboard db ownerId).map (fun row => row.ratingCount)).sum : Nat) : ℚ))) := by
  obtain ⟨h1, h2⟩ := weighted_sums (db.findAllStores (fun s => s.ownerId == some ownerId) true)
  rw [ownerAverage_eq]
  unfold ownerDashboard ownerDashboardPayload
  rw [h1, h2, findAllStores_values]
  unfold specAverage
  rw [if_neg (ownedValues_ne_nil db ownerId hrated), Option.map_some']

theorem roundDouble_seventh :
    roundDouble (29 / 7) = 4664442471205157 / 1125899906842624 := by
  have h := roundDouble_eval (29 / 7) 2 4664442471205157 (by norm_num) (by norm_num)
    (by norm_num) (by rw [abs_lt]; constructor <;> norm_num)
  rw [h]
  norm_num

theorem roundDouble_fifteen_quarters : roundDouble (15 / 4) = 15 / 4 := by
  have h := roundDouble_eval (15 / 4) 1 8444249301319680 (by norm_num) (by norm_num)
    (by norm_num) (by rw [abs_lt]; constructor <;> norm_num)
  rw [h]
  norm_num

theorem roundDouble_weighted_seventh :
    roundDouble (((1 : ℚ) * 1 + 7 * (4664442471205157 / 1125899906842624)) / (1 + 7)) =
      8444249301319681 / 2251799813685248 := by
  have h := roundDouble_eval
    (((1 : ℚ) * 1 + 7 * (4664442471205157 / 1125899906842624)) / (1 + 7)) 1 8444249301319681
    (by norm_num) (by norm_num) (by norm_num) (by rw [abs_lt]; constructor <;> norm_num)
  rw [h]
  norm_num

/-- C28, as stated, fails for an owner whose stores are rated `[1]` and
`[5, 5, 5, 5, 5, 3, 1]`: the owner average is `30 / 8 = 3.75`, the dashboard
reports the averages `1` and the double nearest to `29/7`, and the
count-weighted mean of those two is another number, also once rounded to a
double (`3.7500000000000004`). -/
theorem ownerAverage_not_weighted :
    (∃ s ∈ seventhsDb.stores, s.ownerId = some 1 ∧
      ∃ r ∈ seventhsDb.ratings, r.StoreId = s.id) ∧
    getStoreOwnerAverageRating seventhsDb 1 = some (15 / 4) ∧
    (ownerDashboard seventhsDb 1).map (fun row => (row.averageRating, row.ratingCount)) =
      [(some 1, 1), (some (4664442471205157 / 1125899906842624), 7)] ∧
    ((1 : ℚ) * 1 + 7 * (4664442471205157 / 1125899906842624)) / (1 + 7) ≠ 15 / 4 ∧
    roundDouble (((1 : ℚ) * 1 + 7 * (4664442471205157 / 1125899906842624)) / (1 + 7)) ≠
      15 / 4 := by
  refine ⟨by decide, ?_, ?_, by norm_num, ?_⟩
  · rw [ownerAverage_eq]
    have hv : (seventhsDb.stores.filter (fun s => s.ownerId == some 1)).flatMap
        (fun s => (seventhsDb.ratings.filter (fun r => r.StoreId == s.id)).map
          (fun r => r.rating)) = [1, 5, 5, 5, 5, 5, 3, 1] := by decide
    have hs : specAverage [1, 5, 5, 5, 5, 5, 3, 1] = some (15 / 4) := by
      norm_num [specAverage]
    rw [hv, hs, Option.map_some', roundDouble_fifteen_quarters]
  · have hvals : (seventhsDb.findAllStores (fun s => s.ownerId == some 1) true).map
        (fun s => s.Ratings.map (fun r => r.row.rating)) = [[1], [5, 5, 5, 5, 5, 3, 1]] := by
      decide
    have h1 : (specAverage [1]).map roundDouble = some 1 := by
      rw [average_single 1 (by norm_num) (by norm_num)]
      norm_num
    have hs : specAverage [5, 5, 5, 5, 5, 3, 1] = some (29 / 7) := by
      norm_num [specAverage]
    rw [ownerDashboard_rows, hvals]
    simp only [List.map_cons, List.map_nil, h1, hs, Option.map_some', roundDouble_seventh,
      List.length_cons, List.length_nil]
  · rw [roundDouble_weighted_seventh]
    norm_num

/-- C28, amended: for every owner whose stores carry at least one rating,
`getStoreOwnerAverageRating` is the double nearest to the count-weighted mean
of the exact per-store means, `(Σ ratingCount_i * (sum_i / count_i)) / Σ
ratingCount_i`, a store without ratings contributing nothing; each average of
the owner dashboard is the double nearest to its store's mean, and when no
store's average is changed by that rounding the owner average is the double
nearest to the count-weighted mean of the dashboard averages; for stores rated
`[5, 3]` and `[1]` it is `3`, while the plain mean of the store averages `4`
and `1` is `5/2`. -/
theorem ownerAverage_weighted (db : Db) (ownerId : Nat)
    (hrated : ∃ s ∈ db.stores, s.ownerId = some ownerId ∧
      ∃ r ∈ db.ratings, r.StoreId = s.id) :
    getStoreOwnerAverageRating db ownerId =
      some (roundDouble
        (((ownerDashboard db ownerId).map
            (fun row => (row.ratingCount : ℚ) *
              (specAverage (row.ratings.map (fun r => r.rating))).getD 0)).sum /
          ((((ownerDashboard db ownerId).map (fun row => row.ratingCount)).sum : Nat) : ℚ))) ∧
    (∀ row ∈ ownerDashboard db ownerId,
      row.averageRating =
        (specAverage (row.ratings.map (fun r => r.rating))).map roundDouble ∧
      row.ratingCount = row.ratings.length) ∧
    ((∀ row ∈ ownerDashboard db ownerId,
        row.averageRating = specAverage (row.ratings.map (fun r => r.rating))) →
      getStoreOwnerAverageRating db ownerId =
        some (roundDouble
          (((ownerDashboard db ownerId).map
              (fun row => (row.ratingCount : ℚ) * row.averageRating.getD 0)).sum /
            ((((ownerDashboard db ownerId).map (fun row => row.ratingCount)).sum : Nat) : ℚ)))) ∧
    getStoreOwnerAverageRating exampleDb 1 = some 3 ∧
    (ownerDashboard exampleDb 1).map (fun row => row.averageRating) = [some 4, some 1] ∧
    ((4 : ℚ) + 1) / 2 ≠ 3 := by
  have hvals : (exampleDb.findAllStores (fun s => s.ownerId == some 1) true).map
      (fun s => s.Ratings.map (fun r => r.row.rating)) = [[5, 3], [1]] := by decide
  refine ⟨ownerAverage_exact_weighted db ownerId hrated, ownerDashboard_row db ownerId, ?_, ?_,
    ?_, by norm_num⟩
  · intro hexact
    rw [ownerAverage_exact_weighted db ownerId hrated]
    have hmap : (ownerDashboard db ownerId).map
        (fun row => (row.ratingCount : ℚ) *
          (specAverage (row.ratings.map (fun r => r.rating))).getD 0) =
        (ownerDashboard db ownerId).map
          (fun row => (row.ratingCount : ℚ) * row.averageRating.getD 0) := by
      apply List.map_congr_left
      intro row hrow
      rw [hexact row hrow]
    rw [hmap]
  · rw [ownerAverage_eq]
    have hv : (exampleDb.stores.filter (fun s => s.ownerId == some 1)).flatMap
        (fun s => (exampleDb.ratings.filter (fun r => r.StoreId == s.id)).map
          (fun r => r.rating)) = [5, 3, 1] := by decide
    have hs : specAverage [5, 3, 1] = some ((3 : Int) : ℚ) := by norm_num [specAverage]
    rw [hv, hs, Option.map_some', roundDouble_int 3 (by norm_num) (by norm_num)]
    norm_num
  · have hrows : (ownerDashboard exampleDb 1).map (fun row => row.averageRating) =
        ((ownerDashboard exampleDb 1).map
          (fun row => (row.averageRating, row.ratingCount))).map Prod.fst := by
      rw [List.map_map]
      rfl
    rw [hrows, ownerDashboard_rows, hvals]
    have h4 : specAverage [5, 3] = some ((4 : Int) : ℚ) := by norm_num [specAverage]
    have h1 : specAverage [1] = some ((1 : Int) : ℚ) := by norm_num [specAverage]
    simp only [List.map_cons, List.map_nil, Function.comp, h4, h1, Option.map_some',
      roundDouble_int 4 (by norm_num) (by norm_num),
      roundDouble_int 1 (by norm_num) (by norm_num)]
    norm_num

theorem exampleDashboard_exact :
    ∀ row ∈ ownerDashboard exampleDb 1,
      row.averageRating = specAverage (row.ratings.map (fun r => r.rating)) := by
  intro row hrow
  rw [(ownerDashboard_row exampleDb 1 row hrow).1]
  have hv : row.ratings.map (fun r => r.rating) = [5, 3] ∨
      row.ratings.map (fun r => r.rating) = [1] := by
    unfold ownerDashboard ownerDashboardPayload at hrow
    obtain ⟨s, hs, hsr⟩ := List.mem_map.mp hrow
    rw [← hsr, ownerStoreRow_values]
    have hl : (exampleDb.findAllStores (fun s => s.ownerId == some 1) true).map
        (fun s => s.Ratings.map (fun r => r.row.rating)) = [[5, 3], [1]] := by decide
    have hm : s.Ratings.map (fun r => r.row.rating) ∈ [[5, 3], [1]] := by
      rw [← hl]
      exact List.mem_map_of_mem _ hs
    simpa using hm
  rcases hv with h | h
  · have h4 : specAverage [5, 3] = some ((4 : Int) : ℚ) := by norm_num [specAverage]
    rw [h, h4, Option.map_some', roundDouble_int 4 (by norm_num) (by norm_num)]
  · have h1 : specAverage [1] = some ((1 : Int) : ℚ) := by norm_num [specAverage]
    rw [h, h1, Option.map_some', roundDouble_int 1 (by norm_num) (by norm_num)]

/-- C28, amended, on the example database, where owner 1 has rated stores and
no dashboard average is changed by rounding. -/
theorem ownerAverage_weighted_witness :
    (∃ s ∈ exampleDb.stores, s.ownerId = some 1 ∧ ∃ r ∈ exampleDb.ratings, r.StoreId = s.id) ∧
    (∀ row ∈ ownerDashboard exampleDb 1,
      row.averageRating = specAverage (row.ratings.map (fun r => r.rating))) ∧
    getStoreOwnerAverageRating exampleDb 1 =
      some (roundDouble
        (((ownerDashboard exampleDb 1).map
            (fun row => (row.ratingCount : ℚ) * row.averageRating.getD 0)).sum /
          ((((ownerDashboard exampleDb 1).map (fun row => row.ratingCount)).sum : Nat) : ℚ))) ∧
    getStoreOwnerAverageRating exampleDb 1 = some 3 :=
  ⟨by decide, exampleDashboard_exact,
    (ownerAverage_weighted exampleDb 1 (by decide)).2.2.1 exampleDashboard_exact,
    (ownerAverage_weighted exampleDb 1 (by decide)).2.2.2.1⟩

/-! ## Change of password -/

/-- C22: for every change-password request: the answer is 200, 400 or 404;
unless it is 200 the database is unchanged; it is 200 only if the new password
passes `validatePassword` and the old password matches the caller's stored
hash, and then the caller's hash becomes the hash of the new password; it is
404 when the passwords are acceptable and the caller has no account; in every
case the rows of other users, and every column but the hash, are unchanged. -/
theorem handleChangePassword_spec (hash : JsString → JsString)
    (compare : JsString → JsString → Bool) (db : Db) (userId : Nat)
    (body : ChangePasswordBody) :
    ((handleChangePassword hash compare db userId body).1.status = 200 ∨
      (handleChangePassword hash compare db userId body).1.status = 400 ∨
      (handleChangePassword hash compare db userId body).1.status = 404) ∧
    ((handleChangePassword hash compare db userId body).1.status ≠ 200 →
      (handleChangePassword hash compare db userId body).2 = db) ∧
    ((handleChangePassword hash compare db userId body).1.status = 200 →
      ∃ oldPassword newPassword user,
        body = ⟨some oldPassword, some newPassword⟩ ∧
        validatePassword (some newPassword) = none ∧
        db.users.find? (fun u => u.id == userId) = some user ∧
        compare oldPassword user.passwordHash = true ∧
        (handleChangePassword hash compare db userId body).2 =
          { db with
            users :=
              db.users.map
                (fun u => if u.id == userId then { u with passwordHash := hash newPassword }
                  else u) }) ∧
    (∀ oldPassword newPassword user,
      body = ⟨some oldPassword, some newPassword⟩ → oldPassword ≠ [] →
      validatePassword (some newPassword) = none →
      db.users.find? (fun u => u.id == userId) = some user →
      compare oldPassword user.passwordHash = true →
      (handleChangePassword hash compare db userId body).1.status = 200) ∧
    (∀ oldPassword newPassword,
      body = ⟨some oldPassword, some newPassword⟩ → oldPassword ≠ [] →
      validatePassword (some newPassword) = none →
      (∀ u ∈ db.users, u.id ≠ userId) →
      (handleChangePassword hash compare db userId body).1.status = 404) ∧
    ((handleChangePassword hash compare db userId body).2.users.map
        (fun u => (u.id, u.name, u.email, u.address, u.role)) =
      db.users.map (fun u => (u.id, u.name, u.email, u.address, u.role))) ∧
    (∀ (i : Nat) (u : User), db.users[i]? = some u → u.id ≠ userId →
      (handleChangePassword hash compare db userId body).2.users[i]? = some u) := by
  obtain ⟨oldP, newP⟩ := body
  have hmapKeep : ∀ h : JsString,
      (db.users.map
          (fun u => if u.id == userId then { u with passwordHash := h } else u)).map
        (fun u => (u.id, u.name, u.email, u.address, u.role)) =
      db.users.map (fun u => (u.id, u.name, u.email, u.address, u.role)) := by
    intro h
    rw [List.map_map]
    apply List.map_congr_left
    intro u _
    simp only [Function.comp]
    split_ifs <;> rfl
  have hmapOther : ∀ (h : JsString) (i : Nat) (u : User), db.users[i]? = some u →
      u.id ≠ userId →
      (db.users.map
          (fun u => if u.id == userId then { u with passwordHash := h } else u))[i]? =
        some u := by
    intro h i u hu hne
    simp [List.getElem?_map, hu, hne]
  by_cases hreq : (!truthy oldP || !truthy newP) = true
  · have hout : handleChangePassword hash compare db userId ⟨oldP, newP⟩ =
        (⟨400, .message "Old and new passwords are required"⟩, db) := by
      simp [handleChangePassword, hreq]
    have htr : ∀ o n : JsString, (⟨oldP, newP⟩ : ChangePasswordBody) = ⟨some o, some n⟩ →
        o ≠ [] → validatePassword (some n) = none → False := by
      intro o n hb ho hn
      simp only [ChangePasswordBody.mk.injEq] at hb
      obtain ⟨h1, h2⟩ := hb
      subst h1 h2
      have hto : truthy (some o) = true := by
        cases o with
        | nil => exact absurd rfl ho
        | cons c cs => rfl
      have htn : truthy (some n) = true := by
        cases n with
        | nil => simp [validatePassword, truthy] at hn
        | cons c cs => rfl
      simp [hto, htn] at hreq
    rw [hout]
    refine ⟨Or.inr (Or.inl rfl), fun _ => rfl, fun h => absurd h (by simp), ?_, ?_, rfl,
      fun i u hu _ => hu⟩
    · intro o n user hb ho hn _ _
      exact (htr o n hb ho hn).elim
    · intro o n hb ho hn _
      exact (htr o n hb ho hn).elim
  · have hreq2 : (!truthy oldP || !truthy newP) = false := Bool.eq_false_iff.mpr hreq
    obtain ⟨o, ho⟩ : ∃ o, oldP = some o := by
      cases oldP with
      | none => simp [truthy] at hreq2
      | some o => exact ⟨o, rfl⟩
    obtain ⟨n, hn⟩ : ∃ n, newP = some n := by
      cases newP with
      | none => simp [truthy] at hreq2
      | some n => exact ⟨n, rfl⟩
    subst ho hn
    cases hv : validatePassword (some n) with
    | some msg =>
      have hout : handleChangePassword hash compare db userId ⟨some o, some n⟩ =
          (⟨400, .message msg⟩, db) := by
        simp [handleChangePassword, hreq2, hv]
      rw [hout]
      refine ⟨Or.inr (Or.inl rfl), fun _ => rfl, fun h => absurd h (by simp), ?_, ?_, rfl,
        fun i u hu _ => hu⟩
      · intro o2 n2 user hb _ hn2 _ _
        simp only [ChangePasswordBody.mk.injEq, Option.some.injEq] at hb
        rw [← hb.2, hv] at hn2
        exact absurd hn2 (by simp)
      · intro o2 n2 hb _ hn2 _
        simp only [ChangePasswordBody.mk.injEq, Option.some.injEq] at hb
        rw [← hb.2, hv] at hn2
        exact absurd hn2 (by simp)
    | none =>
      cases hf : db.users.find? (fun u => u.id == userId) with
      | none =>
        have hout : handleChangePassword hash compare db userId ⟨some o, some n⟩ =
            (⟨404, .message "User not found"⟩, db) := by
          simp [handleChangePassword, hreq2, hv, hf]
        rw [hout]
        refine ⟨Or.inr (Or.inr rfl), fun _ => rfl, fun h => absurd h (by simp), ?_,
          fun _ _ _ _ _ _ => rfl, rfl, fun i u hu _ => hu⟩
        intro o2 n2 user _ _ _ hfind _
        exact absurd hfind (by simp)
      | some user =>
        have huid : user.id = userId := by simpa using List.find?_some hf
        by_cases hc : compare o user.passwordHash = true
        · have hout : handleChangePassword hash compare db userId ⟨some o, some n⟩ =
              (⟨200, .message "Password updated successfully"⟩,
                { db with
                  users :=
                    db.users.map
                      (fun u => if u.id == userId then { u with passwordHash := hash n }
                        else u) }) := by
            simp [handleChangePassword, hreq2, hv, hf, hc, huid]
          rw [hout]
          refine ⟨Or.inl rfl, fun h => absurd rfl h,
            fun _ => ⟨o, n, user, rfl, hv, rfl, hc, rfl⟩, fun _ _ _ _ _ _ _ _ => rfl, ?_,
            hmapKeep _, hmapOther _⟩
          intro o2 n2 _ _ _ hall
          exact absurd huid (hall user (List.mem_of_find?_eq_some hf))
        · have hc2 : compare o user.passwordHash = false := Bool.eq_false_iff.mpr hc
          have hout : handleChangePassword hash compare db userId ⟨some o, some n⟩ =
              (⟨400, .message "Old password is incorrect"⟩, db) := by
            simp [handleChangePassword, hreq2, hv, hf, hc2]
          rw [hout]
          refine ⟨Or.inr (Or.inl rfl), fun _ => rfl, fun h => absurd h (by simp), ?_, ?_,
            rfl, fun i u hu _ => hu⟩
          · intro o2 n2 user2 hb _ _ hfind hcmp
            simp only [ChangePasswordBody.mk.injEq, Option.some.injEq] at hb
            have hu2 : user2 = user := (Option.some.inj hfind).symm
            rw [← hb.1, hu2, hc2] at hcmp
            exact absurd hcmp (by simp)
          · intro o2 n2 _ _ _ hall
            exact absurd huid (hall user (List.mem_of_find?_eq_some hf))

/-- C22 on the login example: the right old password changes the hash of user
7, a wrong one is answered 400 and changes nothing. -/
theorem handleChangePassword_spec_witness :
    (handleChangePassword (fun p => p) exampleCompare loginDb 7
      ⟨some (utf16 "Secret1!"), some (utf16 "Better2?")⟩).1.status = 200 ∧
    (handleChangePassword (fun p => p) exampleCompare loginDb 7
      ⟨some (utf16 "Wrong1!"), some (utf16 "Better2?")⟩).2 = loginDb :=
  ⟨(handleChangePassword_spec (fun p => p) exampleCompare loginDb 7
      ⟨some (utf16 "Secret1!"), some (utf16 "Better2?")⟩).2.2.2.1
      (utf16 "Secret1!") (utf16 "Better2?")
      ⟨7, utf16 "Una", utf16 "u@x.y", utf16 "Secret1!", utf16 "C", .USER⟩
      rfl (by decide) (by decide) (by decide) (by decide),
    (handleChangePassword_spec (fun p => p) exampleCompare loginDb 7
      ⟨some (utf16 "Wrong1!"), some (utf16 "Better2?")⟩).2.1 (by decide)⟩

/-! ## Store creation -/

theorem storeErrors_none_iff (name email address : Option JsString) :
    collectValidationErrors
        [("name", fun _ => if !truthy name then some "Name is required" else none),
         ("email", fun _ => validateEmail email),
         ("address", fun _ => validateAddress address)] = none ↔
      truthy name = true ∧ validateEmail email = none ∧ validateAddress address = none := by
  rw [collect_eq _ (by simp [JsObject.keys])]
  simp only [failingEntries, List.filterMap_cons, List.filterMap_nil,
    msgTruthy_validateEmail, msgTruthy_validateAddress]
  cases truthy name <;> cases validateEmail email <;> cases validateAddress address <;>
    simp [msgTruthy]

theorem createStore_frame (db : Db) (name email address : JsString) (ownerId : Option Nat)
    (s : Store) (db2 : Db) (h : db.createStore name email address ownerId = some (s, db2)) :
    db2.stores = db.stores ++ [s] ∧ s.ownerId = ownerId ∧
      ¬ (∃ t ∈ db.stores, t.email = email) := by
  unfold Db.createStore at h
  split_ifs at h with h1 h2 h3 h4 h5
  simp only [Option.some.injEq, Prod.mk.injEq] at h
  obtain ⟨hs, hdb⟩ := h
  subst hs hdb
  refine ⟨rfl, rfl, ?_⟩
  rintro ⟨t, ht, hte⟩
  apply h4
  rw [List.any_eq_true]
  exact ⟨t, ht, by simpa using hte⟩

theorem createStore_duplicate (db : Db) (name email address : JsString)
    (ownerId : Option Nat) (hdup : ∃ t ∈ db.stores, t.email = email) :
    db.createStore name email address ownerId = none := by
  cases h : db.createStore name email address ownerId with
  | none => rfl
  | some created =>
    obtain ⟨s, db2⟩ := created
    exact absurd hdup (createStore_frame db name email address ownerId s db2 h).2.2

theorem adminCreateStore_valid (db : Db) (name email address : Option JsString)
    (ownerId : Option Nat)
    (hname : truthy name = true) (hemail : validateEmail email = none)
    (haddr : validateAddress address = none) :
    adminCreateStore db ⟨name, email, address, ownerId⟩ =
      match (match ownerId with
        | none => some none
        | some k =>
          match db.users.find? (fun u => u.id == k) with
          | none => none
          | some owner =>
            if owner.role != .STORE_OWNER then none else some (some owner) :
          Option (Option User)) with
      | none => (⟨400, .message "Invalid store owner"⟩, db)
      | some owner =>
        match db.createStore (name.getD []) (email.getD []) (address.getD [])
            (owner.map (fun o => o.id)) with
        | some (store, db2) => (⟨201, .store store⟩, db2)
        | none => (⟨500, .message "Internal server error"⟩, db) := by
  have herr := (storeErrors_none_iff name email address).mpr ⟨hname, hemail, haddr⟩
  unfold adminCreateStore
  dsimp only
  rw [herr]

/-- C23: for every store-creation request that passes validation and carries
an `ownerId`, the answer is 400 and nothing is stored unless the `ownerId` is
the id of an existing user whose role is STORE_OWNER; and every store this
endpoint creates has no owner or an owner who is a STORE_OWNER. -/
theorem adminCreateStore_owner (db : Db) (body : StoreBody)
    (hname : truthy body.name = true) (hemail : validateEmail body.email = none)
    (haddr : validateAddress body.address = none) :
    (∀ k, body.ownerId = some k →
      (¬ ∃ u ∈ db.users, u.id = k ∧ u.role = .STORE_OWNER) →
      adminCreateStore db body = (⟨400, .message "Invalid store owner"⟩, db)) ∧
    (∀ s, (adminCreateStore db body).1 = ⟨201, .store s⟩ →
      (adminCreateStore db body).2.stores = db.stores ++ [s] ∧
      (s.ownerId = none ∨
        ∃ u ∈ db.users, s.ownerId = some u.id ∧ u.role = .STORE_OWNER)) ∧
    ((adminCreateStore db body).1.status ≠ 201 → (adminCreateStore db body).2 = db) := by
  obtain ⟨name, email, address, ownerId⟩ := body
  have hval := fun o => adminCreateStore_valid db name email address o hname hemail haddr
  refine ⟨?_, ?_, ?_⟩
  · intro k hk hno
    simp only at hk
    subst hk
    cases hf : db.users.find? (fun u => u.id == k) with
    | none => simp [hval, hf]
    | some u =>
      have hmem : u ∈ db.users := List.mem_of_find?_eq_some hf
      have hid : u.id = k := by simpa using List.find?_some hf
      have hrole : u.role ≠ .STORE_OWNER := fun hr => hno ⟨u, hmem, hid, hr⟩
      simp [hval, hf, hrole]
  · intro s hs
    cases ownerId with
    | none =>
      cases hc : db.createStore (name.getD []) (email.getD []) (address.getD []) none with
      | none => simp [hval, hc] at hs
      | some created =>
        obtain ⟨s2, db2⟩ := created
        simp only [hval, Option.map_none', hc, StoreResponse.mk.injEq,
          StoreRespBody.store.injEq, true_and] at hs ⊢
        subst hs
        obtain ⟨h1, h2, _⟩ := createStore_frame db _ _ _ _ _ _ hc
        exact ⟨h1, Or.inl h2⟩
    | some k =>
      cases hf : db.users.find? (fun u => u.id == k) with
      | none => simp [hval, hf] at hs
      | some u =>
        have hmem : u ∈ db.users := List.mem_of_find?_eq_some hf
        by_cases hrole : u.role = .STORE_OWNER
        · cases hc : db.createStore (name.getD []) (email.getD []) (address.getD [])
              (some u.id) with
          | none => simp [hval, hf, hrole, hc] at hs
          | some created =>
            obtain ⟨s2, db2⟩ := created
            simp only [hval, hf, hrole, bne_self_eq_false,
              Bool.false_eq_true, if_false, Option.map_some', hc, StoreResponse.mk.injEq,
              StoreRespBody.store.injEq, true_and] at hs ⊢
            subst hs
            obtain ⟨h1, h2, _⟩ := createStore_frame db _ _ _ _ _ _ hc
            exact ⟨h1, Or.inr ⟨u, hmem, h2, hrole⟩⟩
        · simp [hval, hf, hrole] at hs
  · intro hst
    cases ownerId with
    | none =>
      cases hc : db.createStore (name.getD []) (email.getD []) (address.getD []) none with
      | none => simp [hval, hc]
      | some created => simp [hval, hc] at hst
    | some k =>
      cases hf : db.users.find? (fun u => u.id == k) with
      | none => simp [hval, hf]
      | some u =>
        by_cases hrole : u.role = .STORE_OWNER
        · cases hc : db.createStore (name.getD []) (email.getD []) (address.getD [])
              (some u.id) with
          | none => simp [hval, hf, hrole, hc]
          | some created => simp [hval, hf, hrole, hc] at hst
        · simp [hval, hf, hrole]

/-- C23 on the example database: user 3 has the role USER, and a store with
`ownerId` 3 is refused. -/
theorem adminCreateStore_owner_witness :
    adminCreateStore exampleDb
        ⟨some (utf16 "New"), some (utf16 "n@s.t"), some (utf16 "5 Road"), some 3⟩ =
      (⟨400, .message "Invalid store owner"⟩, exampleDb) :=
  (adminCreateStore_owner exampleDb
      ⟨some (utf16 "New"), some (utf16 "n@s.t"), some (utf16 "5 Road"), some 3⟩
      (by decide) (by decide) (by decide)).1 3 rfl (by decide)

/-- C26: what the code does on a duplicate store e-mail.  For every
store-creation request that passes validation and whose e-mail is that of an
existing store, no store is created, and when the owner check passes the
insert fails on the unique index and the answer is 500, not 400. -/
theorem adminCreateStore_duplicate_email (db : Db) (body : StoreBody) (email : JsString)
    (hname : truthy body.name = true) (hbody : body.email = some email)
    (hemail : validateEmail (some email) = none)
    (haddr : validateAddress body.address = none)
    (hdup : ∃ s ∈ db.stores, s.email = email) :
    (adminCreateStore db body).2 = db ∧
    (body.ownerId = none →
      adminCreateStore db body = (⟨500, .message "Internal server error"⟩, db)) ∧
    (∀ k u, body.ownerId = some k → db.users.find? (fun u => u.id == k) = some u →
      u.role = .STORE_OWNER →
      adminCreateStore db body = (⟨500, .message "Internal server error"⟩, db)) := by
  obtain ⟨name, email2, address, ownerId⟩ := body
  simp only at hbody
  subst hbody
  have hval := fun o => adminCreateStore_valid db name (some email) address o hname hemail haddr
  have hcreate : ∀ o, db.createStore (name.getD []) email (address.getD []) o = none :=
    fun o => createStore_duplicate db _ _ _ o hdup
  refine ⟨?_, ?_, ?_⟩
  · cases ownerId with
    | none => simp [hval, hcreate]
    | some k =>
      cases hf : db.users.find? (fun u => u.id == k) with
      | none => simp [hval, hf]
      | some u =>
        by_cases hrole : u.role = .STORE_OWNER
        · simp [hval, hf, hrole, hcreate]
        · simp [hval, hf, hrole]
  · intro ho
    simp only at ho
    subst ho
    simp [hval, hcreate]
  · intro k u ho hf hrole
    simp only at ho
    subst ho
    simp [hval, hf, hrole, hcreate]

/-- C26 at the failing input: creating a store with the e-mail of store 1 of
the example database is answered 500 and stores nothing. -/
theorem adminCreateStore_duplicate_email_witness :
    adminCreateStore exampleDb duplicateStoreBody =
      (⟨500, .message "Internal server error"⟩, exampleDb) :=
  (adminCreateStore_duplicate_email exampleDb duplicateStoreBody (utf16 "a@s.t")
    (by decide) rfl (by decide) (by decide) (by decide)).2.1 rfl

/-! ## Sign-up -/

theorem codePoints_le_length (s : JsString) : codePoints s ≤ s.length := by
  have h : ∀ n (t : JsString), t.length ≤ n → codePoints t ≤ t.length := by
    intro n
    induction n with
    | zero =>
      intro t ht
      have : t = [] := List.length_eq_zero.mp (Nat.le_zero.mp ht)
      subst this
      simp [codePoints]
    | succ n ih =>
      intro t ht
      match t, ht with
      | [], _ => simp [codePoints]
      | [_], _ => simp [codePoints]
      | c :: d :: rest, ht =>
        simp only [List.length_cons] at ht
        have h1 := ih rest (by omega)
        have h2 := ih (d :: rest) (by simp only [List.length_cons]; omega)
        simp only [List.length_cons] at h2
        rw [codePoints]
        split_ifs
        · simp only [List.length_cons]
          omega
        · simp only [List.length_cons]
          omega
  exact h s.length s (Nat.le_refl _)

theorem handleSignup_valid (sign : Claims → JsString) (hash : JsString → JsString) (db : Db)
    (name email address password : JsString) (role : Option JsString)
    (hn : validateName (some name) = none) (he : validateEmail (some email) = none)
    (ha : validateAddress (some address) = none)
    (hp : validatePassword (some password) = none) :
    handleSignup sign hash db ⟨some name, some email, some address, some password, role⟩ =
      match db.users.find? (fun u => u.email == email) with
      | some _ => (⟨400, .message "Email is already registered"⟩, db)
      | none =>
        match db.createUser name email (hash password) address .USER with
        | some (user, db2) =>
          (⟨201, .session (generateToken sign user)
            { id := user.id, name := user.name, email := user.email,
              address := user.address, role := user.role }⟩, db2)
        | none => (⟨500, .message "Internal server error"⟩, db) := by
  have herr := (signupErrors_none_iff (some name) (some email) (some address)
    (some password)).mpr ⟨hn, he, ha, hp⟩
  unfold handleSignup
  dsimp only
  rw [herr]
  rfl

/-- C21: what `handleSignup` does.  A request that fails a validator is
answered 400 with the per-field errors and creates nothing; a valid request
whose e-mail is registered is answered 400 and creates nothing; a valid
request with a new e-mail of at most 120 characters creates exactly one
account, of role USER whatever `role` the body carries, and is answered 201
with the token and the profile (no hash); a valid request with a new e-mail of
more than 120 characters is answered 500 and creates nothing, because the
insert fails on the `STRING(120)` column. -/
theorem handleSignup_spec (sign : Claims → JsString) (hash : JsString → JsString) (db : Db)
    (name email address password : JsString) (role : Option JsString) :
    (∀ (body : SignupBody) (errors : JsObject String),
      collectValidationErrors
        [("name", fun _ => validateName body.name),
         ("email", fun _ => validateEmail body.email),
         ("address", fun _ => validateAddress body.address),
         ("password", fun _ => validatePassword body.password)] = some errors →
      handleSignup sign hash db body = (⟨400, .errors errors⟩, db)) ∧
    (validateName (some name) = none → validateEmail (some email) = none →
      validateAddress (some address) = none → validatePassword (some password) = none →
      ((∃ u ∈ db.users, u.email = email) →
        handleSignup sign hash db ⟨some name, some email, some address, some password, role⟩ =
          (⟨400, .message "Email is already registered"⟩, db)) ∧
      ((∀ u ∈ db.users, u.email ≠ email) → codePoints email ≤ 120 →
        handleSignup sign hash db ⟨some name, some email, some address, some password, role⟩ =
          (⟨201, .session (sign ⟨db.nextUserId, .USER, name, email⟩)
              ⟨db.nextUserId, name, email, address, .USER⟩⟩,
            { db with
              users :=
                db.users ++ [⟨db.nextUserId, name, email, hash password, address, .USER⟩],
              nextUserId := db.nextUserId + 1 })) ∧
      ((∀ u ∈ db.users, u.email ≠ email) → codePoints email > 120 →
        handleSignup sign hash db ⟨some name, some email, some address, some password, role⟩ =
          (⟨500, .message "Internal server error"⟩, db))) := by
  constructor
  · intro body errors herr
    unfold handleSignup
    dsimp only
    rw [herr]
  · intro hn he ha hp
    have hval := handleSignup_valid sign hash db name email address password role hn he ha hp
    have hname : codePoints name ≤ 60 := by
      have h1 := validateName_isSome name
      rw [hn] at h1
      have h2 : ¬ name.length > NAME_MAX := by
        intro h
        simp [h] at h1
      have h3 := codePoints_le_length name
      unfold NAME_MAX at h2
      omega
    have haddr : codePoints address ≤ 400 := by
      have h1 := validateAddress_isSome address
      rw [ha] at h1
      have h2 : ¬ address.length > ADDRESS_MAX := by
        intro h
        simp [h] at h1
      have h3 := codePoints_le_length address
      unfold ADDRESS_MAX at h2
      omega
    refine ⟨?_, ?_, ?_⟩
    · rintro ⟨u, hu, hue⟩
      cases hf : db.users.find? (fun u => u.email == email) with
      | none =>
        have := List.find?_eq_none.mp hf u hu
        simp [hue] at this
      | some u2 =>
        rw [hval, hf]
    · intro hnew hwidth
      have hf : db.users.find? (fun u => u.email == email) = none := by
        rw [List.find?_eq_none]
        intro u hu
        simpa using hnew u hu
      have hany : db.users.any (fun u => u.email == email) = false := by
        rw [List.any_eq_false]
        intro u hu
        simpa using hnew u hu
      have hcreate : db.createUser name email (hash password) address .USER =
          some (⟨db.nextUserId, name, email, hash password, address, .USER⟩,
            { db with
              users :=
                db.users ++ [⟨db.nextUserId, name, email, hash password, address, .USER⟩],
              nextUserId := db.nextUserId + 1 }) := by
        unfold Db.createUser
        rw [if_neg (by omega), if_neg (by omega), if_neg (by omega), hany]
        rfl
      rw [hval, hf]
      simp only [hcreate]
      rfl
    · intro hnew hwidth
      have hf : db.users.find? (fun u => u.email == email) = none := by
        rw [List.find?_eq_none]
        intro u hu
        simpa using hnew u hu
      have hcreate : db.createUser name email (hash password) address .USER = none := by
        unfold Db.createUser
        rw [if_neg (by omega), if_pos hwidth]
      rw [hval, hf]
      simp only [hcreate]

set_option maxRecDepth 100000 in
/-- C21 at the failing input: a sign-up that passes every validator, with a new
e-mail of 121 characters, is answered 500 and creates no account. -/
theorem handleSignup_spec_witness :
    codePoints longEmail = 121 ∧
    handleSignup exampleSign (fun p => p) exampleDb longEmailSignup =
      (⟨500, .message "Internal server error"⟩, exampleDb) :=
  ⟨by decide,
    ((handleSignup_spec exampleSign (fun p => p) exampleDb (List.replicate 20 97) longEmail
      (utf16 "1 Road") (utf16 "Abcdef1!") none).2
      (by decide) (by decide) (by decide) (by decide)).2.2 (by decide) (by decide)⟩

end StoreRatings
